import Mathlib

/-!
# Ourgorithm audit engine (`src/app/page.js`)

A shallow embedding of the retrieval layer (`fetchWithProxy`, `fetchWithRetries`),
the platform classifier (`detectPlatform`), the audit engine (`runAuditChecks`) and
the directory-readiness evaluation of `runFullAudit`, followed by theorems about them.

JavaScript strings are embedded as Lean `String`s (sequences of code points).  The
`length` property counts UTF-16 code units, see `jsLength`.
-/

namespace Ourgorithm

/-! # Definitions -/

/-! ## String primitives -/

/-- Number of UTF-16 code units a code point occupies in a JavaScript string. -/
def utf16Units (c : Char) : Nat := if c.toNat < 65536 then 1 else 2

/-- The `length` property of a JavaScript string: its number of UTF-16 code units. -/
def jsLength (s : String) : Nat := (s.data.map utf16Units).sum

/-- Truthiness of a JavaScript string: every string but the empty one is truthy. -/
def truthy (s : String) : Bool := !s.data.isEmpty

/-- The operator `a || b` on strings: `a` when it is truthy, else `b`. -/
def orElse (a b : String) : String := if truthy a then a else b

/-- Characters matched by `\s` and removed by `String.prototype.trim`:
the ECMAScript WhiteSpace and LineTerminator code points. -/
def isJsWhitespace (c : Char) : Bool :=
  let n := c.toNat
  n == 0x09 || n == 0x0A || n == 0x0B || n == 0x0C || n == 0x0D || n == 0x20 ||
  n == 0xA0 || n == 0x1680 || (0x2000 ≤ n && n ≤ 0x200A) || n == 0x2028 ||
  n == 0x2029 || n == 0x202F || n == 0x205F || n == 0x3000 || n == 0xFEFF

/-- The method `String.prototype.trim` on the list of characters. -/
def trimChars (cs : List Char) : List Char :=
  (cs.dropWhile isJsWhitespace).rdropWhile isJsWhitespace

/-- The call `s.trim()`. -/
def trim (s : String) : String := ⟨trimChars s.data⟩

/-- ASCII lower-casing of one character. -/
def lowerChar (c : Char) : Char := c.toLower

/-- The call `s.toLowerCase()`.  The embedding maps the letters `A`..`Z` to `a`..`z` and leaves
every other character unchanged, which is what `toLowerCase` does on ASCII text.
Statements that have to hold whatever the method does to other letters take it as a
parameter, see `runAuditChecksWith`. -/
def toLowerCase (s : String) : String := ⟨s.data.map lowerChar⟩

/-- The method `includes` on character lists: `needle` occurs as a contiguous block of `cs`. -/
def includesChars (needle : List Char) : List Char → Bool
  | [] => needle.isEmpty
  | c :: cs => needle.isPrefixOf (c :: cs) || includesChars needle cs

/-- The call `s.includes(needle)`. -/
def includes (s needle : String) : Bool := includesChars needle.data s.data

/-- The call `s.startsWith(p)`. -/
def startsWith (s p : String) : Bool := p.data.isPrefixOf s.data

/-- The call `cs.replace(/^p/, '')` for a literal `p`: drop `p` when the text starts with it. -/
def stripLeading (p cs : List Char) : List Char :=
  if p.isPrefixOf cs then cs.drop p.length else cs

/-- The call `cs.replace(/^https?:\/\//, '')`.  The optional `s` is greedy, so `https://` is tried
first; the two alternatives cannot both match. -/
def stripScheme (cs : List Char) : List Char :=
  if "https://".data.isPrefixOf cs then cs.drop 8
  else if "http://".data.isPrefixOf cs then cs.drop 7
  else cs

/-- The call `cs.replace(/\/$/, '')`: drop one final slash. -/
def stripTrailingSlash (cs : List Char) : List Char :=
  if cs.getLast? = some '/' then cs.dropLast else cs

/-! ## Domain normalization (`runFullAudit`, first statement) -/

/-- The character-level form of
`domain.replace(/^https?:\/\//, '').replace(/^www\./, '').replace(/\/$/, '').trim()`. -/
def cleanDomainChars (cs : List Char) : List Char :=
  trimChars (stripTrailingSlash (stripLeading "www.".data (stripScheme cs)))

/-- The `cleanDomain` computed by `runFullAudit` from its argument. -/
def normalizeDomain (domain : String) : String := ⟨cleanDomainChars domain.data⟩


/-! ## Platform classifier (`detectPlatform`) -/

/-- The object returned by `detectPlatform`. -/
structure Platform where
  name : String
  confidence : Nat
  canFix : String
  note : String
  deriving DecidableEq, Repr

/-- Number of matches collected by `cs.match(/needle/g)`: occurrences of `needle` counted
left to right, the scan resuming after the end of each match.  `skip` is the number of
characters of the last match still to be passed over. -/
def countMatchesAux (needle : List Char) : Nat → List Char → Nat
  | _, [] => 0
  | skip + 1, _ :: cs => countMatchesAux needle skip cs
  | 0, c :: cs =>
    if needle.isPrefixOf (c :: cs) then 1 + countMatchesAux needle (needle.length - 1) cs
    else countMatchesAux needle 0 cs

/-- The value `(s.match(/needle/g) || []).length` for a non-empty literal `needle`. -/
def countMatches (needle s : String) : Nat := countMatchesAux needle.data 0 s.data

/-- The body of `detectPlatform` after `const h = html.toLowerCase()`: the chain of
`if (...) return ...` statements in source order. -/
def detectPlatformLower (h : String) : Platform :=
  if includes h "wp-content" || includes h "wp-includes" || includes h "wp-json" ||
      includes h "wordpress" || includes h "/wp-" || includes h "woocommerce" then
    { name := "WordPress", confidence := 95, canFix := "full",
      note := "Full control — we can fix everything" }
  else if includes h "wix.com" || includes h "_wix_" || includes h "wixsite.com" ||
           includes h "static.wixstatic.com" || includes h "wix-code" then
    { name := "Wix", confidence := 95, canFix := "partial",
      note := "Some limitations — can optimize within constraints" }
  else if includes h "squarespace" || includes h "sqsp.net" ||
           includes h "static1.squarespace" || includes h "squarespace-cdn" then
    { name := "Squarespace", confidence := 95, canFix := "partial",
      note := "Most fixes possible with some workarounds" }
  else if includes h "shopify" || includes h "cdn.shopify" || includes h "myshopify.com" ||
           includes h "shopifycdn" then
    { name := "Shopify", confidence := 95, canFix := "partial",
      note := "E-commerce focused — good SEO tools available" }
  else if includes h "webflow" || includes h "website-files.com" ||
           includes h "webflow.io" || includes h "w-nav" || includes h "w-slider" then
    { name := "Webflow", confidence := 95, canFix := "full",
      note := "Good control — clean implementation possible" }
  else if includes h "godaddy" || includes h "secureserver.net" ||
           includes h "godaddysites" || includes h "mywebsite.godaddy" ||
           includes h "ondigitalocean.app" then
    { name := "GoDaddy", confidence := 85, canFix := "partial",
      note := "Basic builder — some limitations" }
  else if includes h "weebly" || includes h "weeblycloud" || includes h "editmysite" then
    { name := "Weebly", confidence := 95, canFix := "partial",
      note := "Simple builder — basic SEO available" }
  else if includes h "duda" || includes h "dudaone.com" || includes h "duda.co" then
    { name := "Duda", confidence := 95, canFix := "full",
      note := "Agency-friendly — good capabilities" }
  else if includes h "hubspot" || includes h "hs-scripts.com" ||
           includes h "hs-analytics" || includes h "hubspotusercontent" ||
           includes h "hscollectedforms" then
    { name := "HubSpot", confidence := 88, canFix := "full",
      note := "Marketing platform — excellent tools" }
  else if includes h "clickfunnels" || includes h "cfimg.com" || includes h "cffastcdn" then
    { name := "ClickFunnels", confidence := 95, canFix := "limited",
      note := "Funnel builder — not built for SEO" }
  else if includes h "drupal" || includes h "/sites/default/files" ||
           includes h "drupal.js" || includes h "/sites/all/" then
    { name := "Drupal", confidence := 90, canFix := "full",
      note := "Powerful CMS — full control available" }
  else if includes h "joomla" || includes h "/media/jui/" || includes h "/components/com_" then
    { name := "Joomla", confidence := 90, canFix := "full",
      note := "Established CMS — full control available" }
  else if includes h "ghost.io" || includes h "ghost-url" || includes h "\"ghost\"" then
    { name := "Ghost", confidence := 90, canFix := "full",
      note := "Modern blogging platform — clean code" }
  else if includes h "kajabi" || includes h "kajabi-cdn" then
    { name := "Kajabi", confidence := 95, canFix := "limited",
      note := "Course platform — limited SEO options" }
  else if includes h "bigcommerce" || includes h "bigcommerce.com" then
    { name := "BigCommerce", confidence := 95, canFix := "partial",
      note := "E-commerce platform — solid SEO basics" }
  else if includes h "framer" || includes h "framerusercontent" || includes h "framer.com" then
    { name := "Framer", confidence := 95, canFix := "partial",
      note := "Design-focused — some SEO limitations" }
  else if includes h "bubble.io" || includes h "bblcdn.com" then
    { name := "Bubble", confidence := 95, canFix := "limited",
      note := "No-code app builder — SEO limitations" }
  else if includes h "carrd.co" || includes h "crd.co" then
    { name := "Carrd", confidence := 95, canFix := "limited",
      note := "Simple one-page builder — very basic SEO" }
  else if includes h "jimdo" || includes h "jimdocdn" then
    { name := "Jimdo", confidence := 95, canFix := "partial",
      note := "Simple builder — basic SEO available" }
  else if includes h "leadpages" || includes h "lpages.co" then
    { name := "Leadpages", confidence := 95, canFix := "limited",
      note := "Landing page builder — limited SEO" }
  else if includes h "format.com" || includes h "myportfolio.com" ||
           includes h "adobe portfolio" then
    { name := "Adobe Portfolio", confidence := 90, canFix := "limited",
      note := "Portfolio builder — basic SEO only" }
  else if includes h "blogger.com" || includes h "blogspot.com" ||
           includes h "blogblog.com" then
    { name := "Blogger", confidence := 95, canFix := "partial",
      note := "Google blog platform — basic SEO" }
  else if includes h "cargo.site" || includes h "cargocollective" then
    { name := "Cargo", confidence := 95, canFix := "limited",
      note := "Portfolio platform — limited SEO" }
  else if includes h "10web.io" || includes h "starter.starter" then
    { name := "10Web", confidence := 90, canFix := "full",
      note := "WordPress-based AI builder — full control" }
  else if includes h "elementor" || includes h "elementor-kit" then
    { name := "WordPress + Elementor", confidence := 95, canFix := "full",
      note := "WordPress page builder — full control" }
  else if includes h "divi" || includes h "et-builder" || includes h "elegantthemes" then
    { name := "WordPress + Divi", confidence := 95, canFix := "full",
      note := "WordPress page builder — full control" }
  else if includes h "_next/static" || includes h "__next" || includes h "next/head" then
    { name := "Next.js (React)", confidence := 85, canFix := "full",
      note := "Modern framework — full control with developer" }
  else if includes h "gatsby" || includes h "___gatsby" then
    { name := "Gatsby", confidence := 90, canFix := "full",
      note := "Static site generator — fast & SEO-friendly" }
  else if includes h "hugo-" || includes h "powered by hugo" then
    { name := "Hugo", confidence := 85, canFix := "full",
      note := "Static site generator — fast & lightweight" }
  else if (includes h "bootstrap" || includes h "btn btn-") && !(includes h "wp-") then
    { name := "Custom (Bootstrap)", confidence := 70, canFix := "full",
      note := "Custom built — likely full control" }
  else if (includes h "jquery" && includes h "custom") ||
           decide (countMatches "jquery" h > 2) then
    { name := "Custom Built", confidence := 60, canFix := "full",
      note := "Custom built — needs developer for changes" }
  else if includes h "netlify" || includes h "vercel" || includes h "cloudflare pages" ||
           includes h "github.io" || includes h "gitlab.io" then
    { name := "Custom/Static", confidence := 70, canFix := "full",
      note := "Likely custom or static site — full control" }
  else if includes h "cms" || includes h "content-management" then
    { name := "Unknown CMS", confidence := 40, canFix := "unknown",
      note := "Uses a CMS but cannot identify which one" }
  else
    { name := "Custom/Unknown", confidence := 30, canFix := "unknown",
      note := "Could not detect platform — may be custom built or behind protection" }

/-- The function `detectPlatform(html)`. -/
def detectPlatform (html : String) : Platform := detectPlatformLower (toLowerCase html)

/-- A signature rule of the classifier as the specification describes it: a predicate on
the lower-cased html and the platform reported when it holds. -/
structure SignatureRule where
  applies : String → Bool
  result : Platform

/-- The ordered table of signature rules, in the order of the source. -/
def signatureRules : List SignatureRule := [
  { applies := fun h =>
      includes h "wp-content" || includes h "wp-includes" || includes h "wp-json" ||
        includes h "wordpress" || includes h "/wp-" || includes h "woocommerce"
    result :=
      { name := "WordPress", confidence := 95, canFix := "full",
        note := "Full control — we can fix everything" } },
  { applies := fun h =>
      includes h "wix.com" || includes h "_wix_" || includes h "wixsite.com" ||
        includes h "static.wixstatic.com" || includes h "wix-code"
    result :=
      { name := "Wix", confidence := 95, canFix := "partial",
        note := "Some limitations — can optimize within constraints" } },
  { applies := fun h =>
      includes h "squarespace" || includes h "sqsp.net" ||
        includes h "static1.squarespace" || includes h "squarespace-cdn"
    result :=
      { name := "Squarespace", confidence := 95, canFix := "partial",
        note := "Most fixes possible with some workarounds" } },
  { applies := fun h =>
      includes h "shopify" || includes h "cdn.shopify" || includes h "myshopify.com" ||
        includes h "shopifycdn"
    result :=
      { name := "Shopify", confidence := 95, canFix := "partial",
        note := "E-commerce focused — good SEO tools available" } },
  { applies := fun h =>
      includes h "webflow" || includes h "website-files.com" || includes h "webflow.io" ||
        includes h "w-nav" || includes h "w-slider"
    result :=
      { name := "Webflow", confidence := 95, canFix := "full",
        note := "Good control — clean implementation possible" } },
  { applies := fun h =>
      includes h "godaddy" || includes h "secureserver.net" ||
        includes h "godaddysites" || includes h "mywebsite.godaddy" ||
        includes h "ondigitalocean.app"
    result :=
      { name := "GoDaddy", confidence := 85, canFix := "partial",
        note := "Basic builder — some limitations" } },
  { applies := fun h =>
      includes h "weebly" || includes h "weeblycloud" || includes h "editmysite"
    result :=
      { name := "Weebly", confidence := 95, canFix := "partial",
        note := "Simple builder — basic SEO available" } },
  { applies := fun h =>
      includes h "duda" || includes h "dudaone.com" || includes h "duda.co"
    result :=
      { name := "Duda", confidence := 95, canFix := "full",
        note := "Agency-friendly — good capabilities" } },
  { applies := fun h =>
      includes h "hubspot" || includes h "hs-scripts.com" || includes h "hs-analytics" ||
        includes h "hubspotusercontent" || includes h "hscollectedforms"
    result :=
      { name := "HubSpot", confidence := 88, canFix := "full",
        note := "Marketing platform — excellent tools" } },
  { applies := fun h =>
      includes h "clickfunnels" || includes h "cfimg.com" || includes h "cffastcdn"
    result :=
      { name := "ClickFunnels", confidence := 95, canFix := "limited",
        note := "Funnel builder — not built for SEO" } },
  { applies := fun h =>
      includes h "drupal" || includes h "/sites/default/files" ||
        includes h "drupal.js" || includes h "/sites/all/"
    result :=
      { name := "Drupal", confidence := 90, canFix := "full",
        note := "Powerful CMS — full control available" } },
  { applies := fun h =>
      includes h "joomla" || includes h "/media/jui/" || includes h "/components/com_"
    result :=
      { name := "Joomla", confidence := 90, canFix := "full",
        note := "Established CMS — full control available" } },
  { applies := fun h =>
      includes h "ghost.io" || includes h "ghost-url" || includes h "\"ghost\""
    result :=
      { name := "Ghost", confidence := 90, canFix := "full",
        note := "Modern blogging platform — clean code" } },
  { applies := fun h =>
      includes h "kajabi" || includes h "kajabi-cdn"
    result :=
      { name := "Kajabi", confidence := 95, canFix := "limited",
        note := "Course platform — limited SEO options" } },
  { applies := fun h =>
      includes h "bigcommerce" || includes h "bigcommerce.com"
    result :=
      { name := "BigCommerce", confidence := 95, canFix := "partial",
        note := "E-commerce platform — solid SEO basics" } },
  { applies := fun h =>
      includes h "framer" || includes h "framerusercontent" || includes h "framer.com"
    result :=
      { name := "Framer", confidence := 95, canFix := "partial",
        note := "Design-focused — some SEO limitations" } },
  { applies := fun h =>
      includes h "bubble.io" || includes h "bblcdn.com"
    result :=
      { name := "Bubble", confidence := 95, canFix := "limited",
        note := "No-code app builder — SEO limitations" } },
  { applies := fun h =>
      includes h "carrd.co" || includes h "crd.co"
    result :=
      { name := "Carrd", confidence := 95, canFix := "limited",
        note := "Simple one-page builder — very basic SEO" } },
  { applies := fun h =>
      includes h "jimdo" || includes h "jimdocdn"
    result :=
      { name := "Jimdo", confidence := 95, canFix := "partial",
        note := "Simple builder — basic SEO available" } },
  { applies := fun h =>
      includes h "leadpages" || includes h "lpages.co"
    result :=
      { name := "Leadpages", confidence := 95, canFix := "limited",
        note := "Landing page builder — limited SEO" } },
  { applies := fun h =>
      includes h "format.com" || includes h "myportfolio.com" ||
        includes h "adobe portfolio"
    result :=
      { name := "Adobe Portfolio", confidence := 90, canFix := "limited",
        note := "Portfolio builder — basic SEO only" } },
  { applies := fun h =>
      includes h "blogger.com" || includes h "blogspot.com" || includes h "blogblog.com"
    result :=
      { name := "Blogger", confidence := 95, canFix := "partial",
        note := "Google blog platform — basic SEO" } },
  { applies := fun h =>
      includes h "cargo.site" || includes h "cargocollective"
    result :=
      { name := "Cargo", confidence := 95, canFix := "limited",
        note := "Portfolio platform — limited SEO" } },
  { applies := fun h =>
      includes h "10web.io" || includes h "starter.starter"
    result :=
      { name := "10Web", confidence := 90, canFix := "full",
        note := "WordPress-based AI builder — full control" } },
  { applies := fun h =>
      includes h "elementor" || includes h "elementor-kit"
    result :=
      { name := "WordPress + Elementor", confidence := 95, canFix := "full",
        note := "WordPress page builder — full control" } },
  { applies := fun h =>
      includes h "divi" || includes h "et-builder" || includes h "elegantthemes"
    result :=
      { name := "WordPress + Divi", confidence := 95, canFix := "full",
        note := "WordPress page builder — full control" } },
  { applies := fun h =>
      includes h "_next/static" || includes h "__next" || includes h "next/head"
    result :=
      { name := "Next.js (React)", confidence := 85, canFix := "full",
        note := "Modern framework — full control with developer" } },
  { applies := fun h =>
      includes h "gatsby" || includes h "___gatsby"
    result :=
      { name := "Gatsby", confidence := 90, canFix := "full",
        note := "Static site generator — fast & SEO-friendly" } },
  { applies := fun h =>
      includes h "hugo-" || includes h "powered by hugo"
    result :=
      { name := "Hugo", confidence := 85, canFix := "full",
        note := "Static site generator — fast & lightweight" } },
  { applies := fun h =>
      (includes h "bootstrap" || includes h "btn btn-") && !(includes h "wp-")
    result :=
      { name := "Custom (Bootstrap)", confidence := 70, canFix := "full",
        note := "Custom built — likely full control" } },
  { applies := fun h =>
      (includes h "jquery" && includes h "custom") || decide (countMatches "jquery" h > 2)
    result :=
      { name := "Custom Built", confidence := 60, canFix := "full",
        note := "Custom built — needs developer for changes" } },
  { applies := fun h =>
      includes h "netlify" || includes h "vercel" || includes h "cloudflare pages" ||
        includes h "github.io" || includes h "gitlab.io"
    result :=
      { name := "Custom/Static", confidence := 70, canFix := "full",
        note := "Likely custom or static site — full control" } },
  { applies := fun h =>
      includes h "cms" || includes h "content-management"
    result :=
      { name := "Unknown CMS", confidence := 40, canFix := "unknown",
        note := "Uses a CMS but cannot identify which one" } } ]

/-- The platform reported when no signature rule matches. -/
def unknownPlatform : Platform :=
  { name := "Custom/Unknown", confidence := 30, canFix := "unknown",
    note := "Could not detect platform — may be custom built or behind protection" }

/-- First-match search: the result of the earliest rule of `rules` whose predicate holds
on `h`, and `unknownPlatform` when none does. -/
def firstMatch : List SignatureRule → String → Platform
  | [], _ => unknownPlatform
  | r :: rs, h => if r.applies h then r.result else firstMatch rs h

/-- The classifier as the specification states it: lower-case the html, then search the
ordered table for the first rule that matches. -/
def classifyPlatform (html : String) : Platform := firstMatch signatureRules (toLowerCase html)

/-! ## Retrieval layer (`CORS_PROXIES`, `fetchWithProxy`, `fetchWithRetries`) -/

/-- An entry of `CORS_PROXIES`.  `endpoint` is the constant text that `buildUrl` puts in
front of `encodeURIComponent(url)`; `parseResponse` is `response.text()` for every entry. -/
structure Proxy where
  name : String
  endpoint : String
  deriving DecidableEq, Repr

/-- The relays, in configured order. -/
def CORS_PROXIES : List Proxy := [
  { name := "corsproxy.io", endpoint := "https://corsproxy.io/?" },
  { name := "allorigins", endpoint := "https://api.allorigins.win/raw?url=" },
  { name := "corsproxy.org", endpoint := "https://corsproxy.org/?" },
  { name := "cors-anywhere-alt", endpoint := "https://api.codetabs.com/v1/proxy?quest=" } ]

/-- What one relay request inside the `try` block of `fetchWithProxy` comes to. -/
inductive RelayResponse where
  /-- The request was aborted by the 12 second timer (`error.name === 'AbortError'`). -/
  | aborted
  /-- Any other exception thrown by `fetch` or by `response.text()`, with its message. -/
  | threw (message : String)
  /-- A response arrived: `response.ok`, `response.status` and the text of its body. -/
  | http (ok : Bool) (status : Nat) (body : String)
  deriving DecidableEq, Repr

/-- The network as seen by the retrieval layer: the outcome of requesting the candidate
`url` through the relay called `proxy`. -/
abbrev Network := (proxy : String) → (url : String) → RelayResponse

/-- One relay request that was issued. -/
structure Attempt where
  url : String
  proxy : String
  deriving DecidableEq, Repr

/-- The objects returned by `fetchWithProxy` and `fetchWithRetries`:
`{ success: true, html, url, proxy }` or `{ success: false, error, ... }`, where the
fields `noPresence` and `unreachable` exist only on the failure built by
`fetchWithRetries` (`none` stands for an absent field). -/
inductive FetchResult where
  | ok (html url proxy : String)
  | failed (error : String) (noPresence unreachable : Option Bool)
  deriving DecidableEq, Repr

/-- The field `success`. -/
def FetchResult.success : FetchResult → Bool
  | .ok _ _ _ => true
  | .failed _ _ _ => false

/-- The payload test `html && html.length > 500 && html.includes('<')`. -/
def validPayload (html : String) : Bool :=
  truthy html && decide (jsLength html > 500) && includes html "<"

/-- The loop of `fetchWithProxy` over the relays still to try, `lastError` being the
current value of that variable.  Returns the result and the requests issued, in order. -/
def fetchLoop (net : Network) (url : String) :
    List Proxy → String → FetchResult × List Attempt
  | [], lastError => (.failed lastError none none, [])
  | p :: ps, _ =>
    let step (next : FetchResult × List Attempt) : FetchResult × List Attempt :=
      (next.1, { url := url, proxy := p.name } :: next.2)
    match net p.name url with
    | .http ok status body =>
      if !ok then step (fetchLoop net url ps (p.name ++ ": HTTP " ++ toString status))
      else if validPayload body then
        (.ok body url p.name, [{ url := url, proxy := p.name }])
      else step (fetchLoop net url ps (p.name ++ ": Invalid or empty response"))
    | .aborted => step (fetchLoop net url ps (p.name ++ ": Timeout"))
    | .threw message => step (fetchLoop net url ps (p.name ++ ": " ++ message))

/-- The function `fetchWithProxy(url)` together with the requests it issued. -/
def fetchWithProxy (net : Network) (url : String) : FetchResult × List Attempt :=
  fetchLoop net url CORS_PROXIES "All proxies failed"

/-- The elements of `[...new Set(xs)]`: each value once, at its first position. -/
def uniqueInOrder : List String → List String
  | [] => []
  | x :: xs => x :: (uniqueInOrder xs).filter (fun y => y != x)

/-- The `cleanDomain` of `fetchWithRetries`: `domain.replace(/^www\./, '')`. -/
def stripWww (domain : String) : String := ⟨stripLeading "www.".data domain.data⟩

/-- The `uniqueUrls` of `fetchWithRetries`. -/
def uniqueUrls (domain : String) : List String :=
  let cleanDomain := stripWww domain
  uniqueInOrder [
    "https://" ++ cleanDomain,
    "https://www." ++ cleanDomain,
    "http://" ++ cleanDomain,
    "http://www." ++ cleanDomain ]

/-- The failure object built at the end of `fetchWithRetries`. -/
def unreachableFailure (domain : String) : FetchResult :=
  .failed ("Could not reach " ++ domain ++ " after trying all URL variations and proxies. " ++
    "The site may have bot protection or be temporarily unavailable.") (some false) (some true)

/-- The loop of `fetchWithRetries` over the candidate URLs still to try. -/
def retryLoop (net : Network) (domain : String) : List String → FetchResult × List Attempt
  | [] => (unreachableFailure domain, [])
  | url :: urls =>
    let result := fetchWithProxy net url
    if result.1.success then result
    else
      let next := retryLoop net domain urls
      (next.1, result.2 ++ next.2)

/-- The function `fetchWithRetries(domain)` together with the requests it issued. -/
def fetchWithRetries (net : Network) (domain : String) : FetchResult × List Attempt :=
  retryLoop net domain (uniqueUrls domain)

/-! ## Regular expressions used by `runAuditChecks` -/

/-- The fragment of regular expressions the phone pattern needs. -/
inductive Rx where
  | eps
  | cls (p : Char → Bool)
  | opt (r : Rx)
  | seq (a b : Rx)

/-- Backtracking match of `r` at the start of the text: the texts left over after each
way of matching, in the order in which a backtracking matcher tries them (an optional
part is tried present first). -/
def Rx.run : Rx → List Char → List (List Char)
  | .eps, cs => [cs]
  | .cls _, [] => []
  | .cls p, c :: cs => if p c then [cs] else []
  | .opt r, cs => r.run cs ++ [cs]
  | .seq a b, cs => (a.run cs).flatMap fun rest => b.run rest

/-- The text matched by `r` at the start of `cs`, if it matches there. -/
def Rx.matchAt (r : Rx) (cs : List Char) : Option (List Char) :=
  (r.run cs).head?.map fun rest => cs.take (cs.length - rest.length)

/-- The leftmost match of `r` in the text: the first element of `text.match(/r/g)`. -/
def Rx.firstMatch (r : Rx) : List Char → Option (List Char)
  | [] => r.matchAt []
  | c :: cs =>
    match r.matchAt (c :: cs) with
    | some m => some m
    | none => r.firstMatch cs

/-- The class `[0-9]`. -/
def rxDigit : Rx := .cls fun c => c.isDigit

/-- The class `[-.\s]`. -/
def rxSep : Rx := .cls fun c => c == '-' || c == '.' || isJsWhitespace c

/-- A literal character. -/
def rxChar (x : Char) : Rx := .cls fun c => c == x

/-- Concatenation of several expressions. -/
def rxCat : List Rx → Rx
  | [] => .eps
  | r :: rs => .seq r (rxCat rs)

/-- The pattern `(?:\+?1[-.\s]?)?\(?[0-9]{3}\)?[-.\s]?[0-9]{3}[-.\s]?[0-9]{4}`. -/
def phoneRegex : Rx :=
  rxCat [
    .opt (rxCat [.opt (rxChar '+'), rxChar '1', .opt rxSep]),
    .opt (rxChar '('),
    rxDigit, rxDigit, rxDigit,
    .opt (rxChar ')'),
    .opt rxSep,
    rxDigit, rxDigit, rxDigit,
    .opt rxSep,
    rxDigit, rxDigit, rxDigit, rxDigit ]

/-- The first capture group of `/(?:lit1|lit2|...)([cls]+)/` matched at the start of the
text: the longest run of class characters that follows the first literal found there. -/
def captureAt (lits : List (List Char)) (cls : Char → Bool) (cs : List Char) :
    Option (List Char) :=
  lits.findSome? fun lit =>
    if lit.isPrefixOf cs then
      let run := (cs.drop lit.length).takeWhile cls
      if run.isEmpty then none else some run
    else none

/-- The first capture group of the leftmost match of `/(?:lit1|lit2|...)([cls]+)/`,
that is `text.match(...)[1]`; `none` when `match` returns `null`. -/
def captureFirst (lits : List (List Char)) (cls : Char → Bool) : List Char → Option String
  | [] => (captureAt lits cls []).map String.mk
  | c :: cs =>
    match captureAt lits cls (c :: cs) with
    | some run => some ⟨run⟩
    | none => captureFirst lits cls cs

/-- The class `[a-zA-Z0-9._-]`. -/
def isProfileChar (c : Char) : Bool := c.isAlphanum || c == '.' || c == '_' || c == '-'

/-- The class `[a-zA-Z0-9_]`. -/
def isHandleChar (c : Char) : Bool := c.isAlphanum || c == '_'

/-- The call `href.match(/facebook\.com\/([a-zA-Z0-9._-]+)/)`, first group. -/
def fbMatch (href : String) : Option String :=
  captureFirst ["facebook.com/".data] isProfileChar href.data

/-- The call `href.match(/instagram\.com\/([a-zA-Z0-9._-]+)/)`, first group. -/
def igMatch (href : String) : Option String :=
  captureFirst ["instagram.com/".data] isProfileChar href.data

/-- The call `href.match(/(?:twitter|x)\.com\/([a-zA-Z0-9_]+)/)`, first group. -/
def twMatch (href : String) : Option String :=
  captureFirst ["twitter.com/".data, "x.com/".data] isHandleChar href.data

/-! ## Document model -/

/-- An `a` element: its `textContent` and its `href` attribute (`none` when absent). -/
structure Anchor where
  textContent : String
  href : Option String
  deriving DecidableEq, Repr

/-- What `runAuditChecks` reads from the document produced by `DOMParser`: the answers
to its selector queries, each list in document order. -/
structure Doc where
  /-- The `textContent` of every `title` element. -/
  titles : List String
  /-- The `content` attribute of every `meta[name="description"]` element. -/
  metaDescriptions : List (Option String)
  /-- The `textContent` of every `h1` element. -/
  h1s : List String
  /-- Whether a `link[rel="canonical"]` element exists. -/
  hasCanonicalLink : Bool
  /-- The `content` attribute of every `meta[name="robots"]` element. -/
  robotsMetas : List (Option String)
  /-- The `alt` attribute of every `img` element. -/
  images : List (Option String)
  /-- The `textContent` of every `script[type="application/ld+json"]` element. -/
  jsonLdScripts : List String
  /-- The `textContent` of `doc.body`, `none` when there is no body. -/
  bodyText : Option String
  /-- Every `a` element. -/
  links : List Anchor
  deriving Repr

/-- The value of `doc.querySelector(sel)?.getAttribute('content') || ''` given the
`content` attributes of the elements matching `sel`: only the first element counts. -/
def firstContent : List (Option String) → String
  | [] => ""
  | c :: _ => c.getD ""

/-! ## Audit engine (`runAuditChecks`) -/

/-- One entry of the `checks` object; `value` is `none` where the source leaves the field
out or stores `undefined`. -/
structure Check where
  passed : Bool
  category : String
  points : Nat
  maxPoints : Nat
  value : Option String := none
  deriving DecidableEq, Repr

/-- The entries `{ text, href }` of `linkTexts`. -/
structure LinkText where
  text : String
  href : String
  deriving DecidableEq, Repr

/-- The array `linkTexts`. -/
def linkTexts (doc : Doc) : List LinkText :=
  doc.links.map fun a =>
    { text := orElse (toLowerCase a.textContent) "", href := orElse (a.href.getD "") "" }

/-- The keyword test `linkTexts.some(l => l.text.includes(k) || l.href.includes(k))`. -/
def hasKeywordLink (doc : Doc) (k : String) : Bool :=
  (linkTexts doc).any fun l => includes l.text k || includes l.href k

/-- The constant `hasTestimonials`. -/
def hasTestimonialsLink (doc : Doc) : Bool :=
  (linkTexts doc).any fun l =>
    includes l.text "testimonial" || includes l.text "review" || includes l.href "testimonial"

/-- The constant `hasPortfolio`. -/
def hasPortfolioLink (doc : Doc) : Bool :=
  (linkTexts doc).any fun l =>
    includes l.text "portfolio" || includes l.text "gallery" || includes l.text "work"

/-- The object `socialLinks`; `none` is `null`. -/
structure SocialLinks where
  facebook : Option String := none
  instagram : Option String := none
  linkedin : Option String := none
  youtube : Option String := none
  twitter : Option String := none
  deriving DecidableEq, Repr

/-- The Facebook test applied to a lower-cased `href`. -/
def isFacebookProfile (href : String) : Bool :=
  includes href "facebook.com/" &&
  !(includes href "facebook.com/sharer") &&
  !(includes href "facebook.com/share") &&
  !(includes href "facebook.com/dialog") &&
  !(includes href "facebook.com/plugins") &&
  href != "https://facebook.com/" &&
  href != "https://www.facebook.com/" &&
  href != "http://facebook.com/" &&
  href != "http://www.facebook.com/" &&
  (match fbMatch href with
   | some g => truthy g && !(["sharer", "share", "dialog", "plugins", "sharer.php"].contains g)
   | none => false)

/-- The Instagram test applied to a lower-cased `href`. -/
def isInstagramProfile (href : String) : Bool :=
  includes href "instagram.com/" &&
  href != "https://instagram.com/" &&
  href != "https://www.instagram.com/" &&
  href != "http://instagram.com/" &&
  href != "http://www.instagram.com/" &&
  (match igMatch href with
   | some g => truthy g && !(["p", "explore", "accounts", "about"].contains g)
   | none => false)

/-- The LinkedIn test applied to a lower-cased `href`. -/
def isLinkedInProfile (href : String) : Bool :=
  includes href "linkedin.com/" &&
  (includes href "/company/" || includes href "/in/") &&
  href != "https://linkedin.com/" &&
  href != "https://www.linkedin.com/"

/-- The YouTube test applied to a lower-cased `href`. -/
def isYouTubeChannel (href : String) : Bool :=
  includes href "youtube.com/" &&
  (includes href "/channel/" || includes href "/c/" || includes href "/user/" ||
    includes href "/@") &&
  !(includes href "/watch") &&
  href != "https://youtube.com/" &&
  href != "https://www.youtube.com/"

/-- The Twitter/X test applied to a lower-cased `href`. -/
def isTwitterProfile (href : String) : Bool :=
  (includes href "twitter.com/" || includes href "x.com/") &&
  !(includes href "/intent/") &&
  !(includes href "/share") &&
  href != "https://twitter.com/" &&
  href != "https://www.twitter.com/" &&
  href != "https://x.com/" &&
  href != "https://www.x.com/" &&
  (match twMatch href with
   | some g => truthy g && !(["intent", "share", "home", "search"].contains g)
   | none => false)

/-- The body of `links.forEach(a => ...)`: the update of `socialLinks` by one link. -/
def socialStep (s : SocialLinks) (a : Anchor) : SocialLinks :=
  let href := toLowerCase (orElse (a.href.getD "") "")
  let s := if isFacebookProfile href then { s with facebook := some href } else s
  let s := if isInstagramProfile href then { s with instagram := some href } else s
  let s := if isLinkedInProfile href then { s with linkedin := some href } else s
  let s := if isYouTubeChannel href then { s with youtube := some href } else s
  if isTwitterProfile href then { s with twitter := some href } else s

/-- The object `socialLinks` after the loop over all links. -/
def socialLinks (doc : Doc) : SocialLinks := doc.links.foldl socialStep {}

/-- The conversion `!!link` of an entry of `socialLinks`. -/
def hasLink : Option String → Bool
  | some href => truthy href
  | none => false

/-- The expression `link || 'Not found'` for an entry of `socialLinks`. -/
def linkOrNotFound : Option String → String
  | some href => orElse href "Not found"
  | none => "Not found"

/-- The `checks` object: one field per check key. -/
structure Checks where
  https_enabled : Check
  canonical_tags : Check
  indexable : Check
  json_ld_present : Check
  title_present : Check
  title_length : Check
  meta_description : Check
  h1_present : Check
  image_alt : Check
  phone_visible : Check
  contact_page : Check
  about_page : Check
  services_page : Check
  privacy_policy : Check
  terms : Check
  testimonials : Check
  portfolio : Check
  facebook : Check
  instagram : Check
  linkedin : Check
  youtube : Check
  twitter : Check
  deriving DecidableEq, Repr

/-- The array `Object.entries(checks)`: the keys with their checks, in insertion order. -/
def Checks.entries (c : Checks) : List (String × Check) := [
  ("https_enabled", c.https_enabled),
  ("canonical_tags", c.canonical_tags),
  ("indexable", c.indexable),
  ("json_ld_present", c.json_ld_present),
  ("title_present", c.title_present),
  ("title_length", c.title_length),
  ("meta_description", c.meta_description),
  ("h1_present", c.h1_present),
  ("image_alt", c.image_alt),
  ("phone_visible", c.phone_visible),
  ("contact_page", c.contact_page),
  ("about_page", c.about_page),
  ("services_page", c.services_page),
  ("privacy_policy", c.privacy_policy),
  ("terms", c.terms),
  ("testimonials", c.testimonials),
  ("portfolio", c.portfolio),
  ("facebook", c.facebook),
  ("instagram", c.instagram),
  ("linkedin", c.linkedin),
  ("youtube", c.youtube),
  ("twitter", c.twitter) ]

/-- The constant `title`: `doc.querySelector('title')?.textContent?.trim() || ''`. -/
def pageTitle (doc : Doc) : String :=
  match doc.titles with
  | [] => ""
  | t :: _ => orElse (trim t) ""

/-- The constant `h1s`: the trimmed, non-empty texts of the `h1` elements. -/
def pageH1s (doc : Doc) : List String := (doc.h1s.map trim).filter truthy

/-- The constant `imagesWithoutAlt`: images with no `alt` attribute or an empty one. -/
def imagesWithoutAlt (doc : Doc) : Nat :=
  (doc.images.filter fun alt => !(truthy (alt.getD ""))).length

/-- The first element of `phones`: the leftmost phone number of the body text. -/
def firstPhone (doc : Doc) : Option String :=
  (phoneRegex.firstMatch (orElse (doc.bodyText.getD "") "").data).map String.mk

/-- The call `s.substring(0, n)`, cut at `n` UTF-16 code units.  A character whose two code units
lie on both sides of the cut is left out. -/
def substringTo (n : Nat) : List Char → List Char
  | [] => []
  | c :: cs => if utf16Units c ≤ n then c :: substringTo (n - utf16Units c) cs else []

/-- The object `checks` built by `runAuditChecks(html, url)` from the parsed document. -/
def buildChecks (doc : Doc) (url : String) : Checks :=
  let title := pageTitle doc
  let metaDesc := firstContent doc.metaDescriptions
  let h1s := pageH1s doc
  let hasCanonical := doc.hasCanonicalLink
  let robotsMeta := firstContent doc.robotsMetas
  let isIndexable := !(includes robotsMeta "noindex")
  let missingAlt := imagesWithoutAlt doc
  let hasJsonLd := decide (doc.jsonLdScripts.length > 0)
  let phone := firstPhone doc
  let hasContact := hasKeywordLink doc "contact"
  let hasAbout := hasKeywordLink doc "about"
  let hasServices := hasKeywordLink doc "service"
  let hasPrivacy := hasKeywordLink doc "privacy"
  let hasTerms := hasKeywordLink doc "terms"
  let hasTestimonials := hasTestimonialsLink doc
  let hasPortfolio := hasPortfolioLink doc
  let social := socialLinks doc
  let hasFacebook := hasLink social.facebook
  let hasInstagram := hasLink social.instagram
  let hasLinkedIn := hasLink social.linkedin
  let hasYouTube := hasLink social.youtube
  let hasTwitter := hasLink social.twitter
  let isHttps := startsWith url "https://"
  let titleOk := decide (jsLength title ≥ 30) && decide (jsLength title ≤ 60)
  { https_enabled :=
      { passed := isHttps, category := "technical", points := if isHttps then 8 else 0,
        maxPoints := 8 }
    canonical_tags :=
      { passed := hasCanonical, category := "technical",
        points := if hasCanonical then 5 else 0, maxPoints := 5 }
    indexable :=
      { passed := isIndexable, category := "technical",
        points := if isIndexable then 6 else 0, maxPoints := 6 }
    json_ld_present :=
      { passed := hasJsonLd, category := "technical", points := if hasJsonLd then 6 else 0,
        maxPoints := 6 }
    title_present :=
      { passed := truthy title, category := "onpage",
        points := if truthy title then 7 else 0, maxPoints := 7, value := some title }
    title_length :=
      { passed := titleOk, category := "onpage", points := if titleOk then 3 else 1,
        maxPoints := 3, value := some (toString (jsLength title) ++ " chars") }
    meta_description :=
      { passed := truthy metaDesc, category := "onpage",
        points := if truthy metaDesc then 5 else 0, maxPoints := 5,
        value := some (String.mk (substringTo 50 metaDesc.data) ++ "...") }
    h1_present :=
      { passed := decide (h1s.length > 0), category := "onpage",
        points := if h1s.length > 0 then 6 else 0, maxPoints := 6, value := h1s.head? }
    image_alt :=
      { passed := decide (missingAlt = 0), category := "onpage",
        points := if missingAlt = 0 then 4 else (if missingAlt < 3 then 2 else 0),
        maxPoints := 4,
        value := some (toString (doc.images.length - missingAlt) ++ "/" ++
          toString doc.images.length) }
    phone_visible :=
      { passed := phone.isSome, category := "local", points := if phone.isSome then 8 else 0,
        maxPoints := 8, value := phone }
    contact_page :=
      { passed := hasContact, category := "local", points := if hasContact then 7 else 0,
        maxPoints := 7 }
    about_page :=
      { passed := hasAbout, category := "local", points := if hasAbout then 5 else 0,
        maxPoints := 5 }
    services_page :=
      { passed := hasServices, category := "local", points := if hasServices then 5 else 0,
        maxPoints := 5 }
    privacy_policy :=
      { passed := hasPrivacy, category := "trust", points := if hasPrivacy then 4 else 0,
        maxPoints := 4 }
    terms :=
      { passed := hasTerms, category := "trust", points := if hasTerms then 3 else 0,
        maxPoints := 3 }
    testimonials :=
      { passed := hasTestimonials, category := "trust",
        points := if hasTestimonials then 5 else 0, maxPoints := 5 }
    portfolio :=
      { passed := hasPortfolio, category := "trust", points := if hasPortfolio then 3 else 0,
        maxPoints := 3 }
    facebook :=
      { passed := hasFacebook, category := "social", points := if hasFacebook then 2 else 0,
        maxPoints := 2, value := some (linkOrNotFound social.facebook) }
    instagram :=
      { passed := hasInstagram, category := "social", points := if hasInstagram then 2 else 0,
        maxPoints := 2, value := some (linkOrNotFound social.instagram) }
    linkedin :=
      { passed := hasLinkedIn, category := "social", points := if hasLinkedIn then 2 else 0,
        maxPoints := 2, value := some (linkOrNotFound social.linkedin) }
    youtube :=
      { passed := hasYouTube, category := "social", points := if hasYouTube then 2 else 0,
        maxPoints := 2, value := some (linkOrNotFound social.youtube) }
    twitter :=
      { passed := hasTwitter, category := "social", points := if hasTwitter then 2 else 0,
        maxPoints := 2, value := some (linkOrNotFound social.twitter) } }

/-- An entry of the `categories` object.  The explanation texts that the source copies
into each listed check from `CHECK_EXPLANATIONS` are display data and are not carried. -/
structure CategoryScore where
  name : String
  score : Nat
  maxScore : Nat
  checks : List (String × Check)
  deriving DecidableEq, Repr

/-- The initial `categories` object, keys in insertion order. -/
def initialCategories : List (String × CategoryScore) := [
  ("technical", { name := "Technical SEO", score := 0, maxScore := 25, checks := [] }),
  ("onpage", { name := "On-Page SEO", score := 0, maxScore := 25, checks := [] }),
  ("local", { name := "Local Presence", score := 0, maxScore := 25, checks := [] }),
  ("trust", { name := "Trust Signals", score := 0, maxScore := 15, checks := [] }),
  ("social", { name := "Social Presence", score := 0, maxScore := 10, checks := [] }) ]

/-- The body of `Object.entries(checks).forEach(...)`: add the points of one check to
the category its `category` field names, and list the check there. -/
def addCheck (cats : List (String × CategoryScore)) (entry : String × Check) :
    List (String × CategoryScore) :=
  cats.map fun kc =>
    if kc.1 = entry.2.category then
      (kc.1, { kc.2 with score := kc.2.score + entry.2.points, checks := kc.2.checks ++ [entry] })
    else kc

/-- The object returned by `runAuditChecks`. -/
structure AuditResults where
  checks : Checks
  categories : List (String × CategoryScore)
  totalScore : Nat
  maxScore : Nat
  deriving DecidableEq, Repr

/-- The function `runAuditChecks(html, url)` on the document parsed from `html`. -/
def runAuditChecks (doc : Doc) (url : String) : AuditResults :=
  let checks := buildChecks doc url
  let categories := checks.entries.foldl addCheck initialCategories
  let totalScore := (categories.map fun kc => kc.2).foldl (fun sum cat => sum + cat.score) 0
  { checks := checks, categories := categories, totalScore := totalScore, maxScore := 100 }

/-! ## Audit engine with the lower-casing method as a parameter

The method `String.prototype.toLowerCase` is a built-in of the language.  The definitions
of this section repeat those of `runAuditChecks` that call it, with the method as the
parameter `lower`; the definitions above are their instances at `toLowerCase`. -/

/-- The array `linkTexts`, the method `toLowerCase` being `lower`. -/
def linkTextsWith (lower : String → String) (doc : Doc) : List LinkText :=
  doc.links.map fun a =>
    { text := orElse (lower a.textContent) "", href := orElse (a.href.getD "") "" }

/-- The keyword test `linkTexts.some(l => l.text.includes(k) || l.href.includes(k))`, the
method `toLowerCase` being `lower`. -/
def hasKeywordLinkWith (lower : String → String) (doc : Doc) (k : String) : Bool :=
  (linkTextsWith lower doc).any fun l => includes l.text k || includes l.href k

/-- The constant `hasTestimonials`, the method `toLowerCase` being `lower`. -/
def hasTestimonialsLinkWith (lower : String → String) (doc : Doc) : Bool :=
  (linkTextsWith lower doc).any fun l =>
    includes l.text "testimonial" || includes l.text "review" || includes l.href "testimonial"

/-- The constant `hasPortfolio`, the method `toLowerCase` being `lower`. -/
def hasPortfolioLinkWith (lower : String → String) (doc : Doc) : Bool :=
  (linkTextsWith lower doc).any fun l =>
    includes l.text "portfolio" || includes l.text "gallery" || includes l.text "work"

/-- The body of `links.forEach(a => ...)`, the method `toLowerCase` being `lower`. -/
def socialStepWith (lower : String → String) (s : SocialLinks) (a : Anchor) : SocialLinks :=
  let href := lower (orElse (a.href.getD "") "")
  let s := if isFacebookProfile href then { s with facebook := some href } else s
  let s := if isInstagramProfile href then { s with instagram := some href } else s
  let s := if isLinkedInProfile href then { s with linkedin := some href } else s
  let s := if isYouTubeChannel href then { s with youtube := some href } else s
  if isTwitterProfile href then { s with twitter := some href } else s

/-- The object `socialLinks` after the loop over all links, the method `toLowerCase`
being `lower`. -/
def socialLinksWith (lower : String → String) (doc : Doc) : SocialLinks :=
  doc.links.foldl (socialStepWith lower) {}

/-- The object `checks` built by `runAuditChecks(html, url)` from the parsed document,
the method `toLowerCase` being `lower`. -/
def buildChecksWith (lower : String → String) (doc : Doc) (url : String) : Checks :=
  let title := pageTitle doc
  let metaDesc := firstContent doc.metaDescriptions
  let h1s := pageH1s doc
  let hasCanonical := doc.hasCanonicalLink
  let robotsMeta := firstContent doc.robotsMetas
  let isIndexable := !(includes robotsMeta "noindex")
  let missingAlt := imagesWithoutAlt doc
  let hasJsonLd := decide (doc.jsonLdScripts.length > 0)
  let phone := firstPhone doc
  let hasContact := hasKeywordLinkWith lower doc "contact"
  let hasAbout := hasKeywordLinkWith lower doc "about"
  let hasServices := hasKeywordLinkWith lower doc "service"
  let hasPrivacy := hasKeywordLinkWith lower doc "privacy"
  let hasTerms := hasKeywordLinkWith lower doc "terms"
  let hasTestimonials := hasTestimonialsLinkWith lower doc
  let hasPortfolio := hasPortfolioLinkWith lower doc
  let social := socialLinksWith lower doc
  let hasFacebook := hasLink social.facebook
  let hasInstagram := hasLink social.instagram
  let hasLinkedIn := hasLink social.linkedin
  let hasYouTube := hasLink social.youtube
  let hasTwitter := hasLink social.twitter
  let isHttps := startsWith url "https://"
  let titleOk := decide (jsLength title ≥ 30) && decide (jsLength title ≤ 60)
  { https_enabled :=
      { passed := isHttps, category := "technical", points := if isHttps then 8 else 0,
        maxPoints := 8 }
    canonical_tags :=
      { passed := hasCanonical, category := "technical",
        points := if hasCanonical then 5 else 0, maxPoints := 5 }
    indexable :=
      { passed := isIndexable, category := "technical",
        points := if isIndexable then 6 else 0, maxPoints := 6 }
    json_ld_present :=
      { passed := hasJsonLd, category := "technical", points := if hasJsonLd then 6 else 0,
        maxPoints := 6 }
    title_present :=
      { passed := truthy title, category := "onpage",
        points := if truthy title then 7 else 0, maxPoints := 7, value := some title }
    title_length :=
      { passed := titleOk, category := "onpage", points := if titleOk then 3 else 1,
        maxPoints := 3, value := some (toString (jsLength title) ++ " chars") }
    meta_description :=
      { passed := truthy metaDesc, category := "onpage",
        points := if truthy metaDesc then 5 else 0, maxPoints := 5,
        value := some (String.mk (substringTo 50 metaDesc.data) ++ "...") }
    h1_present :=
      { passed := decide (h1s.length > 0), category := "onpage",
        points := if h1s.length > 0 then 6 else 0, maxPoints := 6, value := h1s.head? }
    image_alt :=
      { passed := decide (missingAlt = 0), category := "onpage",
        points := if missingAlt = 0 then 4 else (if missingAlt < 3 then 2 else 0),
        maxPoints := 4,
        value := some (toString (doc.images.length - missingAlt) ++ "/" ++
          toString doc.images.length) }
    phone_visible :=
      { passed := phone.isSome, category := "local", points := if phone.isSome then 8 else 0,
        maxPoints := 8, value := phone }
    contact_page :=
      { passed := hasContact, category := "local", points := if hasContact then 7 else 0,
        maxPoints := 7 }
    about_page :=
      { passed := hasAbout, category := "local", points := if hasAbout then 5 else 0,
        maxPoints := 5 }
    services_page :=
      { passed := hasServices, category := "local", points := if hasServices then 5 else 0,
        maxPoints := 5 }
    privacy_policy :=
      { passed := hasPrivacy, category := "trust", points := if hasPrivacy then 4 else 0,
        maxPoints := 4 }
    terms :=
      { passed := hasTerms, category := "trust", points := if hasTerms then 3 else 0,
        maxPoints := 3 }
    testimonials :=
      { passed := hasTestimonials, category := "trust",
        points := if hasTestimonials then 5 else 0, maxPoints := 5 }
    portfolio :=
      { passed := hasPortfolio, category := "trust", points := if hasPortfolio then 3 else 0,
        maxPoints := 3 }
    facebook :=
      { passed := hasFacebook, category := "social", points := if hasFacebook then 2 else 0,
        maxPoints := 2, value := some (linkOrNotFound social.facebook) }
    instagram :=
      { passed := hasInstagram, category := "social", points := if hasInstagram then 2 else 0,
        maxPoints := 2, value := some (linkOrNotFound social.instagram) }
    linkedin :=
      { passed := hasLinkedIn, category := "social", points := if hasLinkedIn then 2 else 0,
        maxPoints := 2, value := some (linkOrNotFound social.linkedin) }
    youtube :=
      { passed := hasYouTube, category := "social", points := if hasYouTube then 2 else 0,
        maxPoints := 2, value := some (linkOrNotFound social.youtube) }
    twitter :=
      { passed := hasTwitter, category := "social", points := if hasTwitter then 2 else 0,
        maxPoints := 2, value := some (linkOrNotFound social.twitter) } }

/-- The function `runAuditChecks(html, url)` on the document parsed from `html`, the
method `toLowerCase` being `lower`. -/
def runAuditChecksWith (lower : String → String) (doc : Doc) (url : String) : AuditResults :=
  let checks := buildChecksWith lower doc url
  let categories := checks.entries.foldl addCheck initialCategories
  let totalScore := (categories.map fun kc => kc.2).foldl (fun sum cat => sum + cat.score) 0
  { checks := checks, categories := categories, totalScore := totalScore, maxScore := 100 }

/-! ## Directory readiness (`DIRECTORY_REQUIREMENTS`, `runFullAudit`) -/

/-- The argument `{ url, checks }` passed to a requirement's `checkFn`. -/
structure AuditView where
  url : String
  checks : Checks

/-- A directory requirement. -/
structure Requirement where
  key : String
  label : String
  checkFn : AuditView → Bool

/-- One requirement set with its minimum score. -/
structure TierRequirements where
  label : String
  minScore : Nat
  requirements : List Requirement

/-- The type of the constant `DIRECTORY_REQUIREMENTS`. -/
structure DirectoryRequirements where
  featured : TierRequirements
  basic : TierRequirements

/-- The constant `DIRECTORY_REQUIREMENTS`. -/
def DIRECTORY_REQUIREMENTS : DirectoryRequirements :=
  { featured :=
      { label := "Featured Ready"
        minScore := 75
        requirements := [
          { key := "https", label := "HTTPS enabled",
            checkFn := fun audit => startsWith audit.url "https" },
          { key := "phone", label := "Phone visible on site",
            checkFn := fun audit => audit.checks.phone_visible.passed },
          { key := "contact", label := "Contact page exists",
            checkFn := fun audit => audit.checks.contact_page.passed },
          { key := "schema", label := "Structured data (Schema)",
            checkFn := fun audit => audit.checks.json_ld_present.passed },
          { key := "title", label := "Proper title tags",
            checkFn := fun audit => audit.checks.title_present.passed },
          { key := "description", label := "Meta description",
            checkFn := fun audit => audit.checks.meta_description.passed },
          { key := "testimonials", label := "Testimonials shown",
            checkFn := fun audit => audit.checks.testimonials.passed },
          { key := "privacy", label := "Privacy policy",
            checkFn := fun audit => audit.checks.privacy_policy.passed } ] }
    basic :=
      { label := "Basic Ready"
        minScore := 50
        requirements := [
          { key := "https", label := "HTTPS enabled",
            checkFn := fun audit => startsWith audit.url "https" },
          { key := "phone", label := "Phone visible on site",
            checkFn := fun audit => audit.checks.phone_visible.passed },
          { key := "contact", label := "Contact page exists",
            checkFn := fun audit => audit.checks.contact_page.passed },
          { key := "title", label := "Proper title tags",
            checkFn := fun audit => audit.checks.title_present.passed } ] } }

/-- An entry of `directoryReadiness.requirements`: the requirement and its outcome. -/
structure RequirementStatus where
  key : String
  label : String
  passed : Bool
  deriving DecidableEq, Repr

/-- The object `directoryReadiness`. -/
structure DirectoryReadiness where
  tier : String
  percentage : Nat
  passedCount : Nat
  totalCount : Nat
  requirements : List RequirementStatus
  deriving DecidableEq, Repr

/-- The value `Math.round((passed / total) * 100)` for `passed ≤ total`: the percentage rounded to
the nearest integer, halves upwards. -/
def roundedPercentage (passed total : Nat) : Nat := (200 * passed + total) / (2 * total)

/-- The directory-readiness part of `runFullAudit`, from `url` and `auditResults`. -/
def directoryReadiness (url : String) (auditResults : AuditResults) : DirectoryReadiness :=
  let audit : AuditView := { url := url, checks := auditResults.checks }
  let featuredReqs := DIRECTORY_REQUIREMENTS.featured.requirements
  let passedFeatured := (featuredReqs.filter fun req => req.checkFn audit).length
  let featuredPercentage := roundedPercentage passedFeatured featuredReqs.length
  let basicReqs := DIRECTORY_REQUIREMENTS.basic.requirements
  let passedBasic := (basicReqs.filter fun req => req.checkFn audit).length
  let readinessTier :=
    if auditResults.totalScore ≥ DIRECTORY_REQUIREMENTS.featured.minScore ∧
        passedFeatured = featuredReqs.length then "featured"
    else if auditResults.totalScore ≥ DIRECTORY_REQUIREMENTS.basic.minScore ∧
        passedBasic = basicReqs.length then "basic"
    else "not_ready"
  { tier := readinessTier
    percentage := featuredPercentage
    passedCount := passedFeatured
    totalCount := featuredReqs.length
    requirements := featuredReqs.map fun req =>
      { key := req.key, label := req.label, passed := req.checkFn audit } }

/-- The successful result of `runFullAudit` (the timestamp `auditDate` is left out). -/
structure AuditReport where
  domain : String
  url : String
  platform : Platform
  proxyUsed : String
  checks : Checks
  categories : List (String × CategoryScore)
  totalScore : Nat
  maxScore : Nat
  directoryReadiness : DirectoryReadiness
  deriving DecidableEq, Repr

/-- The objects returned by `runFullAudit`: a failure (whose field `unreachable` exists
only in the first failure branch) or a report. -/
inductive AuditOutcome where
  | failure (error : String) (noPresence : Bool) (unreachable : Option Bool) (domain : String)
  | success (report : AuditReport)
  deriving DecidableEq, Repr

/-- The function `runFullAudit(domain)`, given the network and the document parser
(`DOMParser.parseFromString(html, 'text/html')`) it runs against. -/
def runFullAudit (net : Network) (parse : String → Doc) (domain : String) : AuditOutcome :=
  let cleanDomain := normalizeDomain domain
  match (fetchWithRetries net cleanDomain).1 with
  | .failed error _ unreachable =>
    if unreachable.getD false then .failure error false (some true) cleanDomain
    else
      .failure ("Could not reach " ++ domain ++ ". The site may be down or blocking our scan.")
        true none cleanDomain
  | .ok html url proxy =>
    let platform := detectPlatform html
    let auditResults := runAuditChecks (parse html) url
    .success
      { domain := cleanDomain
        url := url
        platform := platform
        proxyUsed := proxy
        checks := auditResults.checks
        categories := auditResults.categories
        totalScore := auditResults.totalScore
        maxScore := auditResults.maxScore
        directoryReadiness := directoryReadiness url auditResults }

/-! ## Specification vocabulary for the retrieval layer -/

/-- The four candidate URLs of a domain `d`, in the order the specification lists them. -/
def candidateUrls (d : String) : List String :=
  ["https://" ++ d, "https://www." ++ d, "http://" ++ d, "http://www." ++ d]

/-- Every (candidate URL, relay) pair for the argument of `fetchWithRetries`, candidates
outermost and relays in configured order. -/
def attemptOrder (domain : String) : List Attempt :=
  (candidateUrls (stripWww domain)).flatMap fun url =>
    CORS_PROXIES.map fun p => { url := url, proxy := p.name }

/-- The payload a request yields when the specification counts it as valid: the response
has an OK status and its body is longer than 500 characters and contains `<`. -/
def acceptedBody (net : Network) (a : Attempt) : Option String :=
  match net a.proxy a.url with
  | .http true _ body => if 500 < jsLength body ∧ includes body "<" = true then some body else none
  | _ => none

/-- The first pair of `l`, in order, whose request yields a valid payload. -/
def firstAccepted (net : Network) (l : List Attempt) : Option Attempt :=
  l.find? fun a => (acceptedBody net a).isSome

/-- The pairs of `l` up to and including the first one whose request yields a valid
payload; all of `l` when none does. -/
def triedUntilAccepted (net : Network) (l : List Attempt) : List Attempt :=
  l.takeWhile (fun a => !(acceptedBody net a).isSome) ++ (firstAccepted net l).toList

/-! ## Specification vocabulary for the audit scenarios -/

/-- The generic WordPress signature: one of the six tokens of the first rule occurs in
the lower-cased html `h`. -/
def wordpressSignature (h : String) : Bool :=
  includes h "wp-content" || includes h "wp-includes" || includes h "wp-json" ||
    includes h "wordpress" || includes h "/wp-" || includes h "woocommerce"

/-- The end-to-end scenario of the specification, read on the html and on the constants
that `runAuditChecks` derives from the parsed document: WordPress-signatured html, a
canonical link, a JSON-LD block, no `noindex`, a title of 40 characters, a meta
description, one H1, all images with alt text, a visible phone number, contact and about
links but no services link, a privacy-policy link, no terms, testimonials or portfolio
link, and no social links. -/
def acmeScenario (html : String) (doc : Doc) : Bool :=
  wordpressSignature (toLowerCase html) &&
  doc.hasCanonicalLink &&
  decide (doc.jsonLdScripts.length > 0) &&
  !(includes (firstContent doc.robotsMetas) "noindex") &&
  decide (jsLength (pageTitle doc) = 40) &&
  truthy (firstContent doc.metaDescriptions) &&
  decide ((pageH1s doc).length = 1) &&
  decide (imagesWithoutAlt doc = 0) &&
  (firstPhone doc).isSome &&
  hasKeywordLink doc "contact" &&
  hasKeywordLink doc "about" &&
  !(hasKeywordLink doc "service") &&
  hasKeywordLink doc "privacy" &&
  !(hasKeywordLink doc "terms") &&
  !(hasTestimonialsLink doc) &&
  !(hasPortfolioLink doc) &&
  decide (socialLinks doc = {})

/-- The constant `href` of the loop over links: the lower-cased `href` attribute, the
method `toLowerCase` being `lower`. -/
def linkHref (lower : String → String) (a : Anchor) : String :=
  lower (orElse (a.href.getD "") "")

/-- The lower-cased `href` of the last link that passes `test`, if any link does. -/
def lastMatching (lower : String → String) (test : String → Bool) (links : List Anchor) :
    Option String :=
  (links.reverse.find? fun a => test (linkHref lower a)).map (linkHref lower)

/-! ## JSON-LD blocks (`runAuditChecks`, the loop over `jsonLdScripts`) -/

/-- What `JSON.parse(script.textContent)` and the reading of `data['@type']` come to for
one script block. -/
inductive JsonLdType where
  /-- The text is not valid JSON: `JSON.parse` throws a `SyntaxError`. -/
  | parseError
  /-- The text parses to `null`: reading `data['@type']` throws a `TypeError`. -/
  | nullData
  /-- The value of `data['@type']` is `undefined` or `null` (as for a number or an object
  without the key): the optional call yields `undefined`. -/
  | noType
  /-- The value of `data['@type']` is a string. -/
  | text (s : String)
  /-- The value of `data['@type']` is an array; `items` are its string elements. -/
  | list (items : List String)
  /-- The value of `data['@type']` is of another kind (a number, a boolean, an object):
  it has no method `includes`, and the call throws a `TypeError`. -/
  | other
  deriving DecidableEq, Repr

/-- The body of the `try` block for one script: whether the condition of the `if` holds,
or the exception thrown. -/
def localBusinessTest : JsonLdType → Except String Bool
  | .parseError => .error "SyntaxError"
  | .nullData => .error "TypeError"
  | .noType => .ok false
  | .text s => .ok (includes s "LocalBusiness" || includes s "Organization")
  | .list items => .ok (items.contains "LocalBusiness" || items.contains "Organization")
  | .other => .error "TypeError"

/-- The statement `jsonLdScripts.forEach(script => { try { ... } catch {} })` on the
scripts still to visit, `flag` being the current value of `hasLocalBusiness`.  An
exception thrown in the `try` block is caught and the loop goes on; the result is the
final value of the flag, or the exception that left the loop. -/
def jsonLdLoop (parseJson : String → JsonLdType) : List String → Bool → Except String Bool
  | [], flag => .ok flag
  | script :: rest, flag =>
    match localBusinessTest (parseJson script) with
    | .ok true => jsonLdLoop parseJson rest true
    | .ok false => jsonLdLoop parseJson rest flag
    | .error _ => jsonLdLoop parseJson rest flag

/-- The function `runAuditChecks` with the loop over the JSON-LD scripts run before the
checks are built, for a given behaviour `parseJson` of `JSON.parse`: the audit results,
or the exception that aborted the function.  The flag `hasLocalBusiness` is not read by
the rest of the function. -/
def runAuditChecksWithJsonLd (parseJson : String → JsonLdType) (doc : Doc) (url : String) :
    Except String AuditResults :=
  match jsonLdLoop parseJson doc.jsonLdScripts false with
  | .ok _ => .ok (runAuditChecks doc url)
  | .error e => .error e

/-- A piece of the body of a document, in document order: running text, or a JSON-LD
script block placed in the body. -/
inductive BodyPart where
  | text (s : String)
  | jsonLd (s : String)
  deriving DecidableEq, Repr

/-- The text a piece of the body adds to `doc.body.textContent`: the property
`textContent` of an element is the concatenation of the text of all its descendants,
the text of script elements included. -/
def BodyPart.textContent : BodyPart → String
  | .text s => s
  | .jsonLd s => s

/-- The text of a piece of the body when it is a JSON-LD block. -/
def BodyPart.jsonLdText : BodyPart → Option String
  | .text _ => none
  | .jsonLd s => some s

/-- The document with the JSON-LD blocks `headBlocks` in its head and the body `body`,
its other elements being those of `base`. -/
def docWithBody (base : Doc) (headBlocks : List String) (body : List BodyPart) : Doc :=
  { base with
    jsonLdScripts := headBlocks ++ body.filterMap BodyPart.jsonLdText
    bodyText := some (String.join (body.map BodyPart.textContent)) }

/-! ## Check explanations (`CHECK_EXPLANATIONS`) -/

/-- An entry of `CHECK_EXPLANATIONS`. -/
structure CheckExplanation where
  name : String
  whatItMeans : String
  whyItMatters : String
  fixTime : String
  fixDifficulty : String
  googleTimeline : String
  deriving DecidableEq, Repr

/-- The entry `CHECK_EXPLANATIONS.title_length`. -/
def CHECK_EXPLANATIONS_title_length : CheckExplanation :=
  { name := "Title Length"
    whatItMeans :=
      "Your title is the right length (50-60 characters) to display fully in Google."
    whyItMatters := "Too long gets cut off with '...' — Too short wastes valuable keyword space."
    fixTime := "15 minutes"
    fixDifficulty := "Easy"
    googleTimeline := "1-2 weeks" }

/-! ## Specification vocabulary for the social checks -/

/-- What the specification says of a social check `c` over the links of a document, for
the platform's link test `test` and the method `toLowerCase` being `lower`: it is worth 2
points, earned exactly when it passes; it passes exactly when some link satisfies the
test; its value is `Not found` exactly when it fails; and when it passes its value is
the lower-cased `href` of a link that satisfies the test. -/
def SocialCheckSpec (lower : String → String) (test : String → Bool) (links : List Anchor)
    (c : Check) : Prop :=
  c.maxPoints = 2 ∧
  c.points = (if c.passed then 2 else 0) ∧
  (c.passed = true ↔ ∃ a ∈ links, test (linkHref lower a) = true) ∧
  (c.value = some "Not found" ↔ c.passed = false) ∧
  (c.passed = true →
    ∃ a ∈ links, test (linkHref lower a) = true ∧ c.value = some (linkHref lower a))

/-! ## Example inputs -/

/-- A document with no elements at all. -/
def emptyDoc : Doc :=
  { titles := [], metaDescriptions := [], h1s := [], hasCanonicalLink := false,
    robotsMetas := [], images := [], jsonLdScripts := [], bodyText := none, links := [] }

/-- A page of 600 characters of markup. -/
def samplePage : String := ⟨List.replicate 600 '<'⟩

/-- A network in which only the first relay answers, for the first candidate of
`example.com`, with `samplePage`; every other request times out. -/
def sampleNetwork : Network := fun proxy url =>
  if proxy = "corsproxy.io" ∧ url = "https://example.com" then .http true 200 samplePage
  else .aborted

/-- A network in which every request times out. -/
def deadNetwork : Network := fun _ _ => .aborted

/-- A parser that finds a title, a phone number and a contact link in every page. -/
def sampleParse : String → Doc := fun _ =>
  { emptyDoc with
    titles := ["  Example Plumbing  "]
    bodyText := some "Call 555-123-4567"
    links := [{ textContent := "Contact Us", href := some "/contact" }] }

/-- The report of auditing `https://www.example.com/` over `sampleNetwork`. -/
def sampleReport : AuditReport :=
  { domain := "example.com"
    url := "https://example.com"
    platform := detectPlatform samplePage
    proxyUsed := "corsproxy.io"
    checks := (runAuditChecks (sampleParse samplePage) "https://example.com").checks
    categories := (runAuditChecks (sampleParse samplePage) "https://example.com").categories
    totalScore := (runAuditChecks (sampleParse samplePage) "https://example.com").totalScore
    maxScore := 100
    directoryReadiness :=
      directoryReadiness "https://example.com"
        (runAuditChecks (sampleParse samplePage) "https://example.com") }

/-- A network in which, for the first candidate of `example.com`, the first relay answers
with exactly 500 characters, the second with 600 characters free of `<`, the third with
status 403 and the fourth with `samplePage`; every other request times out. -/
def skippingNetwork : Network := fun proxy url =>
  if url = "https://example.com" then
    if proxy = "corsproxy.io" then .http true 200 ⟨List.replicate 500 '<'⟩
    else if proxy = "allorigins" then .http true 200 ⟨List.replicate 600 'a'⟩
    else if proxy = "corsproxy.org" then .http false 403 samplePage
    else .http true 200 samplePage
  else .aborted

/-- A document whose only content is one link with the given `href`. -/
def docWithLink (href : String) : Doc :=
  { emptyDoc with links := [{ textContent := "", href := some href }] }

/-- A document whose only content is a title element with the given text. -/
def docWithTitle (title : String) : Doc := { emptyDoc with titles := [title] }

/-- The page of the end-to-end scenario: markup that loads a WordPress theme. -/
def acmeHtml : String :=
  "<!doctype html><html><head><title>Acme</title>" ++
  "<link rel=\"stylesheet\" href=\"/wp-content/themes/acme/style.css\"></head><body>" ++
  ⟨List.replicate 500 ' '⟩ ++ "</body></html>"

/-- The parsed document of the end-to-end scenario. -/
def acmeDoc : Doc :=
  { titles := ["Acme Plumbing | Trusted Plumbers, Austin "]
    metaDescriptions := [some "Licensed plumbers serving Austin since 1998."]
    h1s := ["Trusted Plumbers in Austin"]
    hasCanonicalLink := true
    robotsMetas := [some "index, follow"]
    images := [some "Acme van", some "Our team"]
    jsonLdScripts := ["\x7b \"@type\": \"Plumber\" \x7d"]
    bodyText := some "Call (512) 555-0147 today"
    links := [
      { textContent := "Contact", href := some "/contact" },
      { textContent := "About Us", href := some "/about" },
      { textContent := "Privacy Policy", href := some "/privacy" } ] }

/-- The document of the end-to-end scenario with a services link added. -/
def acmeDocWithServices : Doc :=
  { acmeDoc with links := acmeDoc.links ++ [{ textContent := "Services", href := some "/services" }] }

/-- A network in which the first relay answers for `https://acmeplumbing.com` with
`acmeHtml`; every other request times out. -/
def acmeNetwork : Network := fun proxy url =>
  if proxy = "corsproxy.io" ∧ url = "https://acmeplumbing.com" then .http true 200 acmeHtml
  else .aborted

/-- The report of auditing `acmeplumbing.com` over `acmeNetwork` when the page parses to
`acmeDocWithServices`. -/
def acmeReport : AuditReport :=
  { domain := "acmeplumbing.com"
    url := "https://acmeplumbing.com"
    platform := detectPlatform acmeHtml
    proxyUsed := "corsproxy.io"
    checks := (runAuditChecks acmeDocWithServices "https://acmeplumbing.com").checks
    categories := (runAuditChecks acmeDocWithServices "https://acmeplumbing.com").categories
    totalScore := (runAuditChecks acmeDocWithServices "https://acmeplumbing.com").totalScore
    maxScore := 100
    directoryReadiness :=
      directoryReadiness "https://acmeplumbing.com"
        (runAuditChecks acmeDocWithServices "https://acmeplumbing.com") }

/-- A document whose only content is one link with the given visible text and `href`. -/
def docWithAnchor (text href : String) : Doc :=
  { emptyDoc with links := [{ textContent := text, href := some href }] }

/-- A document whose only content is robots meta elements with the given `content`
attributes, in document order. -/
def docWithRobots (contents : List String) : Doc :=
  { emptyDoc with robotsMetas := contents.map some }

/-- A behaviour of `JSON.parse` for the examples: the text `null` parses to `null`, the
text `5` to a number, the text `typed` to an object whose `@type` is a number, and every
other text is not valid JSON. -/
def sampleParseJson : String → JsonLdType := fun s =>
  if s = "null" then .nullData
  else if s = "5" then .noType
  else if s = "typed" then .other
  else .parseError

/-- A page whose body holds a greeting and one JSON-LD block with the given text. -/
def pageWithBodyBlock (block : String) : Doc :=
  docWithBody emptyDoc [] [.text "Welcome to Acme. ", .jsonLd block]

/-! # Theorems -/

/-! ## Score aggregation (`runAuditChecks`) -/

/-- Folding `addCheck` over a list of checks adds to every category the points of the
checks naming it and lists those checks there, in order. -/
theorem foldl_addCheck (es : List (String × Check)) (cats : List (String × CategoryScore)) :
    es.foldl addCheck cats = cats.map fun kc =>
      (kc.1, { kc.2 with
        score := kc.2.score + ((es.filter fun e => e.2.category = kc.1).map fun e => e.2.points).sum
        checks := kc.2.checks ++ es.filter fun e => e.2.category = kc.1 }) := by
  induction es generalizing cats with
  | nil => simp
  | cons e es ih =>
    rw [List.foldl_cons, ih, addCheck, List.map_map]
    apply List.map_congr_left
    intro kc _
    by_cases h : kc.1 = e.2.category
    · simp [h, Nat.add_assoc]
    · have h2 : ¬ e.2.category = kc.1 := fun h3 => h h3.symm
      simp [h, h2]

/-- The `categories` object in closed form. -/
theorem categories_eq (doc : Doc) (url : String) :
    (runAuditChecks doc url).categories = initialCategories.map fun kc =>
      (kc.1, { kc.2 with
        score := (((runAuditChecks doc url).checks.entries.filter
          fun e => e.2.category = kc.1).map fun e => e.2.points).sum
        checks := (runAuditChecks doc url).checks.entries.filter
          fun e => e.2.category = kc.1 }) := by
  simp only [runAuditChecks, foldl_addCheck]
  simp [initialCategories]

/-- The `reduce` that computes `totalScore` is the sum of the category scores. -/
theorem totalScore_eq (doc : Doc) (url : String) :
    (runAuditChecks doc url).totalScore =
      ((runAuditChecks doc url).categories.map fun kc => kc.2.score).sum := by
  have h : ∀ (l : List CategoryScore) (n : Nat),
      l.foldl (fun sum cat => sum + cat.score) n = n + (l.map fun c => c.score).sum := by
    intro l
    induction l with
    | nil => simp
    | cons c l ih => intro n; simp [ih, Nat.add_assoc]
  simp only [runAuditChecks, h, List.map_map, Nat.zero_add]
  rfl

/-- No check earns more than its maximum. -/
theorem points_le_maxPoints (doc : Doc) (url : String) :
    ∀ e ∈ (buildChecks doc url).entries, e.2.points ≤ e.2.maxPoints := by
  intro e he
  simp only [Checks.entries, List.mem_cons, List.mem_singleton, List.not_mem_nil, or_false] at he
  rcases he with h | h | h | h | h | h | h | h | h | h | h | h | h | h | h | h | h | h | h | h |
    h | h <;>
    (subst h; simp only [buildChecks]; split_ifs <;> decide)

/-- The key, category and maximum of every check do not depend on the document. -/
theorem entries_static (doc : Doc) (url : String) :
    (buildChecks doc url).entries.map (fun e => (e.1, e.2.category, e.2.maxPoints)) =
      [("https_enabled", "technical", 8), ("canonical_tags", "technical", 5),
        ("indexable", "technical", 6), ("json_ld_present", "technical", 6),
        ("title_present", "onpage", 7), ("title_length", "onpage", 3),
        ("meta_description", "onpage", 5), ("h1_present", "onpage", 6),
        ("image_alt", "onpage", 4), ("phone_visible", "local", 8),
        ("contact_page", "local", 7), ("about_page", "local", 5),
        ("services_page", "local", 5), ("privacy_policy", "trust", 4), ("terms", "trust", 3),
        ("testimonials", "trust", 5), ("portfolio", "trust", 3), ("facebook", "social", 2),
        ("instagram", "social", 2), ("linkedin", "social", 2), ("youtube", "social", 2),
        ("twitter", "social", 2)] := rfl

/-- The maxima of the checks of one category, read off the static table. -/
theorem maxPoints_sum_eq (doc : Doc) (url : String) (k : String) :
    (((buildChecks doc url).entries.filter fun e => e.2.category = k).map
      fun e => e.2.maxPoints).sum =
    ((((buildChecks doc url).entries.map fun e => (e.1, e.2.category, e.2.maxPoints)).filter
      fun t => t.2.1 = k).map fun t => t.2.2).sum := by
  rw [List.filter_map, List.map_map]
  rfl

/-- Points add up to at most the maxima, over any selection of checks. -/
theorem sum_points_le (es : List (String × Check)) (h : ∀ e ∈ es, e.2.points ≤ e.2.maxPoints)
    (p : String × Check → Bool) :
    ((es.filter p).map fun e => e.2.points).sum ≤ ((es.filter p).map fun e => e.2.maxPoints).sum := by
  induction es with
  | nil => simp
  | cons e es ih =>
    have h1 := h e (List.mem_cons_self _ _)
    have h2 := ih fun x hx => h x (List.mem_cons_of_mem _ hx)
    by_cases hp : p e = true
    · simp only [List.filter_cons_of_pos hp, List.map_cons, List.sum_cons]
      omega
    · simp only [List.filter_cons_of_neg hp]
      exact h2

/-- The category scores are bounded by the declared maxima. -/
theorem category_bounds (doc : Doc) (url : String) :
    ∀ kc ∈ (runAuditChecks doc url).categories,
      kc.2.score ≤ kc.2.maxScore ∧
      (((runAuditChecks doc url).checks.entries.filter fun e => e.2.category = kc.1).map
        fun e => e.2.maxPoints).sum = kc.2.maxScore := by
  intro kc hkc
  rw [categories_eq] at hkc
  have hmax : ∀ k : String, (((buildChecks doc url).entries.filter fun e => e.2.category = k).map
      fun e => e.2.points).sum ≤ (((buildChecks doc url).entries.filter
        fun e => e.2.category = k).map fun e => e.2.maxPoints).sum :=
    fun k => sum_points_le _ (points_le_maxPoints doc url) _
  have hsum := maxPoints_sum_eq doc url
  simp only [entries_static] at hsum
  simp only [initialCategories, List.map_cons, List.map_nil, List.mem_cons, List.mem_singleton,
    List.not_mem_nil, or_false] at hkc
  rcases hkc with h | h | h | h | h <;> subst h <;> simp only [runAuditChecks]
  · have a := hmax "technical"; have b := hsum "technical"
    rw [b] at a ⊢
    exact ⟨a, by decide⟩
  · have a := hmax "onpage"; have b := hsum "onpage"
    rw [b] at a ⊢
    exact ⟨a, by decide⟩
  · have a := hmax "local"; have b := hsum "local"
    rw [b] at a ⊢
    exact ⟨a, by decide⟩
  · have a := hmax "trust"; have b := hsum "trust"
    rw [b] at a ⊢
    exact ⟨a, by decide⟩
  · have a := hmax "social"; have b := hsum "social"
    rw [b] at a ⊢
    exact ⟨a, by decide⟩

/-- C1: in the result of `runAuditChecks`, `totalScore` is the sum of the scores of the
five categories technical, onpage, local, trust and social; the score of each category is
the sum of the points of exactly the checks whose `category` field names it (and those
are the checks listed under it); every check names one of the five categories; and no
check has more points than its `maxPoints`. -/
theorem runAuditChecks_scores_are_sums (doc : Doc) (url : String) :
    (runAuditChecks doc url).categories.map (fun kc => kc.1) =
      ["technical", "onpage", "local", "trust", "social"] ∧
    (runAuditChecks doc url).totalScore =
      ((runAuditChecks doc url).categories.map fun kc => kc.2.score).sum ∧
    (∀ kc ∈ (runAuditChecks doc url).categories,
      kc.2.score = (((runAuditChecks doc url).checks.entries.filter
        fun e => e.2.category = kc.1).map fun e => e.2.points).sum ∧
      kc.2.checks = (runAuditChecks doc url).checks.entries.filter
        fun e => e.2.category = kc.1) ∧
    (∀ e ∈ (runAuditChecks doc url).checks.entries,
      e.2.category ∈ ["technical", "onpage", "local", "trust", "social"] ∧
      e.2.points ≤ e.2.maxPoints) := by
  refine ⟨?_, totalScore_eq doc url, ?_, ?_⟩
  · rw [categories_eq]
    simp [initialCategories]
  · intro kc hkc
    rw [categories_eq] at hkc
    obtain ⟨kc0, _, rfl⟩ := List.mem_map.mp hkc
    exact ⟨rfl, rfl⟩
  · intro e he
    refine ⟨?_, points_le_maxPoints doc url e he⟩
    have hs := entries_static doc url
    have hm : (e.1, e.2.category, e.2.maxPoints) ∈
        (buildChecks doc url).entries.map (fun e => (e.1, e.2.category, e.2.maxPoints)) :=
      List.mem_map_of_mem _ he
    rw [hs] at hm
    simp only [List.mem_cons, List.mem_singleton, List.not_mem_nil, or_false, Prod.mk.injEq] at hm
    rcases hm with h | h | h | h | h | h | h | h | h | h | h | h | h | h | h | h | h | h | h |
      h | h | h <;> (rw [h.2.1]; decide)

/-- C2: `totalScore` lies in [0, 100]; the declared maxima are technical 25, onpage 25,
local 25, trust 15 and social 10; the score of each category lies between 0 and its
`maxScore`; and the `maxPoints` of the checks of a category add up to exactly that
`maxScore`. -/
theorem runAuditChecks_scores_bounded (doc : Doc) (url : String) :
    0 ≤ (runAuditChecks doc url).totalScore ∧
    (runAuditChecks doc url).totalScore ≤ 100 ∧
    (runAuditChecks doc url).categories.map (fun kc => (kc.1, kc.2.maxScore)) =
      [("technical", 25), ("onpage", 25), ("local", 25), ("trust", 15), ("social", 10)] ∧
    (∀ kc ∈ (runAuditChecks doc url).categories,
      0 ≤ kc.2.score ∧ kc.2.score ≤ kc.2.maxScore ∧
      (((runAuditChecks doc url).checks.entries.filter fun e => e.2.category = kc.1).map
        fun e => e.2.maxPoints).sum = kc.2.maxScore) := by
  have hb := category_bounds doc url
  have hmaxes : (runAuditChecks doc url).categories.map (fun kc => (kc.1, kc.2.maxScore)) =
      [("technical", 25), ("onpage", 25), ("local", 25), ("trust", 15), ("social", 10)] := by
    rw [categories_eq]
    simp [initialCategories]
  refine ⟨Nat.zero_le _, ?_, hmaxes, fun kc hkc => ⟨Nat.zero_le _, hb kc hkc⟩⟩
  rw [totalScore_eq]
  have hle : ∀ (l : List (String × CategoryScore)), (∀ kc ∈ l, kc.2.score ≤ kc.2.maxScore) →
      (l.map fun kc => kc.2.score).sum ≤ (l.map fun kc => kc.2.maxScore).sum := by
    intro l
    induction l with
    | nil => simp
    | cons c l ih =>
      intro h
      have h1 := h c (List.mem_cons_self _ _)
      have h2 := ih fun x hx => h x (List.mem_cons_of_mem _ hx)
      simp only [List.map_cons, List.sum_cons]
      omega
  have h1 := hle _ fun kc hkc => (hb kc hkc).1
  have h2 : ((runAuditChecks doc url).categories.map fun kc => kc.2.maxScore).sum = 100 := by
    have := congrArg (fun l => (l.map Prod.snd).sum) hmaxes
    simpa [List.map_map, Function.comp] using this
  omega

/-! ## Directory tier (`runFullAudit`) -/

/-- The three outcomes of the tier assignment `if F then featured else if B then basic`,
read through equivalent forms `F'` and `B'` of the two conditions. -/
theorem tier_cases (F B F' B' : Prop) [Decidable F] [Decidable B] (hF : F ↔ F') (hB : B ↔ B') :
    ((if F then "featured" else if B then "basic" else "not_ready") = "featured" ↔ F') ∧
    ((if F then "featured" else if B then "basic" else "not_ready") = "basic" ↔ (¬ F' ∧ B')) ∧
    ((if F then "featured" else if B then "basic" else "not_ready") = "not_ready" ↔
      (¬ F' ∧ ¬ B')) := by
  rw [← hF, ← hB]
  by_cases hF : F <;> by_cases hB : B <;> simp [hF, hB]

/-- The tier computed from a URL and audit results follows the two-level policy. -/
theorem directoryReadiness_tier (url : String) (r : AuditResults) :
    ((directoryReadiness url r).tier = "featured" ↔
      (r.totalScore ≥ 75 ∧ ∀ req ∈ DIRECTORY_REQUIREMENTS.featured.requirements,
        req.checkFn { url := url, checks := r.checks } = true)) ∧
    ((directoryReadiness url r).tier = "basic" ↔
      (¬ (r.totalScore ≥ 75 ∧ ∀ req ∈ DIRECTORY_REQUIREMENTS.featured.requirements,
          req.checkFn { url := url, checks := r.checks } = true) ∧
        r.totalScore ≥ 50 ∧ ∀ req ∈ DIRECTORY_REQUIREMENTS.basic.requirements,
          req.checkFn { url := url, checks := r.checks } = true)) ∧
    ((directoryReadiness url r).tier = "not_ready" ↔
      (¬ (r.totalScore ≥ 75 ∧ ∀ req ∈ DIRECTORY_REQUIREMENTS.featured.requirements,
          req.checkFn { url := url, checks := r.checks } = true) ∧
        ¬ (r.totalScore ≥ 50 ∧ ∀ req ∈ DIRECTORY_REQUIREMENTS.basic.requirements,
          req.checkFn { url := url, checks := r.checks } = true))) := by
  exact tier_cases _ _ _ _
    (and_congr_right fun _ => List.filter_length_eq_length)
    (and_congr_right fun _ => List.filter_length_eq_length)

/-- A successful `runFullAudit` reports the readiness computed from its own URL, checks
and total score. -/
theorem runFullAudit_success (net : Network) (parse : String → Doc) (domain : String)
    (report : AuditReport) (h : runFullAudit net parse domain = .success report) :
    ∃ html, report.checks = (runAuditChecks (parse html) report.url).checks ∧
      report.totalScore = (runAuditChecks (parse html) report.url).totalScore ∧
      report.directoryReadiness =
        directoryReadiness report.url (runAuditChecks (parse html) report.url) := by
  simp only [runFullAudit] at h
  cases hres : (fetchWithRetries net (normalizeDomain domain)).1 with
  | failed error noPresence unreachable =>
    rw [hres] at h
    dsimp only at h
    by_cases hu : unreachable.getD false = true
    · rw [if_pos hu] at h
      cases h
    · rw [if_neg hu] at h
      cases h
  | ok html url proxy =>
    rw [hres] at h
    dsimp only at h
    injection h with h
    subst h
    refine ⟨html, ?_, ?_, ?_⟩ <;> dsimp only

/-- C3: in every successful audit the tier is `featured` exactly when the total score is
at least 75 and all 8 featured requirements pass; `basic` exactly when featured is not
achieved, the total score is at least 50 and all 4 basic requirements pass; and
`not_ready` in every other case. -/
theorem runFullAudit_tier (net : Network) (parse : String → Doc) (domain : String)
    (report : AuditReport) (h : runFullAudit net parse domain = .success report) :
    DIRECTORY_REQUIREMENTS.featured.requirements.length = 8 ∧
    DIRECTORY_REQUIREMENTS.basic.requirements.length = 4 ∧
    (report.directoryReadiness.tier = "featured" ↔
      (report.totalScore ≥ 75 ∧ ∀ req ∈ DIRECTORY_REQUIREMENTS.featured.requirements,
        req.checkFn { url := report.url, checks := report.checks } = true)) ∧
    (report.directoryReadiness.tier = "basic" ↔
      (¬ (report.totalScore ≥ 75 ∧ ∀ req ∈ DIRECTORY_REQUIREMENTS.featured.requirements,
          req.checkFn { url := report.url, checks := report.checks } = true) ∧
        report.totalScore ≥ 50 ∧ ∀ req ∈ DIRECTORY_REQUIREMENTS.basic.requirements,
          req.checkFn { url := report.url, checks := report.checks } = true)) ∧
    (report.directoryReadiness.tier = "not_ready" ↔
      (¬ (report.totalScore ≥ 75 ∧ ∀ req ∈ DIRECTORY_REQUIREMENTS.featured.requirements,
          req.checkFn { url := report.url, checks := report.checks } = true) ∧
        ¬ (report.totalScore ≥ 50 ∧ ∀ req ∈ DIRECTORY_REQUIREMENTS.basic.requirements,
          req.checkFn { url := report.url, checks := report.checks } = true))) := by
  obtain ⟨html, hc, ht, hd⟩ := runFullAudit_success net parse domain report h
  have key := directoryReadiness_tier report.url (runAuditChecks (parse html) report.url)
  rw [← hc, ← ht, ← hd] at key
  exact ⟨rfl, rfl, key⟩

/-- Witness for C3: the audit of `example.com` over `sampleNetwork` succeeds with a total
score of 41, and its tier is `not_ready`. -/
theorem runFullAudit_tier_witness :
    runFullAudit sampleNetwork sampleParse "https://www.example.com/" = .success sampleReport ∧
      sampleReport.totalScore = 41 ∧ sampleReport.directoryReadiness.tier = "not_ready" ∧
      (sampleReport.directoryReadiness.tier = "not_ready" ↔
        (¬ (sampleReport.totalScore ≥ 75 ∧
            ∀ req ∈ DIRECTORY_REQUIREMENTS.featured.requirements,
              req.checkFn { url := sampleReport.url, checks := sampleReport.checks } = true) ∧
          ¬ (sampleReport.totalScore ≥ 50 ∧
            ∀ req ∈ DIRECTORY_REQUIREMENTS.basic.requirements,
              req.checkFn { url := sampleReport.url, checks := sampleReport.checks } = true))) :=
  ⟨by decide!, by decide!, by decide!,
    (runFullAudit_tier sampleNetwork sampleParse "https://www.example.com/" sampleReport
      (by decide!)).2.2.2.2⟩

/-! ## Platform classifier (`detectPlatform`) -/

/-- First-match search returns the result of a rule that applies when no earlier rule
does. -/
theorem firstMatch_earliest (rules : List SignatureRule) (h : String) (i : Nat)
    (hi : i < rules.length) (happ : rules[i].applies h = true)
    (hprev : ∀ (j : Nat) (hj : j < i), (rules[j]).applies h = false) :
    firstMatch rules h = rules[i].result := by
  induction rules generalizing i with
  | nil => simp at hi
  | cons r rs ih =>
    cases i with
    | zero =>
      simp only [List.getElem_cons_zero] at happ ⊢
      simp [firstMatch, happ]
    | succ k =>
      have h0 : r.applies h = false := hprev 0 (Nat.succ_pos k)
      have hk : k < rs.length := by simpa using hi
      simp only [List.getElem_cons_succ] at happ ⊢
      simp only [firstMatch, h0, Bool.false_eq_true, if_false]
      exact ih k hk happ fun j hj => hprev (j + 1) (Nat.succ_lt_succ hj)

/-- First-match search falls through to the default when no rule applies. -/
theorem firstMatch_none (rules : List SignatureRule) (h : String)
    (hnone : ∀ r ∈ rules, r.applies h = false) : firstMatch rules h = unknownPlatform := by
  induction rules with
  | nil => rfl
  | cons r rs ih =>
    have h0 := hnone r (List.mem_cons_self _ _)
    simp only [firstMatch, h0, Bool.false_eq_true, if_false]
    exact ih fun x hx => hnone x (List.mem_cons_of_mem _ hx)

/-- Rules that do not apply can be dropped from the front of the table. -/
theorem firstMatch_append_of_none (xs ys : List SignatureRule) (h : String)
    (hnone : ∀ r ∈ xs, r.applies h = false) : firstMatch (xs ++ ys) h = firstMatch ys h := by
  induction xs with
  | nil => rfl
  | cons r rs ih =>
    have h0 := hnone r (List.mem_cons_self _ _)
    simp only [List.cons_append, firstMatch, h0, Bool.false_eq_true, if_false]
    exact ih fun x hx => hnone x (List.mem_cons_of_mem _ hx)

/-- C4: `detectPlatform` is a function of its argument that equals the first-match search
over the ordered rule table on the lower-cased html: its result is that of the earliest
rule that applies, and the default when none applies.  Order, not confidence, decides:
html matching the GoDaddy rule (confidence 85) and none of the five rules before it is
classified GoDaddy even when it also matches the later Weebly rule (confidence 95), as
for a page containing `godaddy` and `weebly`. -/
theorem detectPlatform_first_match (html : String) :
    detectPlatform html = classifyPlatform html ∧
    (∀ (i : Nat) (hi : i < signatureRules.length),
      signatureRules[i].applies (toLowerCase html) = true →
      (∀ (j : Nat) (hj : j < i), (signatureRules[j]).applies (toLowerCase html) = false) →
      detectPlatform html = signatureRules[i].result) ∧
    ((∀ r ∈ signatureRules, r.applies (toLowerCase html) = false) →
      detectPlatform html = unknownPlatform) ∧
    ((signatureRules.map fun r => (r.result.name, r.result.confidence)).take 7 =
      [("WordPress", 95), ("Wix", 95), ("Squarespace", 95), ("Shopify", 95), ("Webflow", 95),
        ("GoDaddy", 85), ("Weebly", 95)]) ∧
    (includes (toLowerCase html) "godaddy" = true →
      includes (toLowerCase html) "weebly" = true →
      (∀ r ∈ signatureRules.take 5, r.applies (toLowerCase html) = false) →
      (detectPlatform html).name = "GoDaddy" ∧ (detectPlatform html).confidence = 85) ∧
    detectPlatform "<a href=\"https://www.godaddy.com\">GoDaddy</a> <p>Formerly on Weebly</p>" =
      { name := "GoDaddy", confidence := 85, canFix := "partial",
        note := "Basic builder — some limitations" } := by
  have href : detectPlatform html = firstMatch signatureRules (toLowerCase html) := rfl
  refine ⟨rfl, ?_, ?_, rfl, ?_, by decide⟩
  · intro i hi happ hprev
    rw [href]
    exact firstMatch_earliest signatureRules _ i hi happ hprev
  · intro hnone
    rw [href]
    exact firstMatch_none signatureRules _ hnone
  · intro hg _ hprev
    have hsplit : signatureRules = signatureRules.take 5 ++ signatureRules.drop 5 :=
      (List.take_append_drop 5 signatureRules).symm
    rw [href, hsplit, firstMatch_append_of_none _ _ _ hprev]
    have step : ∀ h : String, firstMatch (signatureRules.drop 5) h =
        if (includes h "godaddy" || includes h "secureserver.net" || includes h "godaddysites" ||
            includes h "mywebsite.godaddy" || includes h "ondigitalocean.app") = true then
          ({ name := "GoDaddy", confidence := 85, canFix := "partial",
             note := "Basic builder — some limitations" } : Platform)
        else firstMatch (signatureRules.drop 6) h := fun _ => rfl
    rw [step]
    simp [hg]

/-! ## Retrieval layer (`fetchWithProxy`, `fetchWithRetries`) -/

/-- A string with a positive length is truthy. -/
theorem truthy_of_jsLength_pos (s : String) (h : 0 < jsLength s) : truthy s = true := by
  unfold truthy
  cases hd : s.data with
  | nil => simp [jsLength, hd] at h
  | cons c cs => rfl

/-- The payload test of the source: longer than 500 code units and containing `<`. -/
theorem validPayload_iff (body : String) :
    validPayload body = true ↔ (500 < jsLength body ∧ includes body "<" = true) := by
  unfold validPayload
  constructor
  · intro h
    simp only [Bool.and_eq_true, decide_eq_true_eq] at h
    exact ⟨h.1.2, h.2⟩
  · rintro ⟨h1, h2⟩
    have h0 : truthy body = true := truthy_of_jsLength_pos body (by omega)
    simp [h0, h1, h2]

/-- One turn of the relay loop on a request that yields a valid payload. -/
theorem fetchLoop_accept (net : Network) (url : String) (p : Proxy) (ps : List Proxy)
    (lastError html : String) (h : acceptedBody net { url := url, proxy := p.name } = some html) :
    fetchLoop net url (p :: ps) lastError =
      (.ok html url p.name, [{ url := url, proxy := p.name }]) := by
  unfold acceptedBody at h
  simp only at h
  cases hn : net p.name url with
  | aborted => simp [hn] at h
  | threw m => simp [hn] at h
  | http ok status body =>
    rw [hn] at h
    cases ok with
    | false => simp at h
    | true =>
      simp only at h
      split at h
      · next hv =>
        injection h with h
        subst h
        simp [fetchLoop, hn, (validPayload_iff body).mpr hv]
      · simp at h

/-- One turn of the relay loop on a request that yields no valid payload: the loop goes
on with the remaining relays. -/
theorem fetchLoop_reject (net : Network) (url : String) (p : Proxy) (ps : List Proxy)
    (lastError : String) (h : acceptedBody net { url := url, proxy := p.name } = none) :
    ∃ e, fetchLoop net url (p :: ps) lastError =
      ((fetchLoop net url ps e).1, { url := url, proxy := p.name } :: (fetchLoop net url ps e).2) := by
  unfold acceptedBody at h
  simp only at h
  cases hn : net p.name url with
  | aborted => exact ⟨p.name ++ ": Timeout", by simp [fetchLoop, hn]⟩
  | threw m => exact ⟨p.name ++ ": " ++ m, by simp [fetchLoop, hn]⟩
  | http ok status body =>
    rw [hn] at h
    cases ok with
    | false => exact ⟨p.name ++ ": HTTP " ++ toString status, by simp [fetchLoop, hn]⟩
    | true =>
      simp only at h
      have hv : validPayload body = false := by
        cases hvp : validPayload body with
        | false => rfl
        | true =>
          have := (validPayload_iff body).mp hvp
          simp [this] at h
      exact ⟨p.name ++ ": Invalid or empty response", by simp [fetchLoop, hn, hv]⟩

/-- The relay loop tries the relays in order up to the first valid payload. -/
theorem fetchLoop_spec (net : Network) (url : String) (ps : List Proxy) :
    ∀ lastError : String,
      (fetchLoop net url ps lastError).2 =
        triedUntilAccepted net (ps.map fun p => { url := url, proxy := p.name }) ∧
      (∀ a, firstAccepted net (ps.map fun p => { url := url, proxy := p.name }) = some a →
        ∃ html, acceptedBody net a = some html ∧
          (fetchLoop net url ps lastError).1 = .ok html a.url a.proxy) ∧
      (firstAccepted net (ps.map fun p => { url := url, proxy := p.name }) = none →
        (fetchLoop net url ps lastError).1.success = false) := by
  induction ps with
  | nil =>
    intro lastError
    simp [fetchLoop, triedUntilAccepted, firstAccepted, FetchResult.success]
  | cons p ps ih =>
    intro lastError
    cases hacc : acceptedBody net { url := url, proxy := p.name } with
    | some html =>
      rw [fetchLoop_accept net url p ps lastError html hacc]
      simp [triedUntilAccepted, firstAccepted, hacc]
    | none =>
      obtain ⟨e, he⟩ := fetchLoop_reject net url p ps lastError hacc
      obtain ⟨h1, h2, h3⟩ := ih e
      rw [he]
      refine ⟨?_, ?_, ?_⟩
      · simp only [h1]
        simp [triedUntilAccepted, firstAccepted, hacc]
      · intro a ha
        simp only [firstAccepted, List.map_cons, List.find?_cons, hacc, Option.isSome_none] at ha
        exact h2 a ha
      · intro ha
        simp only [firstAccepted, List.map_cons, List.find?_cons, hacc, Option.isSome_none] at ha
        exact h3 ha

/-- Trying a block of pairs that yields nothing, then another block. -/
theorem triedUntilAccepted_append_none (net : Network) (xs ys : List Attempt)
    (h : firstAccepted net xs = none) :
    triedUntilAccepted net (xs ++ ys) = xs ++ triedUntilAccepted net ys ∧
    firstAccepted net (xs ++ ys) = firstAccepted net ys := by
  unfold firstAccepted at h
  have hall : ∀ a ∈ xs, (!(acceptedBody net a).isSome) = true := by
    intro a ha
    have := List.find?_eq_none.mp h a ha
    simpa using this
  constructor
  · simp only [triedUntilAccepted, firstAccepted, List.find?_append, h, Option.none_or]
    rw [List.takeWhile_append_of_pos hall, List.append_assoc]
  · simp [firstAccepted, List.find?_append, h]

/-- The elements before the first hit of a search do not depend on what follows. -/
theorem takeWhile_append_of_find (P : Attempt → Bool) (xs ys : List Attempt) (a : Attempt)
    (h : xs.find? P = some a) :
    (xs ++ ys).takeWhile (fun x => !P x) = xs.takeWhile (fun x => !P x) := by
  induction xs with
  | nil => simp at h
  | cons x xs ih =>
    by_cases hx : P x = true
    · simp [List.takeWhile_cons, hx]
    · rw [List.find?_cons_of_neg _ hx] at h
      simp only [List.cons_append, List.takeWhile_cons, Bool.not_eq_true] at hx ⊢
      simp only [hx, Bool.not_false, if_true]
      rw [ih h]

/-- Trying a block of pairs one of which yields a valid payload: nothing after the block
is tried. -/
theorem triedUntilAccepted_append_some (net : Network) (xs ys : List Attempt) (a : Attempt)
    (h : firstAccepted net xs = some a) :
    triedUntilAccepted net (xs ++ ys) = triedUntilAccepted net xs ∧
    firstAccepted net (xs ++ ys) = some a := by
  unfold firstAccepted at h
  have hfind : (xs ++ ys).find? (fun a => (acceptedBody net a).isSome) = some a := by
    simp [List.find?_append, h]
  refine ⟨?_, hfind⟩
  simp only [triedUntilAccepted, firstAccepted, hfind, h]
  rw [takeWhile_append_of_find (fun a => (acceptedBody net a).isSome) xs ys a h]

/-- The loop over candidate URLs tries the (URL, relay) pairs in order up to the first
valid payload, which it returns; with none, it returns the unreachable failure. -/
theorem retryLoop_spec (net : Network) (domain : String) (urls : List String) :
    (retryLoop net domain urls).2 = triedUntilAccepted net
      (urls.flatMap fun url => CORS_PROXIES.map fun p => { url := url, proxy := p.name }) ∧
    (∀ a, firstAccepted net
        (urls.flatMap fun url => CORS_PROXIES.map fun p => { url := url, proxy := p.name }) = some a →
      ∃ html, acceptedBody net a = some html ∧
        (retryLoop net domain urls).1 = .ok html a.url a.proxy) ∧
    (firstAccepted net
        (urls.flatMap fun url => CORS_PROXIES.map fun p => { url := url, proxy := p.name }) = none →
      (retryLoop net domain urls).1 = unreachableFailure domain) := by
  induction urls with
  | nil => simp [retryLoop, triedUntilAccepted, firstAccepted]
  | cons url urls ih =>
    obtain ⟨h1, h2, h3⟩ := fetchLoop_spec net url CORS_PROXIES "All proxies failed"
    obtain ⟨i1, i2, i3⟩ := ih
    rw [List.flatMap_cons]
    cases hfa : firstAccepted net (CORS_PROXIES.map fun p => { url := url, proxy := p.name }) with
    | some a =>
      obtain ⟨html, hacc, hres⟩ := h2 a hfa
      obtain ⟨t1, t2⟩ := triedUntilAccepted_append_some net _
        (urls.flatMap fun url => CORS_PROXIES.map fun p => { url := url, proxy := p.name }) a hfa
      have hsucc : (fetchWithProxy net url).1.success = true := by
        unfold fetchWithProxy
        rw [hres]
        rfl
      have hloop : retryLoop net domain (url :: urls) = fetchWithProxy net url := by
        simp [retryLoop, hsucc]
      rw [hloop, t1, t2]
      refine ⟨h1, ?_, ?_⟩
      · intro b hb
        injection hb with hb
        subst hb
        exact ⟨html, hacc, hres⟩
      · intro hb
        cases hb
    | none =>
      obtain ⟨t1, t2⟩ := triedUntilAccepted_append_none net _
        (urls.flatMap fun url => CORS_PROXIES.map fun p => { url := url, proxy := p.name }) hfa
      have hfail : (fetchWithProxy net url).1.success = false := h3 hfa
      have hloop : retryLoop net domain (url :: urls) =
          ((retryLoop net domain urls).1, (fetchWithProxy net url).2 ++ (retryLoop net domain urls).2) := by
        simp [retryLoop, hfail]
      rw [hloop, t1, t2]
      refine ⟨?_, i2, i3⟩
      show (fetchWithProxy net url).2 ++ (retryLoop net domain urls).2 = _
      rw [i1]
      unfold fetchWithProxy
      rw [h1]
      congr 1
      simp only [triedUntilAccepted, hfa, Option.toList_none, List.append_nil]
      unfold firstAccepted at hfa
      apply List.takeWhile_eq_self_iff.mpr
      intro a ha
      have := List.find?_eq_none.mp hfa a ha
      simpa using this

/-- Two texts of different lengths stay different when the same text is appended. -/
theorem append_ne_of_length_ne (a b d : String) (h : a.length ≠ b.length) : a ++ d ≠ b ++ d := by
  intro heq
  have := congrArg String.length heq
  simp only [String.length_append] at this
  omega

/-- The four candidate URLs of a domain are pairwise distinct. -/
theorem candidateUrls_nodup (d : String) : (candidateUrls d).Nodup := by
  have h12 : "https://" ++ d ≠ "https://www." ++ d := append_ne_of_length_ne _ _ d (by decide)
  have h13 : "https://" ++ d ≠ "http://" ++ d := append_ne_of_length_ne _ _ d (by decide)
  have h14 : "https://" ++ d ≠ "http://www." ++ d := append_ne_of_length_ne _ _ d (by decide)
  have h23 : "https://www." ++ d ≠ "http://" ++ d := append_ne_of_length_ne _ _ d (by decide)
  have h24 : "https://www." ++ d ≠ "http://www." ++ d := append_ne_of_length_ne _ _ d (by decide)
  have h34 : "http://" ++ d ≠ "http://www." ++ d := append_ne_of_length_ne _ _ d (by decide)
  simp [candidateUrls, h12, h13, h14, h23, h24, h34]

/-- Removing duplicates leaves a duplicate-free list as it is. -/
theorem uniqueInOrder_of_nodup (l : List String) (h : l.Nodup) : uniqueInOrder l = l := by
  induction l with
  | nil => rfl
  | cons x xs ih =>
    rw [List.nodup_cons] at h
    simp only [uniqueInOrder, ih h.2]
    congr 1
    apply List.filter_eq_self.mpr
    intro y hy
    simp only [bne_iff_ne, ne_eq]
    rintro rfl
    exact h.1 hy

/-- The de-duplicated candidate list of `fetchWithRetries` is the full list of four. -/
theorem uniqueUrls_eq (domain : String) : uniqueUrls domain = candidateUrls (stripWww domain) :=
  uniqueInOrder_of_nodup _ (candidateUrls_nodup (stripWww domain))

/-- The pairs tried are the four candidates, each through the four relays in turn. -/
theorem attemptOrder_eq (domain : String) :
    attemptOrder domain =
      [{ url := "https://" ++ stripWww domain, proxy := "corsproxy.io" },
        { url := "https://" ++ stripWww domain, proxy := "allorigins" },
        { url := "https://" ++ stripWww domain, proxy := "corsproxy.org" },
        { url := "https://" ++ stripWww domain, proxy := "cors-anywhere-alt" },
        { url := "https://www." ++ stripWww domain, proxy := "corsproxy.io" },
        { url := "https://www." ++ stripWww domain, proxy := "allorigins" },
        { url := "https://www." ++ stripWww domain, proxy := "corsproxy.org" },
        { url := "https://www." ++ stripWww domain, proxy := "cors-anywhere-alt" },
        { url := "http://" ++ stripWww domain, proxy := "corsproxy.io" },
        { url := "http://" ++ stripWww domain, proxy := "allorigins" },
        { url := "http://" ++ stripWww domain, proxy := "corsproxy.org" },
        { url := "http://" ++ stripWww domain, proxy := "cors-anywhere-alt" },
        { url := "http://www." ++ stripWww domain, proxy := "corsproxy.io" },
        { url := "http://www." ++ stripWww domain, proxy := "allorigins" },
        { url := "http://www." ++ stripWww domain, proxy := "corsproxy.org" },
        { url := "http://www." ++ stripWww domain, proxy := "cors-anywhere-alt" }] := rfl

/-- The sixteen (URL, relay) pairs are pairwise distinct. -/
theorem attemptOrder_nodup (domain : String) : (attemptOrder domain).Nodup := by
  have h12 : "https://" ++ stripWww domain ≠ "https://www." ++ stripWww domain :=
    append_ne_of_length_ne _ _ _ (by decide)
  have h13 : "https://" ++ stripWww domain ≠ "http://" ++ stripWww domain :=
    append_ne_of_length_ne _ _ _ (by decide)
  have h14 : "https://" ++ stripWww domain ≠ "http://www." ++ stripWww domain :=
    append_ne_of_length_ne _ _ _ (by decide)
  have h23 : "https://www." ++ stripWww domain ≠ "http://" ++ stripWww domain :=
    append_ne_of_length_ne _ _ _ (by decide)
  have h24 : "https://www." ++ stripWww domain ≠ "http://www." ++ stripWww domain :=
    append_ne_of_length_ne _ _ _ (by decide)
  have h34 : "http://" ++ stripWww domain ≠ "http://www." ++ stripWww domain :=
    append_ne_of_length_ne _ _ _ (by decide)
  rw [attemptOrder_eq]
  simp [h12, h13, h14, h23, h24, h34]

/-- There are sixteen (URL, relay) pairs. -/
theorem attemptOrder_length (domain : String) : (attemptOrder domain).length = 16 := rfl

/-- The requests and result of `fetchWithRetries` in terms of the ordered pairs. -/
theorem fetchWithRetries_spec (net : Network) (domain : String) :
    (fetchWithRetries net domain).2 = triedUntilAccepted net (attemptOrder domain) ∧
    (∀ a, firstAccepted net (attemptOrder domain) = some a →
      ∃ html, acceptedBody net a = some html ∧
        (fetchWithRetries net domain).1 = .ok html a.url a.proxy) ∧
    (firstAccepted net (attemptOrder domain) = none →
      (fetchWithRetries net domain).1 = unreachableFailure domain) := by
  unfold fetchWithRetries attemptOrder
  rw [uniqueUrls_eq]
  exact retryLoop_spec net domain _

/-- C5: with the relay responses given as a function of (candidate URL, relay),
`fetchWithRetries` goes through the candidates `https://d`, `https://www.d`, `http://d`,
`http://www.d` (`d` being its argument without a leading `www.`) and, for each, the relays
corsproxy.io, allorigins, corsproxy.org, cors-anywhere-alt.  Its requests are exactly the
pairs up to and including the first one whose response has an OK status and a body
longer than 500 characters containing `<`; it returns success with that body, that
candidate URL and that relay's name, and requests nothing after it.  A body of exactly
500 characters, or one without `<`, is not valid. -/
theorem fetchWithRetries_first_valid (net : Network) (domain : String) :
    uniqueUrls domain =
      ["https://" ++ stripWww domain, "https://www." ++ stripWww domain,
        "http://" ++ stripWww domain, "http://www." ++ stripWww domain] ∧
    (startsWith domain "www." = false → stripWww domain = domain) ∧
    (CORS_PROXIES.map fun p => p.name) =
      ["corsproxy.io", "allorigins", "corsproxy.org", "cors-anywhere-alt"] ∧
    attemptOrder domain = (uniqueUrls domain).flatMap (fun url =>
      CORS_PROXIES.map fun p => { url := url, proxy := p.name }) ∧
    (∀ a, firstAccepted net (attemptOrder domain) = some a →
      ∃ html, acceptedBody net a = some html ∧
        fetchWithRetries net domain =
          (.ok html a.url a.proxy,
            (attemptOrder domain).takeWhile (fun b => !(acceptedBody net b).isSome) ++ [a])) ∧
    (firstAccepted net (attemptOrder domain) = none →
      fetchWithRetries net domain = (unreachableFailure domain, attemptOrder domain)) ∧
    (∀ (a : Attempt) (status : Nat) (body : String),
      net a.proxy a.url = .http true status body →
      (jsLength body = 500 ∨ includes body "<" = false) → acceptedBody net a = none) ∧
    (∀ body : String, validPayload body = true ↔ (500 < jsLength body ∧ includes body "<" = true)) := by
  obtain ⟨h1, h2, h3⟩ := fetchWithRetries_spec net domain
  refine ⟨uniqueUrls_eq domain, ?_, rfl, ?_, ?_, ?_, ?_, validPayload_iff⟩
  · intro h
    unfold startsWith at h
    simp [stripWww, stripLeading, h]
  · rw [uniqueUrls_eq]
    rfl
  · intro a ha
    obtain ⟨html, hacc, hres⟩ := h2 a ha
    refine ⟨html, hacc, ?_⟩
    apply Prod.ext
    · exact hres
    · rw [h1]
      simp [triedUntilAccepted, ha]
  · intro hnone
    apply Prod.ext
    · exact h3 hnone
    · rw [h1]
      simp only [triedUntilAccepted, hnone, Option.toList_none, List.append_nil]
      unfold firstAccepted at hnone
      apply List.takeWhile_eq_self_iff.mpr
      intro a ha
      have := List.find?_eq_none.mp hnone a ha
      simpa using this
  · intro a status body hnet hbad
    unfold acceptedBody
    rw [hnet]
    simp only
    rcases hbad with hb | hb
    · simp [hb]
    · simp [hb]

/-- Witness for C5: over `skippingNetwork` the first three relays are passed over (a body
of exactly 500 characters, a body without `<`, a status that is not OK) and the fourth
request, the first valid one, is returned; nothing is requested after it. -/
theorem fetchWithRetries_first_valid_witness :
    firstAccepted skippingNetwork (attemptOrder "example.com") =
      some { url := "https://example.com", proxy := "cors-anywhere-alt" } ∧
    (fetchWithRetries skippingNetwork "example.com").2.length = 4 ∧
    ∃ html, acceptedBody skippingNetwork
        { url := "https://example.com", proxy := "cors-anywhere-alt" } = some html ∧
      fetchWithRetries skippingNetwork "example.com" =
        (.ok html "https://example.com" "cors-anywhere-alt",
          (attemptOrder "example.com").takeWhile
            (fun b => !(acceptedBody skippingNetwork b).isSome) ++
            [{ url := "https://example.com", proxy := "cors-anywhere-alt" }]) :=
  ⟨by decide!, by decide!,
    (fetchWithRetries_first_valid skippingNetwork "example.com").2.2.2.2.1 _ (by decide!)⟩

/-- C6: when `fetchWithRetries` returns a failure, its requests were exactly the sixteen
(URL variant, relay) pairs, in order and each exactly once, and none of them gave a valid
payload; the four candidate URLs are pairwise distinct for every domain; and the failure
has `unreachable = true` and `noPresence = false`. -/
theorem fetchWithRetries_failure_exhaustive (net : Network) (domain : String)
    (h : (fetchWithRetries net domain).1.success = false) :
    (fetchWithRetries net domain).2 = attemptOrder domain ∧
    (∀ a ∈ attemptOrder domain, (fetchWithRetries net domain).2.count a = 1) ∧
    (∀ a ∈ attemptOrder domain, acceptedBody net a = none) ∧
    (uniqueUrls domain).Nodup ∧ (uniqueUrls domain).length = 4 ∧
    CORS_PROXIES.length = 4 ∧
    (fetchWithRetries net domain).2.length = 4 * 4 ∧
    (∃ error, (fetchWithRetries net domain).1 = .failed error (some false) (some true)) := by
  obtain ⟨h1, h2, h3⟩ := fetchWithRetries_spec net domain
  have hnone : firstAccepted net (attemptOrder domain) = none := by
    cases hfa : firstAccepted net (attemptOrder domain) with
    | none => rfl
    | some a =>
      obtain ⟨html, _, hres⟩ := h2 a hfa
      rw [hres] at h
      cases h
  have hall : ∀ a ∈ attemptOrder domain, acceptedBody net a = none := by
    intro a ha
    unfold firstAccepted at hnone
    have := List.find?_eq_none.mp hnone a ha
    simpa using this
  have hlog : (fetchWithRetries net domain).2 = attemptOrder domain := by
    rw [h1]
    simp only [triedUntilAccepted, hnone, Option.toList_none, List.append_nil]
    apply List.takeWhile_eq_self_iff.mpr
    intro a ha
    simp [hall a ha]
  refine ⟨hlog, ?_, hall, ?_, ?_, rfl, ?_, ?_⟩
  · intro a ha
    rw [hlog]
    exact List.count_eq_one_of_mem (attemptOrder_nodup domain) ha
  · rw [uniqueUrls_eq]
    exact candidateUrls_nodup _
  · rw [uniqueUrls_eq]
    rfl
  · rw [hlog]
    rfl
  · exact ⟨_, h3 hnone⟩

/-- Witness for C6: when every request times out, the retrieval of `example.com` fails
after sixteen requests. -/
theorem fetchWithRetries_failure_witness :
    (fetchWithRetries deadNetwork "example.com").1.success = false ∧
    (fetchWithRetries deadNetwork "example.com").2.length = 4 * 4 :=
  ⟨by decide, (fetchWithRetries_failure_exhaustive deadNetwork "example.com" (by decide)).2.2.2.2.2.2.1⟩

/-! ## Domain normalization (`runFullAudit`) -/

/-- Counterexample to C7: the case of the input is kept, so `https://www.Example.com/`
is not mapped to `example.com`. -/
theorem normalizeDomain_keeps_case :
    normalizeDomain "https://www.Example.com/" ≠ "example.com" := by decide

/-- C7 (amended): the normalization maps `https://www.Example.com/` to `Example.com`,
keeping the capital letter, and maps `https://www.example.com/` and `example.com` to
`example.com`. -/
theorem normalizeDomain_examples :
    normalizeDomain "https://www.Example.com/" = "Example.com" ∧
    normalizeDomain "https://www.example.com/" = "example.com" ∧
    normalizeDomain "example.com" = "example.com" := by decide

/-- Counterexample to C8: normalizing `www.www.example.com` gives `www.example.com`, and
normalizing that gives `example.com`. -/
theorem normalizeDomain_not_idempotent :
    normalizeDomain (normalizeDomain "www.www.example.com") ≠
      normalizeDomain "www.www.example.com" := by decide

/-- A leading part of a text with no leading blanks has no leading blanks. -/
theorem dropWhile_fixed_of_initial {p : Char → Bool} {y z : List Char}
    (hy : y.dropWhile p = y) (hz : z <+: y) : z.dropWhile p = z := by
  cases z with
  | nil => rfl
  | cons c t =>
    obtain ⟨r, rfl⟩ := hz
    by_cases hc : p c = true
    · exfalso
      have hlen := congrArg List.length hy
      have h1 : ((c :: t ++ r).dropWhile p).length ≤ (t ++ r).length := by
        rw [List.cons_append, List.dropWhile_cons_of_pos hc]
        exact (List.dropWhile_suffix p).length_le
      simp only [List.cons_append, List.length_cons] at hlen h1
      omega
    · exact List.dropWhile_cons_of_neg hc

/-- Trimming is idempotent. -/
theorem trimChars_idem (cs : List Char) : trimChars (trimChars cs) = trimChars cs := by
  unfold trimChars
  rw [dropWhile_fixed_of_initial (List.dropWhile_idempotent _ _) (List.rdropWhile_prefix _ _),
    List.rdropWhile_idempotent]

/-- Trimming does not lengthen a text. -/
theorem trimChars_length_le (cs : List Char) : (trimChars cs).length ≤ cs.length := by
  unfold trimChars
  exact le_trans (List.rdropWhile_prefix _ _).length_le (List.dropWhile_suffix _).length_le

/-- Removing the scheme does not lengthen a text. -/
theorem stripScheme_length_le (cs : List Char) : (stripScheme cs).length ≤ cs.length := by
  unfold stripScheme
  split_ifs <;> simp

/-- Removing a leading literal does not lengthen a text. -/
theorem stripLeading_length_le (p cs : List Char) : (stripLeading p cs).length ≤ cs.length := by
  unfold stripLeading
  split_ifs <;> simp

/-- Removing the final slash does not lengthen a text. -/
theorem stripTrailingSlash_length_le (cs : List Char) :
    (stripTrailingSlash cs).length ≤ cs.length := by
  unfold stripTrailingSlash
  split_ifs <;> simp

/-- A text is at least as long as a literal it starts with. -/
theorem isPrefixOf_length_le {p cs : List Char} (h : p.isPrefixOf cs = true) :
    p.length ≤ cs.length :=
  (List.IsPrefix.length_le ( List.isPrefixOf_iff_prefix.mp h))

/-- A domain is a fixed point of the stripping steps exactly when none of them applies. -/
theorem cleanDomainChars_fixed_iff (n : List Char) (hn : trimChars n = n) :
    cleanDomainChars n = n ↔
      ("https://".data.isPrefixOf n = false ∧ "http://".data.isPrefixOf n = false ∧
        "www.".data.isPrefixOf n = false ∧ n.getLast? ≠ some '/') := by
  constructor
  · intro h
    have hlen := congrArg List.length h
    have h1 := trimChars_length_le (stripTrailingSlash (stripLeading "www.".data (stripScheme n)))
    have h2 := stripTrailingSlash_length_le (stripLeading "www.".data (stripScheme n))
    have h3 := stripLeading_length_le "www.".data (stripScheme n)
    have h4 := stripScheme_length_le n
    unfold cleanDomainChars at hlen
    have e4 : (stripScheme n).length = n.length := by omega
    have e3 : (stripLeading "www.".data (stripScheme n)).length = (stripScheme n).length := by
      omega
    have e2 : (stripTrailingSlash (stripLeading "www.".data (stripScheme n))).length
        = (stripLeading "www.".data (stripScheme n)).length := by omega
    have a1 : "https://".data.isPrefixOf n = false := by
      by_contra hc
      simp only [Bool.not_eq_false] at hc
      have := isPrefixOf_length_le hc
      simp [stripScheme, hc] at e4
      simp at this
      omega
    have a2 : "http://".data.isPrefixOf n = false := by
      by_contra hc
      simp only [Bool.not_eq_false] at hc
      have := isPrefixOf_length_le hc
      simp [stripScheme, hc, a1] at e4
      simp at this
      omega
    have s1 : stripScheme n = n := by simp [stripScheme, a1, a2]
    rw [s1] at e3 e2
    have a3 : "www.".data.isPrefixOf n = false := by
      by_contra hc
      simp only [Bool.not_eq_false] at hc
      have := isPrefixOf_length_le hc
      simp [stripLeading, hc] at e3
      simp at this
      omega
    have s2 : stripLeading "www.".data n = n := by simp [stripLeading, a3]
    rw [s2] at e2
    refine ⟨a1, a2, a3, ?_⟩
    intro hc
    have hne : n ≠ [] := by
      rintro rfl
      simp at hc
    have : n.length ≠ 0 := by simpa using hne
    simp [stripTrailingSlash, hc] at e2
    omega
  · rintro ⟨a1, a2, a3, a4⟩
    simp [cleanDomainChars, stripScheme, stripLeading, stripTrailingSlash, a1, a2, a3, a4, hn]

/-- C8 (amended): normalizing twice gives the same as normalizing once exactly when the
normalized text no longer starts with `https://`, `http://` or `www.` and no longer ends
with a slash; each pattern is removed once, before the final trim. -/
theorem normalizeDomain_idempotent_iff (s : String) :
    normalizeDomain (normalizeDomain s) = normalizeDomain s ↔
      (startsWith (normalizeDomain s) "https://" = false ∧
        startsWith (normalizeDomain s) "http://" = false ∧
        startsWith (normalizeDomain s) "www." = false ∧
        (normalizeDomain s).data.getLast? ≠ some '/') := by
  have hn : trimChars (cleanDomainChars s.data) = cleanDomainChars s.data := by
    unfold cleanDomainChars
    exact trimChars_idem _
  have key := cleanDomainChars_fixed_iff (cleanDomainChars s.data) hn
  constructor
  · intro h
    have h2 : cleanDomainChars (cleanDomainChars s.data) = cleanDomainChars s.data :=
      congrArg String.data h
    exact key.mp h2
  · intro h
    have h2 := key.mpr h
    show String.mk (cleanDomainChars (cleanDomainChars s.data)) = String.mk (cleanDomainChars s.data)
    rw [h2]

/-! ## Social links and title checks (`runAuditChecks`) -/

/-- Lower-casing both texts keeps a leading block in place. -/
theorem isPrefixOf_map_lower (n cs : List Char) (h : n.isPrefixOf cs = true) :
    (n.map lowerChar).isPrefixOf (cs.map lowerChar) = true := by
  rw [ List.isPrefixOf_iff_prefix] at h ⊢
  obtain ⟨t, rfl⟩ := h
  exact ⟨t.map lowerChar, by simp⟩

/-- Lower-casing both texts keeps an occurrence. -/
theorem includesChars_map_lower (n cs : List Char) (h : includesChars n cs = true) :
    includesChars (n.map lowerChar) (cs.map lowerChar) = true := by
  induction cs with
  | nil =>
    cases n with
    | nil => rfl
    | cons c t => simp [includesChars] at h
  | cons c cs ih =>
    simp only [includesChars, Bool.or_eq_true] at h
    simp only [List.map_cons, includesChars, Bool.or_eq_true]
    rcases h with h | h
    · exact Or.inl (isPrefixOf_map_lower n (c :: cs) h)
    · exact Or.inr (ih h)

/-- A text containing a lower-case needle still contains it after lower-casing. -/
theorem includes_toLowerCase (s n : String) (hn : n.data.map lowerChar = n.data)
    (h : includes s n = true) : includes (toLowerCase s) n = true := by
  unfold includes toLowerCase at *
  have := includesChars_map_lower n.data s.data h
  rw [hn] at this
  exact this

/-- A text containing a non-empty needle is truthy. -/
theorem truthy_of_includes (s n : String) (hn : n.data ≠ []) (h : includes s n = true) :
    truthy s = true := by
  unfold includes at h
  unfold truthy
  cases hd : s.data with
  | nil =>
    rw [hd] at h
    cases hnd : n.data with
    | nil => exact absurd hnd hn
    | cons c t => simp [includesChars, hnd] at h
  | cons c cs => rfl

/-- The Facebook entry of `socialLinks` after one link. -/
theorem socialStep_facebook (s : SocialLinks) (a : Anchor) :
    (socialStep s a).facebook =
      if isFacebookProfile (toLowerCase (orElse (a.href.getD "") "")) then
        some (toLowerCase (orElse (a.href.getD "") ""))
      else s.facebook := by
  simp only [socialStep]
  split_ifs <;> rfl

/-- With no link passing the Facebook test, the Facebook entry keeps its value. -/
theorem foldl_socialStep_facebook_none (links : List Anchor) (s : SocialLinks)
    (h : ∀ a ∈ links, isFacebookProfile (toLowerCase (orElse (a.href.getD "") "")) = false) :
    (links.foldl socialStep s).facebook = s.facebook := by
  induction links generalizing s with
  | nil => rfl
  | cons a links ih =>
    rw [List.foldl_cons, ih _ fun x hx => h x (List.mem_cons_of_mem _ hx), socialStep_facebook,
      h a (List.mem_cons_self _ _)]
    rfl

/-- With some link passing the Facebook test, the Facebook entry holds the lower-cased
`href` of such a link. -/
theorem foldl_socialStep_facebook_some (links : List Anchor) (s : SocialLinks)
    (h : ∃ a ∈ links, isFacebookProfile (toLowerCase (orElse (a.href.getD "") "")) = true) :
    ∃ a ∈ links, isFacebookProfile (toLowerCase (orElse (a.href.getD "") "")) = true ∧
      (links.foldl socialStep s).facebook = some (toLowerCase (orElse (a.href.getD "") "")) := by
  induction links generalizing s with
  | nil =>
    obtain ⟨a, ha, _⟩ := h
    simp at ha
  | cons x links ih =>
    by_cases hrest : ∃ a ∈ links,
        isFacebookProfile (toLowerCase (orElse (a.href.getD "") "")) = true
    · obtain ⟨a, ha, hfa, hval⟩ := ih (socialStep s x) hrest
      exact ⟨a, List.mem_cons_of_mem _ ha, hfa, hval⟩
    · have hnone : ∀ a ∈ links,
          isFacebookProfile (toLowerCase (orElse (a.href.getD "") "")) = false := by
        intro a ha
        cases hv : isFacebookProfile (toLowerCase (orElse (a.href.getD "") "")) with
        | false => rfl
        | true => exact absurd ⟨a, ha, hv⟩ hrest
      obtain ⟨a, ha, hfa⟩ := h
      have hax : a = x := by
        rcases List.mem_cons.mp ha with h1 | h1
        · exact h1
        · rw [hnone a h1] at hfa
          cases hfa
      subst hax
      refine ⟨a, List.mem_cons_self _ _, hfa, ?_⟩
      rw [List.foldl_cons, foldl_socialStep_facebook_none links _ hnone, socialStep_facebook, hfa]
      rfl

/-- A lower-cased `href` that passes the Facebook test is a non-empty text. -/
theorem truthy_of_isFacebookProfile (href : String) (h : isFacebookProfile href = true) :
    truthy href = true := by
  unfold isFacebookProfile at h
  simp only [Bool.and_eq_true] at h
  exact truthy_of_includes href "facebook.com/" (by decide) h.1.1.1.1.1.1.1.1.1

/-- The `facebook` check of a document no link of which passes the Facebook test. -/
theorem facebook_check_failed (doc : Doc) (url : String)
    (h : ∀ a ∈ doc.links, isFacebookProfile (toLowerCase (orElse (a.href.getD "") "")) = false) :
    (runAuditChecks doc url).checks.facebook =
      { passed := false, category := "social", points := 0, maxPoints := 2,
        value := some "Not found" } := by
  have hs : (socialLinks doc).facebook = none := by
    unfold socialLinks
    rw [foldl_socialStep_facebook_none doc.links _ h]
  simp [runAuditChecks, buildChecks, hs, hasLink, linkOrNotFound]

/-- The `facebook` check of a document some link of which passes the Facebook test. -/
theorem facebook_check_passed (doc : Doc) (url : String)
    (h : ∃ a ∈ doc.links, isFacebookProfile (toLowerCase (orElse (a.href.getD "") "")) = true) :
    (runAuditChecks doc url).checks.facebook.passed = true ∧
    (runAuditChecks doc url).checks.facebook.points = 2 := by
  obtain ⟨a, _, hfa, hval⟩ := foldl_socialStep_facebook_some doc.links {} h
  have hs : (socialLinks doc).facebook = some (toLowerCase (orElse (a.href.getD "") "")) := hval
  have ht := truthy_of_isFacebookProfile _ hfa
  simp [runAuditChecks, buildChecks, hs, hasLink, ht]

/-- A link whose lower-cased `href` contains one of the four excluded paths fails the
Facebook test. -/
theorem isFacebookProfile_excluded (href : String)
    (h : includes href "facebook.com/sharer" = true ∨ includes href "facebook.com/share" = true ∨
      includes href "facebook.com/dialog" = true ∨ includes href "facebook.com/plugins" = true) :
    isFacebookProfile href = false := by
  unfold isFacebookProfile
  rcases h with h | h | h | h <;> simp [h]

/-- C9: a document containing a link with href `https://facebook.com/AcmeCorp` passes
the `facebook` check with 2 points; no link whose href contains `facebook.com/sharer`,
`facebook.com/share`, `facebook.com/dialog` or `facebook.com/plugins` satisfies the
check; so a document all of whose links are such links or are not Facebook links at all,
like one whose only link is `https://facebook.com/sharer.php?u=...`, has
`facebook.passed = false`, 0 points and the value `Not found`. -/
theorem facebook_check (doc : Doc) (url : String) :
    ((∃ a ∈ doc.links, a.href = some "https://facebook.com/AcmeCorp") →
      (runAuditChecks doc url).checks.facebook.passed = true ∧
      (runAuditChecks doc url).checks.facebook.points = 2) ∧
    (∀ href : String,
      (includes href "facebook.com/sharer" = true ∨ includes href "facebook.com/share" = true ∨
        includes href "facebook.com/dialog" = true ∨
        includes href "facebook.com/plugins" = true) →
      isFacebookProfile (toLowerCase href) = false) ∧
    ((∀ a ∈ doc.links,
        includes (a.href.getD "") "facebook.com/sharer" = true ∨
        includes (a.href.getD "") "facebook.com/share" = true ∨
        includes (a.href.getD "") "facebook.com/dialog" = true ∨
        includes (a.href.getD "") "facebook.com/plugins" = true ∨
        includes (toLowerCase (a.href.getD "")) "facebook.com/" = false) →
      (runAuditChecks doc url).checks.facebook =
        { passed := false, category := "social", points := 0, maxPoints := 2,
          value := some "Not found" }) ∧
    (runAuditChecks (docWithLink "https://facebook.com/sharer.php?u=https%3A%2F%2Facme.com") url
      ).checks.facebook =
        { passed := false, category := "social", points := 0, maxPoints := 2,
          value := some "Not found" } ∧
    (runAuditChecks (docWithLink "https://facebook.com/AcmeCorp") url).checks.facebook =
        { passed := true, category := "social", points := 2, maxPoints := 2,
          value := some "https://facebook.com/acmecorp" } := by
  have hex : ∀ href : String,
      (includes href "facebook.com/sharer" = true ∨ includes href "facebook.com/share" = true ∨
        includes href "facebook.com/dialog" = true ∨
        includes href "facebook.com/plugins" = true) →
      isFacebookProfile (toLowerCase href) = false := by
    intro href h
    apply isFacebookProfile_excluded
    rcases h with h | h | h | h
    · exact Or.inl (includes_toLowerCase href _ (by decide) h)
    · exact Or.inr (Or.inl (includes_toLowerCase href _ (by decide) h))
    · exact Or.inr (Or.inr (Or.inl (includes_toLowerCase href _ (by decide) h)))
    · exact Or.inr (Or.inr (Or.inr (includes_toLowerCase href _ (by decide) h)))
  have horElse : ∀ s : String, orElse s "" = s := by
    intro s
    unfold orElse truthy
    cases hd : s.data with
    | nil =>
      have : s = "" := by
        cases s
        simp only at hd
        subst hd
        rfl
      simp [this]
    | cons c cs => simp
  refine ⟨?_, hex, ?_, ?_, ?_⟩
  · rintro ⟨a, ha, hhref⟩
    apply facebook_check_passed
    refine ⟨a, ha, ?_⟩
    rw [hhref]
    decide
  · intro h
    apply facebook_check_failed
    intro a ha
    rw [horElse]
    rcases h a ha with h1 | h1 | h1 | h1 | h1
    · exact hex _ (Or.inl h1)
    · exact hex _ (Or.inr (Or.inl h1))
    · exact hex _ (Or.inr (Or.inr (Or.inl h1)))
    · exact hex _ (Or.inr (Or.inr (Or.inr h1)))
    · unfold isFacebookProfile
      simp [h1]
  · apply facebook_check_failed
    decide
  · have hs : (socialLinks (docWithLink "https://facebook.com/AcmeCorp")).facebook =
        some "https://facebook.com/acmecorp" := by decide
    simp [runAuditChecks, buildChecks, hs, hasLink, linkOrNotFound, orElse, truthy]

/-- The fallback `|| ''` changes nothing: the empty text is the only falsy one. -/
theorem orElse_empty (s : String) : orElse s "" = s := by
  unfold orElse truthy
  cases hd : s.data with
  | nil =>
    have : s = "" := by
      cases s
      simp only at hd
      subst hd
      rfl
    simp [this]
  | cons c cs => simp

/-- A text is truthy exactly when it is not the empty text. -/
theorem truthy_iff_ne_empty (s : String) : truthy s = true ↔ s ≠ "" := by
  unfold truthy
  constructor
  · intro h hs
    subst hs
    simp at h
  · intro h
    cases hd : s.data with
    | nil =>
      exfalso
      apply h
      cases s
      simp only at hd
      subst hd
      rfl
    | cons c cs => rfl

/-- C10: with the trimmed title being the trimmed text of the first `title` element (the
empty text when there is none), `title_present` earns 7 points when the trimmed title is
non-empty and 0 otherwise, and `title_length` earns 3 points exactly when the trimmed
title has between 30 and 60 characters inclusive and 1 point otherwise.  Hence a title of
45 characters earns 3, one of 20 characters earns 1, and an empty title earns 0 for
`title_present` and 1 for `title_length`. -/
theorem title_points (doc : Doc) (url : String) :
    (pageTitle doc = match doc.titles with
      | [] => ""
      | raw :: _ => trim raw) ∧
    (runAuditChecks doc url).checks.title_present.points =
      (if pageTitle doc = "" then 0 else 7) ∧
    (runAuditChecks doc url).checks.title_length.points =
      (if 30 ≤ jsLength (pageTitle doc) ∧ jsLength (pageTitle doc) ≤ 60 then 3 else 1) ∧
    ((runAuditChecks doc url).checks.title_length.points = 3 ↔
      (30 ≤ jsLength (pageTitle doc) ∧ jsLength (pageTitle doc) ≤ 60)) ∧
    (jsLength (pageTitle doc) = 45 → (runAuditChecks doc url).checks.title_length.points = 3) ∧
    (jsLength (pageTitle doc) = 20 → (runAuditChecks doc url).checks.title_length.points = 1) ∧
    (pageTitle doc = "" →
      (runAuditChecks doc url).checks.title_present.points = 0 ∧
      (runAuditChecks doc url).checks.title_length.points = 1) ∧
    ((runAuditChecks (docWithTitle " Acme Plumbing | Emergency Plumbers for Austin ")
        "https://acme.com").checks.title_length.value = some "45 chars" ∧
      (runAuditChecks (docWithTitle " Acme Plumbing | Emergency Plumbers for Austin ")
        "https://acme.com").checks.title_length.points = 3 ∧
      (runAuditChecks (docWithTitle "Acme Plumbing Austin")
        "https://acme.com").checks.title_length.value = some "20 chars" ∧
      (runAuditChecks (docWithTitle "Acme Plumbing Austin")
        "https://acme.com").checks.title_length.points = 1 ∧
      (runAuditChecks (docWithTitle "   ") "https://acme.com").checks.title_present.points = 0 ∧
      (runAuditChecks (docWithTitle "   ") "https://acme.com").checks.title_length.points = 1) := by
  have hpresent : (runAuditChecks doc url).checks.title_present.points =
      (if pageTitle doc = "" then 0 else 7) := by
    simp only [runAuditChecks, buildChecks]
    by_cases he : pageTitle doc = ""
    · simp [he, truthy]
    · simp [he, (truthy_iff_ne_empty _).mpr he]
  have hlength : (runAuditChecks doc url).checks.title_length.points =
      (if 30 ≤ jsLength (pageTitle doc) ∧ jsLength (pageTitle doc) ≤ 60 then 3 else 1) := by
    simp only [runAuditChecks, buildChecks]
    by_cases h1 : 30 ≤ jsLength (pageTitle doc) <;> by_cases h2 : jsLength (pageTitle doc) ≤ 60 <;>
      simp [h1, h2]
  refine ⟨?_, hpresent, hlength, ?_, ?_, ?_, ?_, ?_⟩
  · unfold pageTitle
    cases doc.titles with
    | nil => rfl
    | cons raw rest => exact orElse_empty _
  · rw [hlength]
    by_cases hc : 30 ≤ jsLength (pageTitle doc) ∧ jsLength (pageTitle doc) ≤ 60
    · simp [hc]
    · simp [hc]
  · intro h
    rw [hlength, h]
    rfl
  · intro h
    rw [hlength, h]
    rfl
  · intro h
    rw [hpresent, hlength, h]
    exact ⟨rfl, rfl⟩
  · decide


/-! ## End-to-end scenario -/

/-- The points of the checks of one category, read off the table of categories and
points. -/
theorem points_sum_eq (doc : Doc) (url : String) (k : String) :
    (((buildChecks doc url).entries.filter fun e => e.2.category = k).map
      fun e => e.2.points).sum =
    ((((buildChecks doc url).entries.map fun e => (e.2.category, e.2.points)).filter
      fun t => t.1 = k).map fun t => t.2).sum := by
  rw [List.filter_map, List.map_map]
  rfl

/-- The category and points of every check in the end-to-end scenario. -/
theorem acmeScenario_points (html : String) (doc : Doc) (h : acmeScenario html doc = true) :
    (buildChecks doc "https://acmeplumbing.com").entries.map (fun e => (e.2.category, e.2.points)) =
      [("technical", 8), ("technical", 5), ("technical", 6), ("technical", 6),
        ("onpage", 7), ("onpage", 3), ("onpage", 5), ("onpage", 6), ("onpage", 4),
        ("local", 8), ("local", 7), ("local", 5), ("local", 0),
        ("trust", 4), ("trust", 0), ("trust", 0), ("trust", 0),
        ("social", 0), ("social", 0), ("social", 0), ("social", 0), ("social", 0)] := by
  simp only [acmeScenario, Bool.and_eq_true, decide_eq_true_eq, Bool.not_eq_true',
    Bool.not_eq_true] at h
  obtain ⟨⟨⟨⟨⟨⟨⟨⟨⟨⟨⟨⟨⟨⟨⟨⟨_, hcan⟩, hld⟩, hidx⟩, htitle⟩, hmeta⟩, hh1⟩, himg⟩, hphone⟩, hcontact⟩,
    habout⟩, hserv⟩, hpriv⟩, hterms⟩, htest⟩, hport⟩, hsocial⟩ := h
  have hnonempty : truthy (pageTitle doc) = true := by
    apply truthy_of_jsLength_pos
    omega
  have hhttps : startsWith "https://acmeplumbing.com" "https://" = true := by decide
  simp [Checks.entries, buildChecks, hcan, hld, hidx, htitle, hmeta, hh1, himg, hphone, hcontact,
    habout, hserv, hpriv, hterms, htest, hport, hsocial, hnonempty, hhttps, hasLink]

/-- C11 (amended): in the end-to-end scenario the platform is WordPress and the category
scores are technical 25, onpage 25, local 20, trust 4 (the privacy-policy check is worth 4
points) and social 0, so that the total score is 74. -/
theorem acmeScenario_scores (html : String) (doc : Doc) (h : acmeScenario html doc = true) :
    (detectPlatform html).name = "WordPress" ∧
    (runAuditChecks doc "https://acmeplumbing.com").categories.map (fun kc => (kc.1, kc.2.score)) =
      [("technical", 25), ("onpage", 25), ("local", 20), ("trust", 4), ("social", 0)] ∧
    (runAuditChecks doc "https://acmeplumbing.com").totalScore = 74 := by
  have hp := acmeScenario_points html doc h
  have hsum := points_sum_eq doc "https://acmeplumbing.com"
  simp only [hp] at hsum
  have hcat : (runAuditChecks doc "https://acmeplumbing.com").categories.map
      (fun kc => (kc.1, kc.2.score)) =
      [("technical", 25), ("onpage", 25), ("local", 20), ("trust", 4), ("social", 0)] := by
    rw [categories_eq]
    simp only [initialCategories, List.map_cons, List.map_nil, runAuditChecks]
    rw [hsum "technical", hsum "onpage", hsum "local", hsum "trust", hsum "social"]
    decide
  refine ⟨?_, hcat, ?_⟩
  · have hw : wordpressSignature (toLowerCase html) = true := by
      simp only [acmeScenario, Bool.and_eq_true] at h
      exact h.1.1.1.1.1.1.1.1.1.1.1.1.1.1.1.1
    show (if wordpressSignature (toLowerCase html) = true then _ else _ : Platform).name = _
    rw [if_pos hw]
  · rw [totalScore_eq]
    have := congrArg (fun l => (l.map Prod.snd).sum) hcat
    simpa [List.map_map, Function.comp] using this

/-- Witness for C11: the document `acmeDoc` with the page `acmeHtml` is an instance of
the end-to-end scenario, and its total score is 74. -/
theorem acmeScenario_scores_witness :
    acmeScenario acmeHtml acmeDoc = true ∧
    (runAuditChecks acmeDoc "https://acmeplumbing.com").totalScore = 74 :=
  ⟨by decide!, (acmeScenario_scores acmeHtml acmeDoc (by decide!)).2.2⟩

/-- Counterexample to C11: `acmeDoc` with `acmeHtml` is an instance of the end-to-end
scenario in which the trust score is not 7 and the total score is not 77. -/
theorem acmeScenario_not_77 :
    acmeScenario acmeHtml acmeDoc = true ∧
    ¬ ((runAuditChecks acmeDoc "https://acmeplumbing.com").categories.map
        (fun kc => (kc.1, kc.2.score)) =
        [("technical", 25), ("onpage", 25), ("local", 20), ("trust", 7), ("social", 0)]) ∧
    (runAuditChecks acmeDoc "https://acmeplumbing.com").totalScore ≠ 77 := by decide!

/-! ## Directory readiness in detail -/

/-- The audit of `acmeplumbing.com` over `acmeNetwork`, the page parsing to
`acmeDocWithServices`, succeeds with the report `acmeReport`. -/
theorem runFullAudit_acme :
    runFullAudit acmeNetwork (fun _ => acmeDocWithServices) "acmeplumbing.com" =
      .success acmeReport := by decide!

/-- The testimonials requirement of the featured tier fails for `acmeReport`. -/
theorem acmeReport_testimonials_fail :
    ∃ req ∈ DIRECTORY_REQUIREMENTS.featured.requirements, req.key = "testimonials" ∧
      req.checkFn { url := acmeReport.url, checks := acmeReport.checks } = false := by
  refine ⟨DIRECTORY_REQUIREMENTS.featured.requirements.get ⟨6, by decide⟩,
    List.get_mem _ _ _, rfl, ?_⟩
  decide!

/-- Counterexample to C12: the audit `acmeReport` has a total score of 79, its
testimonials requirement fails, and its tier is `basic`, not `not_ready`. -/
theorem tier_basic_despite_testimonials :
    runFullAudit acmeNetwork (fun _ => acmeDocWithServices) "acmeplumbing.com" =
      .success acmeReport ∧
    acmeReport.totalScore ≥ 75 ∧
    (∃ req ∈ DIRECTORY_REQUIREMENTS.featured.requirements, req.key = "testimonials" ∧
      req.checkFn { url := acmeReport.url, checks := acmeReport.checks } = false) ∧
    acmeReport.directoryReadiness.tier = "basic" ∧
    acmeReport.directoryReadiness.tier ≠ "not_ready" := by
  exact ⟨runFullAudit_acme, by decide!, acmeReport_testimonials_fail, by decide!, by decide!⟩

/-- C12 (amended): an audit whose total score is at least 75 and whose testimonials
requirement fails is never `featured`; its tier is `basic` exactly when the four basic
requirements (https, phone, contact, title) all pass, and `not_ready` exactly when one
of them fails. -/
theorem tier_without_testimonials (net : Network) (parse : String → Doc) (domain : String)
    (report : AuditReport) (h : runFullAudit net parse domain = .success report)
    (hscore : report.totalScore ≥ 75)
    (htest : ∃ req ∈ DIRECTORY_REQUIREMENTS.featured.requirements, req.key = "testimonials" ∧
      req.checkFn { url := report.url, checks := report.checks } = false) :
    report.directoryReadiness.tier ≠ "featured" ∧
    (DIRECTORY_REQUIREMENTS.basic.requirements.map fun req => req.key) =
      ["https", "phone", "contact", "title"] ∧
    (report.directoryReadiness.tier = "basic" ↔
      ∀ req ∈ DIRECTORY_REQUIREMENTS.basic.requirements,
        req.checkFn { url := report.url, checks := report.checks } = true) ∧
    (report.directoryReadiness.tier = "not_ready" ↔
      ¬ ∀ req ∈ DIRECTORY_REQUIREMENTS.basic.requirements,
        req.checkFn { url := report.url, checks := report.checks } = true) := by
  obtain ⟨html, hc, ht, hd⟩ := runFullAudit_success net parse domain report h
  have key := directoryReadiness_tier report.url (runAuditChecks (parse html) report.url)
  rw [← hc, ← ht, ← hd] at key
  obtain ⟨k1, k2, k3⟩ := key
  obtain ⟨req, hreq, _, hfail⟩ := htest
  have hnot : ¬ (report.totalScore ≥ 75 ∧ ∀ req ∈ DIRECTORY_REQUIREMENTS.featured.requirements,
      req.checkFn { url := report.url, checks := report.checks } = true) := by
    rintro ⟨_, hall⟩
    rw [hall req hreq] at hfail
    cases hfail
  have h50 : report.totalScore ≥ 50 := by omega
  refine ⟨fun hf => hnot (k1.mp hf), rfl, ?_, ?_⟩
  · rw [k2]
    constructor
    · intro hb
      exact hb.2.2
    · intro hb
      exact ⟨hnot, h50, hb⟩
  · rw [k3]
    constructor
    · intro hb hall
      exact hb.2 ⟨h50, hall⟩
    · intro hb
      exact ⟨hnot, fun hc => hb hc.2⟩

/-- Witness for C12: the audit `acmeReport` scores 79 without testimonials, and its tier
is not `featured`. -/
theorem tier_without_testimonials_witness :
    acmeReport.totalScore ≥ 75 ∧ acmeReport.directoryReadiness.tier ≠ "featured" :=
  ⟨by decide!,
    (tier_without_testimonials acmeNetwork (fun _ => acmeDocWithServices) "acmeplumbing.com"
      acmeReport runFullAudit_acme (by decide!) acmeReport_testimonials_fail).1⟩

/-- C13: in every successful audit, whatever the tier, with `p` the number of passing
featured requirements: `passedCount` is `p`, `totalCount` is 8, `percentage` is
`100 * p / 8` rounded to the nearest integer with halves rounded up (one of 0, 13, 25,
38, 50, 63, 75, 88, 100), and the itemized list is the 8 featured requirements in
configured order, each with its own outcome, exactly `p` of them marked passed. -/
theorem readiness_percentage (net : Network) (parse : String → Doc) (domain : String)
    (report : AuditReport) (h : runFullAudit net parse domain = .success report) :
    report.directoryReadiness.passedCount =
      (DIRECTORY_REQUIREMENTS.featured.requirements.filter fun req =>
        req.checkFn { url := report.url, checks := report.checks }).length ∧
    report.directoryReadiness.totalCount = 8 ∧
    16 * report.directoryReadiness.percentage ≤ 200 * report.directoryReadiness.passedCount + 8 ∧
    200 * report.directoryReadiness.passedCount < 16 * report.directoryReadiness.percentage + 8 ∧
    report.directoryReadiness.percentage ∈ [0, 13, 25, 38, 50, 63, 75, 88, 100] ∧
    report.directoryReadiness.requirements =
      (DIRECTORY_REQUIREMENTS.featured.requirements.map fun req =>
        { key := req.key, label := req.label,
          passed := req.checkFn { url := report.url, checks := report.checks } }) ∧
    (report.directoryReadiness.requirements.map fun r => r.key) =
      ["https", "phone", "contact", "schema", "title", "description", "testimonials",
        "privacy"] ∧
    (report.directoryReadiness.requirements.filter fun r => r.passed).length =
      report.directoryReadiness.passedCount := by
  obtain ⟨html, hc, _, hd⟩ := runFullAudit_success net parse domain report h
  have hp : report.directoryReadiness.passedCount =
      (DIRECTORY_REQUIREMENTS.featured.requirements.filter fun req =>
        req.checkFn { url := report.url, checks := report.checks }).length := by
    rw [hd, hc]
    rfl
  have hreqs : report.directoryReadiness.requirements =
      (DIRECTORY_REQUIREMENTS.featured.requirements.map fun req =>
        { key := req.key, label := req.label,
          passed := req.checkFn { url := report.url, checks := report.checks } }) := by
    rw [hd, hc]
    rfl
  have hpct : report.directoryReadiness.percentage =
      (200 * report.directoryReadiness.passedCount + 8) / 16 := by
    rw [hd]
    rfl
  have hle : report.directoryReadiness.passedCount ≤ 8 := by
    rw [hp]
    exact List.length_filter_le _ _
  refine ⟨hp, ?_, ?_, ?_, ?_, hreqs, ?_, ?_⟩
  · rw [hd]
    rfl
  · omega
  · omega
  · rw [hpct]
    generalize report.directoryReadiness.passedCount = p at hle
    interval_cases p <;> decide
  · rw [hreqs, List.map_map]
    rfl
  · rw [hreqs, hp, List.filter_map, List.length_map]
    rfl

/-- Witness for C13: in the audit `acmeReport` seven of the eight featured requirements
pass and the percentage is 88. -/
theorem readiness_percentage_witness :
    acmeReport.directoryReadiness.passedCount = 7 ∧
    acmeReport.directoryReadiness.percentage = 88 ∧
    acmeReport.directoryReadiness.tier = "basic" ∧
    16 * acmeReport.directoryReadiness.percentage ≤
      200 * acmeReport.directoryReadiness.passedCount + 8 :=
  ⟨by decide!, by decide!, by decide!,
    (readiness_percentage acmeNetwork (fun _ => acmeDocWithServices) "acmeplumbing.com"
      acmeReport runFullAudit_acme).2.2.1⟩

/-! ## Order of the platform rules -/

/-- C14 (what the code does): the generic WordPress rule is the first rule, so every html
with a generic WordPress signature is classified `WordPress`, also when it carries the
Elementor or Divi signature; the two builder rules come 25th and 26th and only apply to
html without a generic WordPress signature. -/
theorem detectPlatform_wordpress_shadows_builders :
    (∀ html : String, wordpressSignature (toLowerCase html) = true →
      (detectPlatform html).name = "WordPress") ∧
    ((signatureRules.map fun r => r.result.name).indexOf "WordPress" = 0 ∧
      (signatureRules.map fun r => r.result.name).indexOf "WordPress + Elementor" = 24 ∧
      (signatureRules.map fun r => r.result.name).indexOf "WordPress + Divi" = 25) ∧
    (includes (toLowerCase "<link href=\"/wp-content/plugins/elementor/assets/css/frontend.css\">")
        "elementor" = true ∧
      (detectPlatform "<link href=\"/wp-content/plugins/elementor/assets/css/frontend.css\">").name =
        "WordPress") ∧
    (includes (toLowerCase "<script src=\"/wp-content/themes/Divi/js/et-builder.js\"></script>")
        "et-builder" = true ∧
      (detectPlatform "<script src=\"/wp-content/themes/Divi/js/et-builder.js\"></script>").name =
        "WordPress") := by
  refine ⟨?_, by decide, by decide, by decide⟩
  intro html hw
  show (if wordpressSignature (toLowerCase html) = true then _ else _ : Platform).name = _
  rw [if_pos hw]

/-! ## Social link checks in general -/

/-- The search for the last matching link, one link at a time. -/
theorem lastMatching_cons (lower : String → String) (test : String → Bool) (a : Anchor)
    (links : List Anchor) :
    lastMatching lower test (a :: links) =
      match lastMatching lower test links with
      | some h => some h
      | none => if test (linkHref lower a) then some (linkHref lower a) else none := by
  unfold lastMatching
  rw [List.reverse_cons, List.find?_append]
  cases hfind : links.reverse.find? (fun a => test (linkHref lower a)) with
  | some b => simp
  | none =>
    by_cases ht : test (linkHref lower a) = true
    · simp [ht]
    · simp [ht]

/-- No link matches exactly when the search finds nothing. -/
theorem lastMatching_eq_none (lower : String → String) (test : String → Bool)
    (links : List Anchor) :
    lastMatching lower test links = none ↔ ∀ a ∈ links, test (linkHref lower a) = false := by
  unfold lastMatching
  simp

/-- What the search finds is the lower-cased `href` of a matching link. -/
theorem lastMatching_eq_some (lower : String → String) (test : String → Bool)
    (links : List Anchor) (h : String) (hfound : lastMatching lower test links = some h) :
    ∃ a ∈ links, test (linkHref lower a) = true ∧ h = linkHref lower a := by
  unfold lastMatching at hfound
  cases hfind : links.reverse.find? (fun a => test (linkHref lower a)) with
  | none => simp [hfind] at hfound
  | some b =>
    rw [hfind] at hfound
    simp only [Option.map_some', Option.some.injEq] at hfound
    have hb := List.find?_some hfind
    have hmem := List.mem_of_find?_eq_some hfind
    exact ⟨b, List.mem_reverse.mp hmem, hb, hfound.symm⟩

/-- An entry of `socialLinks` that each link either sets to its `href` or leaves alone
ends up as the `href` of the last link that sets it. -/
theorem foldl_socialStep_entry (lower : String → String) (entry : SocialLinks → Option String)
    (test : String → Bool)
    (hstep : ∀ s a, entry (socialStepWith lower s a) =
      if test (linkHref lower a) then some (linkHref lower a) else entry s) :
    ∀ (links : List Anchor) (s : SocialLinks),
      entry (links.foldl (socialStepWith lower) s) =
        match lastMatching lower test links with
        | some h => some h
        | none => entry s := by
  intro links
  induction links with
  | nil => intro s; rfl
  | cons a links ih =>
    intro s
    rw [List.foldl_cons, ih, lastMatching_cons]
    cases lastMatching lower test links with
    | some h => rfl
    | none =>
      simp only
      rw [hstep]
      by_cases ht : test (linkHref lower a) = true
      · simp [ht]
      · simp [ht]

/-- The Facebook entry of `socialLinks` after one link, for any lower-casing. -/
theorem socialStepWith_facebook (lower : String → String) (s : SocialLinks) (a : Anchor) :
    (socialStepWith lower s a).facebook =
      if isFacebookProfile (linkHref lower a) then some (linkHref lower a) else s.facebook := by
  simp only [socialStepWith, linkHref]
  split_ifs <;> rfl

/-- The Instagram entry of `socialLinks` after one link. -/
theorem socialStepWith_instagram (lower : String → String) (s : SocialLinks) (a : Anchor) :
    (socialStepWith lower s a).instagram =
      if isInstagramProfile (linkHref lower a) then some (linkHref lower a)
      else s.instagram := by
  simp only [socialStepWith, linkHref]
  split_ifs <;> rfl

/-- The LinkedIn entry of `socialLinks` after one link. -/
theorem socialStepWith_linkedin (lower : String → String) (s : SocialLinks) (a : Anchor) :
    (socialStepWith lower s a).linkedin =
      if isLinkedInProfile (linkHref lower a) then some (linkHref lower a) else s.linkedin := by
  simp only [socialStepWith, linkHref]
  split_ifs <;> rfl

/-- The YouTube entry of `socialLinks` after one link. -/
theorem socialStepWith_youtube (lower : String → String) (s : SocialLinks) (a : Anchor) :
    (socialStepWith lower s a).youtube =
      if isYouTubeChannel (linkHref lower a) then some (linkHref lower a) else s.youtube := by
  simp only [socialStepWith, linkHref]
  split_ifs <;> rfl

/-- The Twitter entry of `socialLinks` after one link. -/
theorem socialStepWith_twitter (lower : String → String) (s : SocialLinks) (a : Anchor) :
    (socialStepWith lower s a).twitter =
      if isTwitterProfile (linkHref lower a) then some (linkHref lower a) else s.twitter := by
  simp only [socialStepWith, linkHref]
  split_ifs <;> rfl

/-- The object `socialLinks` holds, for each platform, the lower-cased `href` of the last
link that passes the platform's test. -/
theorem socialLinksWith_eq (lower : String → String) (doc : Doc) :
    socialLinksWith lower doc =
      { facebook := lastMatching lower isFacebookProfile doc.links
        instagram := lastMatching lower isInstagramProfile doc.links
        linkedin := lastMatching lower isLinkedInProfile doc.links
        youtube := lastMatching lower isYouTubeChannel doc.links
        twitter := lastMatching lower isTwitterProfile doc.links } := by
  have h1 := foldl_socialStep_entry lower (fun s => s.facebook) isFacebookProfile
    (socialStepWith_facebook lower) doc.links {}
  have h2 := foldl_socialStep_entry lower (fun s => s.instagram) isInstagramProfile
    (socialStepWith_instagram lower) doc.links {}
  have h3 := foldl_socialStep_entry lower (fun s => s.linkedin) isLinkedInProfile
    (socialStepWith_linkedin lower) doc.links {}
  have h4 := foldl_socialStep_entry lower (fun s => s.youtube) isYouTubeChannel
    (socialStepWith_youtube lower) doc.links {}
  have h5 := foldl_socialStep_entry lower (fun s => s.twitter) isTwitterProfile
    (socialStepWith_twitter lower) doc.links {}
  have e : ∀ o : Option String, (match o with | some h => some h | none => none) = o := by
    intro o
    cases o <;> rfl
  simp only [e] at h1 h2 h3 h4 h5
  unfold socialLinksWith
  cases hs : doc.links.foldl (socialStepWith lower) {} with
  | mk f i l y t =>
    rw [hs] at h1 h2 h3 h4 h5
    simp only at h1 h2 h3 h4 h5
    rw [h1, h2, h3, h4, h5]

/-- The audit engine with the method `toLowerCase` as a parameter is `runAuditChecks`
when the parameter is `toLowerCase`. -/
theorem runAuditChecksWith_toLowerCase (doc : Doc) (url : String) :
    runAuditChecksWith toLowerCase doc url = runAuditChecks doc url := rfl

/-! ## Checks that miss a case -/

/-- C15 (what the code does): a link to Instagram's share page satisfies the `instagram`
check, whose exclusion list holds only `p`, `explore`, `accounts` and `about`; and a link
to a versioned Facebook share dialog satisfies the `facebook` check, which excludes the
four tokens only directly after `facebook.com/`.  Both checks pass with 2 points. -/
theorem share_links_satisfy_checks :
    (runAuditChecks (docWithLink "https://www.instagram.com/share?url=https%3A%2F%2Facme.com")
      "https://acme.com").checks.instagram =
      { passed := true, category := "social", points := 2, maxPoints := 2,
        value := some "https://www.instagram.com/share?url=https%3a%2f%2facme.com" } ∧
    (runAuditChecks (docWithLink "https://www.facebook.com/v2.0/dialog/share?app_id=1")
      "https://acme.com").checks.facebook =
      { passed := true, category := "social", points := 2, maxPoints := 2,
        value := some "https://www.facebook.com/v2.0/dialog/share?app_id=1" } := by decide

/-- C16 (what the code does): the Twitter test looks for the text `x.com/` anywhere in
the href, so a document whose only link goes to `https://www.fedex.com/tracking` passes
the `twitter` check with 2 points and that address as value. -/
theorem twitter_check_fedex :
    isTwitterProfile (toLowerCase "https://www.fedex.com/tracking") = true ∧
    (runAuditChecks (docWithLink "https://www.fedex.com/tracking") "https://acme.com"
      ).checks.twitter =
      { passed := true, category := "social", points := 2, maxPoints := 2,
        value := some "https://www.fedex.com/tracking" } := by decide

/-- C17 (what the code does): the `testimonials` check looks for `review` in the visible
text of a link only, so a link with href `/reviews` whose text has neither word does not
pass it, while the same link with href `/testimonials` does. -/
theorem testimonials_check_href_review (doc : Doc) (url : String) :
    ((runAuditChecks doc url).checks.testimonials.passed = true ↔
      ∃ a ∈ doc.links, includes (toLowerCase a.textContent) "testimonial" = true ∨
        includes (toLowerCase a.textContent) "review" = true ∨
        includes (a.href.getD "") "testimonial" = true) ∧
    (runAuditChecks (docWithAnchor "What our clients say" "/reviews") "https://acme.com"
      ).checks.testimonials =
      { passed := false, category := "trust", points := 0, maxPoints := 5 } ∧
    (runAuditChecks (docWithAnchor "What our clients say" "/testimonials") "https://acme.com"
      ).checks.testimonials =
      { passed := true, category := "trust", points := 5, maxPoints := 5 } := by
  refine ⟨?_, by decide, by decide⟩
  simp only [runAuditChecks, buildChecks, hasTestimonialsLink, linkTexts, List.any_eq_true,
    List.mem_map, Bool.or_eq_true]
  constructor
  · rintro ⟨l, ⟨a, ha, rfl⟩, h⟩
    simp only [orElse_empty] at h
    exact ⟨a, ha, by tauto⟩
  · rintro ⟨a, ha, h⟩
    refine ⟨_, ⟨a, ha, rfl⟩, ?_⟩
    simp only [orElse_empty]
    tauto

/-- C18 (what the code does): the `portfolio` check looks at the visible text of a link
only, so a link with href `/portfolio` whose text has none of the three words does not
pass it. -/
theorem portfolio_check_href (doc : Doc) (url : String) :
    ((runAuditChecks doc url).checks.portfolio.passed = true ↔
      ∃ a ∈ doc.links, includes (toLowerCase a.textContent) "portfolio" = true ∨
        includes (toLowerCase a.textContent) "gallery" = true ∨
        includes (toLowerCase a.textContent) "work" = true) ∧
    (runAuditChecks (docWithAnchor "Our projects" "/portfolio") "https://acme.com"
      ).checks.portfolio =
      { passed := false, category := "trust", points := 0, maxPoints := 3 } := by
  refine ⟨?_, by decide⟩
  simp only [runAuditChecks, buildChecks, hasPortfolioLink, linkTexts, List.any_eq_true,
    List.mem_map, Bool.or_eq_true]
  constructor
  · rintro ⟨l, ⟨a, ha, rfl⟩, h⟩
    simp only [orElse_empty] at h
    exact ⟨a, ha, by tauto⟩
  · rintro ⟨a, ha, h⟩
    refine ⟨_, ⟨a, ha, rfl⟩, ?_⟩
    simp only [orElse_empty]
    tauto

/-- The keyword test holds exactly when some link has the keyword in its lower-cased
visible text or in its href as written. -/
theorem hasKeywordLink_iff (doc : Doc) (k : String) :
    hasKeywordLink doc k = true ↔
      ∃ a ∈ doc.links, includes (toLowerCase a.textContent) k = true ∨
        includes (a.href.getD "") k = true := by
  simp only [hasKeywordLink, linkTexts, List.any_eq_true, List.mem_map, Bool.or_eq_true]
  constructor
  · rintro ⟨l, ⟨a, ha, rfl⟩, h⟩
    simp only [orElse_empty] at h
    exact ⟨a, ha, h⟩
  · rintro ⟨a, ha, h⟩
    refine ⟨_, ⟨a, ha, rfl⟩, ?_⟩
    simp only [orElse_empty]
    exact h

/-- C19: each of `contact_page`, `about_page`, `services_page`, `privacy_policy` and
`terms` passes exactly when some link has the keyword (`contact`, `about`, `service`,
`privacy`, `terms`) in its lower-cased visible text or in its href as written; so a link
with text `Contact Us` passes `contact_page`, and a link with href `/Contact-Us` and
text `Reach us` does not. -/
theorem keyword_link_checks (doc : Doc) (url : String) :
    ((runAuditChecks doc url).checks.contact_page.passed = true ↔
      ∃ a ∈ doc.links, includes (toLowerCase a.textContent) "contact" = true ∨
        includes (a.href.getD "") "contact" = true) ∧
    ((runAuditChecks doc url).checks.about_page.passed = true ↔
      ∃ a ∈ doc.links, includes (toLowerCase a.textContent) "about" = true ∨
        includes (a.href.getD "") "about" = true) ∧
    ((runAuditChecks doc url).checks.services_page.passed = true ↔
      ∃ a ∈ doc.links, includes (toLowerCase a.textContent) "service" = true ∨
        includes (a.href.getD "") "service" = true) ∧
    ((runAuditChecks doc url).checks.privacy_policy.passed = true ↔
      ∃ a ∈ doc.links, includes (toLowerCase a.textContent) "privacy" = true ∨
        includes (a.href.getD "") "privacy" = true) ∧
    ((runAuditChecks doc url).checks.terms.passed = true ↔
      ∃ a ∈ doc.links, includes (toLowerCase a.textContent) "terms" = true ∨
        includes (a.href.getD "") "terms" = true) ∧
    (runAuditChecks (docWithAnchor "Contact Us" "/get-in-touch") "https://acme.com"
      ).checks.contact_page.passed = true ∧
    (runAuditChecks (docWithAnchor "Reach us" "/Contact-Us") "https://acme.com"
      ).checks.contact_page.passed = false :=
  ⟨hasKeywordLink_iff doc "contact", hasKeywordLink_iff doc "about",
    hasKeywordLink_iff doc "service", hasKeywordLink_iff doc "privacy",
    hasKeywordLink_iff doc "terms", by decide, by decide⟩

/-- C20 (what the code does): the `indexable` check reads the first robots meta element
only and looks for `noindex` in lower case, so it passes with 6 points when the directive
stands in a second robots meta element or is written in upper case. -/
theorem indexable_check_first_meta (doc : Doc) (url : String) :
    ((runAuditChecks doc url).checks.indexable.passed =
      !(includes (firstContent doc.robotsMetas) "noindex")) ∧
    (runAuditChecks (docWithRobots ["index, follow", "noindex"]) "https://acme.com"
      ).checks.indexable =
      { passed := true, category := "technical", points := 6, maxPoints := 6 } ∧
    (runAuditChecks (docWithRobots ["NOINDEX, NOFOLLOW"]) "https://acme.com"
      ).checks.indexable =
      { passed := true, category := "technical", points := 6, maxPoints := 6 } ∧
    (runAuditChecks (docWithRobots ["noindex"]) "https://acme.com").checks.indexable =
      { passed := false, category := "technical", points := 0, maxPoints := 6 } :=
  ⟨rfl, by decide, by decide, by decide⟩


/-! ## JSON-LD blocks and image alt text -/

/-- The loop over the JSON-LD scripts always runs to its end. -/
theorem jsonLdLoop_ok (parseJson : String → JsonLdType) (scripts : List String) :
    ∀ flag : Bool, ∃ result, jsonLdLoop parseJson scripts flag = .ok result := by
  induction scripts with
  | nil => intro flag; exact ⟨flag, rfl⟩
  | cons script rest ih =>
    intro flag
    unfold jsonLdLoop
    cases localBusinessTest (parseJson script) with
    | error e => exact ih flag
    | ok b =>
      cases b with
      | true => exact ih true
      | false => exact ih flag

/-- Whatever `JSON.parse` does, the loop over the JSON-LD scripts does not abort the
function, and the results do not depend on it. -/
theorem runAuditChecksWithJsonLd_ok (parseJson : String → JsonLdType) (doc : Doc)
    (url : String) : runAuditChecksWithJsonLd parseJson doc url = .ok (runAuditChecks doc url) := by
  obtain ⟨r, hr⟩ := jsonLdLoop_ok parseJson doc.jsonLdScripts false
  simp only [runAuditChecksWithJsonLd, hr]

/-- Counterexample to C21: two pages that differ only in the text of the JSON-LD block
in their body; the block of the first holds a phone number, which is part of the text
of the body, so the first passes `phone_visible` and scores 33, the second 25. -/
theorem jsonLd_text_changes_score :
    (runAuditChecks (pageWithBodyBlock "\x7b \"telephone\": \"512-555-0147\" \x7d")
      "https://acme.com").checks.phone_visible.passed = true ∧
    (runAuditChecks (pageWithBodyBlock "\x7b \"name\": \"Acme Plumbing\" \x7d")
      "https://acme.com").checks.phone_visible.passed = false ∧
    (runAuditChecks (pageWithBodyBlock "\x7b \"telephone\": \"512-555-0147\" \x7d")
      "https://acme.com").totalScore ≠
    (runAuditChecks (pageWithBodyBlock "\x7b \"name\": \"Acme Plumbing\" \x7d")
      "https://acme.com").totalScore := by decide

/-- C21 (amended): `json_ld_present` passes, with 6 points, exactly when the document has
at least one JSON-LD script block, whatever its content; a block whose text is not valid
JSON, or parses to `null`, a number or an object with a non-string `@type`, never aborts
`runAuditChecks`; and two documents with the same number of JSON-LD blocks that agree in
everything else, the text of the body included (as when the blocks are in the head), get
identical checks, category scores and total score. -/
theorem json_ld_present_check (doc : Doc) (url : String) :
    ((runAuditChecks doc url).checks.json_ld_present.passed = true ↔ doc.jsonLdScripts ≠ []) ∧
    (runAuditChecks doc url).checks.json_ld_present.points =
      (if doc.jsonLdScripts ≠ [] then 6 else 0) ∧
    (∀ parseJson : String → JsonLdType,
      runAuditChecksWithJsonLd parseJson doc url = .ok (runAuditChecks doc url)) ∧
    (∀ blocks : List String, blocks.length = doc.jsonLdScripts.length →
      runAuditChecks { doc with jsonLdScripts := blocks } url = runAuditChecks doc url) ∧
    (∀ (head1 head2 : List String) (body : List BodyPart), head1.length = head2.length →
      runAuditChecks (docWithBody doc head1 body) url =
        runAuditChecks (docWithBody doc head2 body) url) ∧
    (runAuditChecksWithJsonLd sampleParseJson
        (docWithBody emptyDoc ["null", "5", "typed", "not json"] []) "https://acme.com" =
      .ok (runAuditChecks (docWithBody emptyDoc ["null", "5", "typed", "not json"] [])
        "https://acme.com") ∧
      (runAuditChecks (docWithBody emptyDoc ["null", "5", "typed", "not json"] [])
        "https://acme.com").checks.json_ld_present =
        { passed := true, category := "technical", points := 6, maxPoints := 6 }) := by
  have hlen : ∀ d1 d2 : Doc, d1.titles = d2.titles → d1.metaDescriptions = d2.metaDescriptions →
      d1.h1s = d2.h1s → d1.hasCanonicalLink = d2.hasCanonicalLink →
      d1.robotsMetas = d2.robotsMetas → d1.images = d2.images →
      d1.jsonLdScripts.length = d2.jsonLdScripts.length → d1.bodyText = d2.bodyText →
      d1.links = d2.links → buildChecks d1 url = buildChecks d2 url := by
    intro d1 d2 h1 h2 h3 h4 h5 h6 h7 h8 h9
    simp only [buildChecks, pageTitle, pageH1s, imagesWithoutAlt, firstPhone, hasKeywordLink,
      hasTestimonialsLink, hasPortfolioLink, linkTexts, socialLinks, h1, h2, h3, h4, h5, h6, h7,
      h8, h9]
  have hrun : ∀ d1 d2 : Doc, buildChecks d1 url = buildChecks d2 url →
      runAuditChecks d1 url = runAuditChecks d2 url := by
    intro d1 d2 h
    simp only [runAuditChecks, h]
  refine ⟨?_, ?_, ?_, ?_, ?_, runAuditChecksWithJsonLd_ok _ _ _, by decide⟩
  · simp only [runAuditChecks, buildChecks, decide_eq_true_eq]
    cases doc.jsonLdScripts <;> simp
  · simp only [runAuditChecks, buildChecks]
    cases doc.jsonLdScripts <;> simp
  · intro parseJson
    exact runAuditChecksWithJsonLd_ok parseJson doc url
  · intro blocks hb
    exact hrun _ _ (hlen _ _ rfl rfl rfl rfl rfl rfl hb rfl rfl)
  · intro head1 head2 body hh
    exact hrun _ _ (hlen (docWithBody doc head1 body) (docWithBody doc head2 body)
      rfl rfl rfl rfl rfl rfl (by simp [docWithBody, hh]) rfl rfl)

/-- C23: `image_alt` earns 4 points when no image lacks alt text (also when the document
has no images), 2 points when one or two images lack it and 0 points when three or more
do, an image with a missing or empty `alt` attribute counting as lacking; the check is
marked passed only in the 4-point case. -/
theorem image_alt_points (doc : Doc) (url : String) :
    imagesWithoutAlt doc =
      (doc.images.filter fun alt => decide (alt = none ∨ alt = some "")).length ∧
    (doc.images = [] → (runAuditChecks doc url).checks.image_alt.points = 4) ∧
    (imagesWithoutAlt doc = 0 → (runAuditChecks doc url).checks.image_alt.points = 4) ∧
    ((imagesWithoutAlt doc = 1 ∨ imagesWithoutAlt doc = 2) →
      (runAuditChecks doc url).checks.image_alt.points = 2) ∧
    (3 ≤ imagesWithoutAlt doc → (runAuditChecks doc url).checks.image_alt.points = 0) ∧
    ((runAuditChecks doc url).checks.image_alt.passed = true ↔
      (runAuditChecks doc url).checks.image_alt.points = 4) ∧
    ((runAuditChecks doc url).checks.image_alt.passed = true ↔ imagesWithoutAlt doc = 0) := by
  have hcount : imagesWithoutAlt doc =
      (doc.images.filter fun alt => decide (alt = none ∨ alt = some "")).length := by
    unfold imagesWithoutAlt
    congr 1
    apply List.filter_congr
    intro alt _
    cases alt with
    | none => simp [truthy]
    | some s =>
      have := truthy_iff_ne_empty s
      by_cases hs : s = ""
      · subst hs
        simp [truthy]
      · simp [this.mpr hs, hs]
  have hpts : (runAuditChecks doc url).checks.image_alt.points =
      (if imagesWithoutAlt doc = 0 then 4 else (if imagesWithoutAlt doc < 3 then 2 else 0)) := rfl
  have hpass : (runAuditChecks doc url).checks.image_alt.passed =
      decide (imagesWithoutAlt doc = 0) := rfl
  refine ⟨hcount, ?_, ?_, ?_, ?_, ?_, ?_⟩
  · intro h
    rw [hpts, hcount, h]
    rfl
  · intro h
    rw [hpts, h]
    rfl
  · intro h
    rw [hpts]
    rcases h with h | h <;> rw [h] <;> rfl
  · intro h
    rw [hpts]
    have h0 : ¬ imagesWithoutAlt doc = 0 := by omega
    have h3 : ¬ imagesWithoutAlt doc < 3 := by omega
    simp [h0, h3]
  · rw [hpts, hpass]
    by_cases h0 : imagesWithoutAlt doc = 0
    · simp [h0]
    · by_cases h3 : imagesWithoutAlt doc < 3 <;> simp [h0, h3]
  · rw [hpass]
    simp

/-! ## Values of the social checks -/

/-- A social check built from the last link that passes the platform's test meets the
specification of a social check, with the lower-cased `href` as value. -/
theorem socialCheckSpec_of_lastMatching (lower : String → String) (test : String → Bool)
    (links : List Anchor) (hempty : test "" = false) (hnf : test "Not found" = false) :
    SocialCheckSpec lower test links
      { passed := hasLink (lastMatching lower test links), category := "social",
        points := if hasLink (lastMatching lower test links) then 2 else 0, maxPoints := 2,
        value := some (linkOrNotFound (lastMatching lower test links)) } := by
  unfold SocialCheckSpec
  cases hl : lastMatching lower test links with
  | none =>
    have hall := (lastMatching_eq_none lower test links).mp hl
    refine ⟨rfl, rfl, ?_, ?_, ?_⟩
    · simp only [hasLink]
      constructor
      · intro h
        cases h
      · rintro ⟨a, ha, hta⟩
        rw [hall a ha] at hta
        cases hta
    · simp [hasLink, linkOrNotFound]
    · intro h
      cases h
  | some h =>
    obtain ⟨a, ha, hta, hh⟩ := lastMatching_eq_some lower test links h hl
    have hne : h ≠ "" := by
      intro he
      rw [← hh, he, hempty] at hta
      cases hta
    have hnn : h ≠ "Not found" := by
      intro he
      rw [← hh, he, hnf] at hta
      cases hta
    have htr : truthy h = true := (truthy_iff_ne_empty h).mpr hne
    have hval : linkOrNotFound (some h) = h := by
      simp [linkOrNotFound, orElse, htr]
    refine ⟨rfl, rfl, ?_, ?_, ?_⟩
    · simp only [hasLink, htr, true_iff]
      exact ⟨a, ha, hta⟩
    · simp only [hval, hasLink, htr, Option.some.injEq]
      constructor
      · intro he
        exact absurd he hnn
      · intro he
        cases he
    · intro _
      exact ⟨a, ha, hta, by rw [hval, hh]⟩

/-- Counterexample to C22: for a link with href `https://facebook.com/AcmeCorp` the
`facebook` check passes, and its value is `https://facebook.com/acmecorp`, not the href
as written in the document. -/
theorem social_value_is_lowercased :
    (runAuditChecks (docWithLink "https://facebook.com/AcmeCorp") "https://acme.com"
      ).checks.facebook.passed = true ∧
    (runAuditChecks (docWithLink "https://facebook.com/AcmeCorp") "https://acme.com"
      ).checks.facebook.value = some "https://facebook.com/acmecorp" ∧
    (runAuditChecks (docWithLink "https://facebook.com/AcmeCorp") "https://acme.com"
      ).checks.facebook.value ≠ some "https://facebook.com/AcmeCorp" := by decide

/-- C22 (amended): whatever the method `toLowerCase` does (`lower`), for each of the five
social checks the value is `Not found` exactly when the check fails, and when the check
passes it is the lower-cased `href` attribute, `href.toLowerCase()`, of a link that
satisfies the check (`https://facebook.com/acmecorp` for a link with href
`https://facebook.com/AcmeCorp`); each passing social check earns exactly 2 points and
each failing one none. -/
theorem social_check_values (lower : String → String) (doc : Doc) (url : String) :
    SocialCheckSpec lower isFacebookProfile doc.links
      (runAuditChecksWith lower doc url).checks.facebook ∧
    SocialCheckSpec lower isInstagramProfile doc.links
      (runAuditChecksWith lower doc url).checks.instagram ∧
    SocialCheckSpec lower isLinkedInProfile doc.links
      (runAuditChecksWith lower doc url).checks.linkedin ∧
    SocialCheckSpec lower isYouTubeChannel doc.links
      (runAuditChecksWith lower doc url).checks.youtube ∧
    SocialCheckSpec lower isTwitterProfile doc.links
      (runAuditChecksWith lower doc url).checks.twitter ∧
    (∀ a : Anchor, linkHref lower a = lower (a.href.getD "")) ∧
    (lower "https://facebook.com/AcmeCorp" = "https://facebook.com/acmecorp" →
      (runAuditChecksWith lower (docWithLink "https://facebook.com/AcmeCorp") url
        ).checks.facebook =
        { passed := true, category := "social", points := 2, maxPoints := 2,
          value := some "https://facebook.com/acmecorp" }) ∧
    (runAuditChecksWith toLowerCase doc url = runAuditChecks doc url ∧
      (runAuditChecks (docWithLink "https://facebook.com/AcmeCorp") "https://acme.com"
        ).checks.facebook =
        { passed := true, category := "social", points := 2, maxPoints := 2,
          value := some "https://facebook.com/acmecorp" }) := by
  have hs := socialLinksWith_eq lower doc
  have h1 : (runAuditChecksWith lower doc url).checks.facebook =
      { passed := hasLink (lastMatching lower isFacebookProfile doc.links), category := "social",
        points := if hasLink (lastMatching lower isFacebookProfile doc.links) then 2 else 0,
        maxPoints := 2,
        value := some (linkOrNotFound (lastMatching lower isFacebookProfile doc.links)) } := by
    simp only [runAuditChecksWith, buildChecksWith, hs]
  have h2 : (runAuditChecksWith lower doc url).checks.instagram =
      { passed := hasLink (lastMatching lower isInstagramProfile doc.links), category := "social",
        points := if hasLink (lastMatching lower isInstagramProfile doc.links) then 2 else 0,
        maxPoints := 2,
        value := some (linkOrNotFound (lastMatching lower isInstagramProfile doc.links)) } := by
    simp only [runAuditChecksWith, buildChecksWith, hs]
  have h3 : (runAuditChecksWith lower doc url).checks.linkedin =
      { passed := hasLink (lastMatching lower isLinkedInProfile doc.links), category := "social",
        points := if hasLink (lastMatching lower isLinkedInProfile doc.links) then 2 else 0,
        maxPoints := 2,
        value := some (linkOrNotFound (lastMatching lower isLinkedInProfile doc.links)) } := by
    simp only [runAuditChecksWith, buildChecksWith, hs]
  have h4 : (runAuditChecksWith lower doc url).checks.youtube =
      { passed := hasLink (lastMatching lower isYouTubeChannel doc.links), category := "social",
        points := if hasLink (lastMatching lower isYouTubeChannel doc.links) then 2 else 0,
        maxPoints := 2,
        value := some (linkOrNotFound (lastMatching lower isYouTubeChannel doc.links)) } := by
    simp only [runAuditChecksWith, buildChecksWith, hs]
  have h5 : (runAuditChecksWith lower doc url).checks.twitter =
      { passed := hasLink (lastMatching lower isTwitterProfile doc.links), category := "social",
        points := if hasLink (lastMatching lower isTwitterProfile doc.links) then 2 else 0,
        maxPoints := 2,
        value := some (linkOrNotFound (lastMatching lower isTwitterProfile doc.links)) } := by
    simp only [runAuditChecksWith, buildChecksWith, hs]
  rw [h1, h2, h3, h4, h5]
  refine ⟨socialCheckSpec_of_lastMatching _ _ _ (by decide) (by decide),
    socialCheckSpec_of_lastMatching _ _ _ (by decide) (by decide),
    socialCheckSpec_of_lastMatching _ _ _ (by decide) (by decide),
    socialCheckSpec_of_lastMatching _ _ _ (by decide) (by decide),
    socialCheckSpec_of_lastMatching _ _ _ (by decide) (by decide), ?_, ?_, rfl, by decide⟩
  · intro a
    unfold linkHref
    rw [orElse_empty]
  · intro hl
    have hfb : isFacebookProfile "https://facebook.com/acmecorp" = true := by decide
    have htr : truthy "https://facebook.com/acmecorp" = true := by decide
    have hor : orElse "https://facebook.com/AcmeCorp" "" = "https://facebook.com/AcmeCorp" :=
      orElse_empty _
    have hsl : (socialLinksWith lower (docWithLink "https://facebook.com/AcmeCorp")).facebook =
        some "https://facebook.com/acmecorp" := by
      show (socialStepWith lower {} _).facebook = _
      rw [socialStepWith_facebook]
      simp [linkHref, hor, hl, hfb]
    simp [runAuditChecksWith, buildChecksWith, hsl, hasLink, linkOrNotFound, orElse, htr]

/-! ## Title length and its explanation -/

/-- C24 (what the code does): the explanation of `title_length` names 50 to 60
characters as the right length, and the check is marked passed for every title of 30 to
60 characters, such as one of 40 characters. -/
theorem title_length_passed_from_30 (doc : Doc) (url : String) :
    includes CHECK_EXPLANATIONS_title_length.whatItMeans "(50-60 characters)" = true ∧
    ((runAuditChecks doc url).checks.title_length.passed = true ↔
      (30 ≤ jsLength (pageTitle doc) ∧ jsLength (pageTitle doc) ≤ 60)) ∧
    (jsLength (pageTitle (docWithTitle "Acme Plumbing | Trusted Plumbers, Austin")) = 40 ∧
      (runAuditChecks (docWithTitle "Acme Plumbing | Trusted Plumbers, Austin")
        "https://acme.com").checks.title_length =
        { passed := true, category := "onpage", points := 3, maxPoints := 3,
          value := some "40 chars" }) := by
  refine ⟨by decide, ?_, by decide, by decide⟩
  simp [runAuditChecks, buildChecks]

/-! ## Platform classifier: default and input dependence -/

/-- First-match search returns the default or the result of a rule of the table. -/
theorem firstMatch_mem (rules : List SignatureRule) (h : String) :
    firstMatch rules h ∈ unknownPlatform :: rules.map fun r => r.result := by
  induction rules with
  | nil => simp [firstMatch]
  | cons r rs ih =>
    simp only [firstMatch]
    split_ifs
    · simp
    · simp only [List.map_cons, List.mem_cons] at ih ⊢
      rcases ih with ih | ih
      · exact Or.inl ih
      · exact Or.inr (Or.inr ih)

/-- C25: html whose lower-cased text matches none of the rules of the table, the generic
heuristics (Bootstrap, jQuery, hosting providers, CMS token) included, and in particular
the empty text, is classified `Custom/Unknown` with confidence 30 and fixability
`unknown`; and for every html the confidence is within 0 and 100 and the fixability is
one of full, partial, limited, unknown. -/
theorem detectPlatform_default_and_ranges (html : String) :
    ((∀ r ∈ signatureRules, r.applies (toLowerCase html) = false) →
      (detectPlatform html).name = "Custom/Unknown" ∧ (detectPlatform html).confidence = 30 ∧
      (detectPlatform html).canFix = "unknown") ∧
    ((signatureRules.map fun r => r.result.name).drop 29 =
      ["Custom (Bootstrap)", "Custom Built", "Custom/Static", "Unknown CMS"]) ∧
    ((detectPlatform "").name = "Custom/Unknown" ∧ (detectPlatform "").confidence = 30 ∧
      (detectPlatform "").canFix = "unknown") ∧
    (0 ≤ (detectPlatform html).confidence ∧ (detectPlatform html).confidence ≤ 100) ∧
    (detectPlatform html).canFix ∈ ["full", "partial", "limited", "unknown"] := by
  have href : detectPlatform html = firstMatch signatureRules (toLowerCase html) := rfl
  have hall : ∀ p ∈ unknownPlatform :: signatureRules.map (fun r => r.result),
      p.confidence ≤ 100 ∧ p.canFix ∈ ["full", "partial", "limited", "unknown"] := by decide
  have hmem := firstMatch_mem signatureRules (toLowerCase html)
  rw [← href] at hmem
  refine ⟨?_, by decide, by decide, ⟨Nat.zero_le _, (hall _ hmem).1⟩, (hall _ hmem).2⟩
  intro hnone
  rw [href, firstMatch_none signatureRules _ hnone]
  exact ⟨rfl, rfl, rfl⟩

/-- C26: `detectPlatform` depends only on the lower-cased form of its input: two html
texts with the same lower-casing get the same platform result. -/
theorem detectPlatform_lowercase_only (html1 html2 : String)
    (h : toLowerCase html1 = toLowerCase html2) : detectPlatform html1 = detectPlatform html2 := by
  unfold detectPlatform
  rw [h]

/-- Witness for C26: a page naming `WP-CONTENT` in upper case and the same page in lower
case are both classified WordPress. -/
theorem detectPlatform_lowercase_only_witness :
    toLowerCase "<link href=\"/WP-CONTENT/themes/acme/style.css\">" =
      toLowerCase "<link href=\"/wp-content/themes/acme/style.css\">" ∧
    detectPlatform "<link href=\"/WP-CONTENT/themes/acme/style.css\">" =
      detectPlatform "<link href=\"/wp-content/themes/acme/style.css\">" ∧
    (detectPlatform "<link href=\"/WP-CONTENT/themes/acme/style.css\">").name = "WordPress" :=
  ⟨by decide,
    detectPlatform_lowercase_only "<link href=\"/WP-CONTENT/themes/acme/style.css\">"
      "<link href=\"/wp-content/themes/acme/style.css\">" (by decide),
    by decide⟩

/-! ## Failed audits -/

/-- A failure returned by `fetchWithRetries` is the failure built at its end. -/
theorem fetchWithRetries_failed_eq (net : Network) (domain : String)
    (h : (fetchWithRetries net domain).1.success = false) :
    (fetchWithRetries net domain).1 = unreachableFailure domain := by
  obtain ⟨_, h2, h3⟩ := fetchWithRetries_spec net domain
  cases hfa : firstAccepted net (attemptOrder domain) with
  | none => exact h3 hfa
  | some a =>
    obtain ⟨html, _, hres⟩ := h2 a hfa
    rw [hres] at h
    cases h

/-- C27: for every domain and every behaviour of the relays, a failed `runFullAudit`
result has `unreachable = true` and `noPresence = false`: every failure of
`fetchWithRetries` is the one flagged unreachable, so the branch of `runFullAudit` that
returns `noPresence = true` is never taken. -/
theorem runFullAudit_failure_unreachable (net : Network) (parse : String → Doc)
    (domain error failedDomain : String) (noPresence : Bool) (unreachable : Option Bool)
    (h : runFullAudit net parse domain = .failure error noPresence unreachable failedDomain) :
    noPresence = false ∧ unreachable = some true ∧
    failedDomain = normalizeDomain domain ∧
    (fetchWithRetries net (normalizeDomain domain)).1 =
      .failed error (some false) (some true) ∧
    (∀ d : String, (fetchWithRetries net d).1.success = false →
      ∃ e, (fetchWithRetries net d).1 = .failed e (some false) (some true)) := by
  have hgen : ∀ d : String, (fetchWithRetries net d).1.success = false →
      ∃ e, (fetchWithRetries net d).1 = .failed e (some false) (some true) :=
    fun d hd => ⟨_, fetchWithRetries_failed_eq net d hd⟩
  simp only [runFullAudit] at h
  cases hres : (fetchWithRetries net (normalizeDomain domain)).1 with
  | ok html url proxy =>
    rw [hres] at h
    dsimp only at h
    cases h
  | failed e np un =>
    have hfail : (fetchWithRetries net (normalizeDomain domain)).1.success = false := by
      rw [hres]
      rfl
    have heq := fetchWithRetries_failed_eq net (normalizeDomain domain) hfail
    rw [hres] at heq
    unfold unreachableFailure at heq
    injection heq with he hnp hun
    subst hnp hun
    rw [hres] at h
    dsimp only at h
    rw [if_pos (by rfl)] at h
    injection h with h1 h2 h3 h4
    subst h1 h2 h3 h4
    exact ⟨rfl, rfl, rfl, rfl, hgen⟩

/-- Witness for C27: when every request times out, the audit of `example.com` fails
with `noPresence = false` and `unreachable = true`, as does its retrieval. -/
theorem runFullAudit_failure_witness :
    runFullAudit deadNetwork sampleParse "https://www.example.com/" =
      .failure ("Could not reach example.com after trying all URL variations and proxies. " ++
        "The site may have bot protection or be temporarily unavailable.")
        false (some true) "example.com" ∧
    (fetchWithRetries deadNetwork (normalizeDomain "https://www.example.com/")).1 =
      .failed ("Could not reach example.com after trying all URL variations and proxies. " ++
        "The site may have bot protection or be temporarily unavailable.")
        (some false) (some true) :=
  ⟨by decide!,
    (runFullAudit_failure_unreachable deadNetwork sampleParse "https://www.example.com/"
      ("Could not reach example.com after trying all URL variations and proxies. " ++
        "The site may have bot protection or be temporarily unavailable.")
      "example.com" false (some true) (by decide!)).2.2.2.1⟩

/-! ## Points and passing -/

/-- C28: each of the 22 checks is marked passed exactly when its points equal its
maximum; a failed check earns 0 points, except `title_length`, which earns 1, and
`image_alt`, which earns 2 when one or two images lack alt text. -/
theorem passed_iff_full_points (doc : Doc) (url : String) :
    (runAuditChecks doc url).checks.entries.length = 22 ∧
    (∀ e ∈ (runAuditChecks doc url).checks.entries,
      (e.2.passed = true ↔ e.2.points = e.2.maxPoints) ∧
      (e.2.passed = false → e.1 ≠ "title_length" → e.1 ≠ "image_alt" → e.2.points = 0)) ∧
    ((runAuditChecks doc url).checks.title_length.passed = false →
      (runAuditChecks doc url).checks.title_length.points = 1) ∧
    ((runAuditChecks doc url).checks.image_alt.passed = false →
      (runAuditChecks doc url).checks.image_alt.points =
        (if imagesWithoutAlt doc = 1 ∨ imagesWithoutAlt doc = 2 then 2 else 0)) := by
  refine ⟨rfl, ?_, ?_, ?_⟩
  · intro e he
    simp only [runAuditChecks, Checks.entries, List.mem_cons, List.mem_singleton,
      List.not_mem_nil, or_false] at he
    rcases he with h | h | h | h | h | h | h | h | h | h | h | h | h | h | h | h | h | h | h |
      h | h | h <;>
      (subst h; simp only [buildChecks]; split_ifs <;> simp_all)
  · intro h
    simp only [runAuditChecks, buildChecks] at h ⊢
    split_ifs <;> simp_all
  · intro h
    simp only [runAuditChecks, buildChecks, decide_eq_false_iff_not] at h ⊢
    by_cases h1 : imagesWithoutAlt doc = 1
    · simp [h1]
    · by_cases h2 : imagesWithoutAlt doc = 2
      · simp [h2]
      · have h3 : ¬ imagesWithoutAlt doc < 3 := by omega
        simp [h, h1, h2, h3]

/-! ## Lowest scores and tier consequences -/

/-- The total score is the sum of the points of the 22 checks. -/
theorem totalScore_eq_sum_points (doc : Doc) (url : String) :
    (runAuditChecks doc url).totalScore =
      ((buildChecks doc url).entries.map fun e => e.2.points).sum := by
  rw [totalScore_eq, categories_eq]
  have hsum := points_sum_eq doc url
  have htable : (buildChecks doc url).entries.map (fun e => (e.2.category, e.2.points)) =
      [("technical", (buildChecks doc url).https_enabled.points),
        ("technical", (buildChecks doc url).canonical_tags.points),
        ("technical", (buildChecks doc url).indexable.points),
        ("technical", (buildChecks doc url).json_ld_present.points),
        ("onpage", (buildChecks doc url).title_present.points),
        ("onpage", (buildChecks doc url).title_length.points),
        ("onpage", (buildChecks doc url).meta_description.points),
        ("onpage", (buildChecks doc url).h1_present.points),
        ("onpage", (buildChecks doc url).image_alt.points),
        ("local", (buildChecks doc url).phone_visible.points),
        ("local", (buildChecks doc url).contact_page.points),
        ("local", (buildChecks doc url).about_page.points),
        ("local", (buildChecks doc url).services_page.points),
        ("trust", (buildChecks doc url).privacy_policy.points),
        ("trust", (buildChecks doc url).terms.points),
        ("trust", (buildChecks doc url).testimonials.points),
        ("trust", (buildChecks doc url).portfolio.points),
        ("social", (buildChecks doc url).facebook.points),
        ("social", (buildChecks doc url).instagram.points),
        ("social", (buildChecks doc url).linkedin.points),
        ("social", (buildChecks doc url).youtube.points),
        ("social", (buildChecks doc url).twitter.points)] := rfl
  rw [htable] at hsum
  simp only [initialCategories, List.map_cons, List.map_nil, runAuditChecks, List.sum_cons,
    List.sum_nil]
  rw [hsum "technical", hsum "onpage", hsum "local", hsum "trust", hsum "social"]
  simp [Checks.entries]
  omega

/-- C29: the total score is at least 1 for every document and URL, because
`title_length` earns at least 1 point, so a score of 0 cannot occur; and a document with
no elements at all audited over an `http` URL scores exactly 11, from `indexable` (6),
`image_alt` (4) and `title_length` (1). -/
theorem totalScore_at_least_one (doc : Doc) (url : String) :
    1 ≤ (runAuditChecks doc url).checks.title_length.points ∧
    1 ≤ (runAuditChecks doc url).totalScore ∧
    (runAuditChecks doc url).totalScore ≠ 0 ∧
    (runAuditChecks emptyDoc "http://example.com").totalScore = 11 ∧
    ((runAuditChecks emptyDoc "http://example.com").checks.entries.filter
        fun e => decide (e.2.points ≠ 0)).map (fun e => (e.1, e.2.points)) =
      [("indexable", 6), ("title_length", 1), ("image_alt", 4)] := by
  have h1 : 1 ≤ (runAuditChecks doc url).checks.title_length.points := by
    simp only [runAuditChecks, buildChecks]
    split_ifs <;> decide
  have h2 : 1 ≤ (runAuditChecks doc url).totalScore := by
    rw [totalScore_eq_sum_points]
    have h1' : 1 ≤ (buildChecks doc url).title_length.points := h1
    simp only [Checks.entries, List.map_cons, List.map_nil, List.sum_cons, List.sum_nil]
    omega
  exact ⟨h1, h2, by omega, by decide, by decide⟩

/-- The number of featured requirements that pass when the four basic ones do. -/
theorem featured_count_of_basic (audit : AuditView)
    (h : ∀ req ∈ DIRECTORY_REQUIREMENTS.basic.requirements, req.checkFn audit = true) :
    4 ≤ (DIRECTORY_REQUIREMENTS.featured.requirements.filter
      fun req => req.checkFn audit).length := by
  have h0 : startsWith audit.url "https" = true :=
    h (DIRECTORY_REQUIREMENTS.basic.requirements.get ⟨0, by decide⟩) (List.get_mem _ _ _)
  have h1 : audit.checks.phone_visible.passed = true :=
    h (DIRECTORY_REQUIREMENTS.basic.requirements.get ⟨1, by decide⟩) (List.get_mem _ _ _)
  have h2 : audit.checks.contact_page.passed = true :=
    h (DIRECTORY_REQUIREMENTS.basic.requirements.get ⟨2, by decide⟩) (List.get_mem _ _ _)
  have h3 : audit.checks.title_present.passed = true :=
    h (DIRECTORY_REQUIREMENTS.basic.requirements.get ⟨3, by decide⟩) (List.get_mem _ _ _)
  simp only [DIRECTORY_REQUIREMENTS, List.filter_cons, h0, h1, h2, h3, if_true, List.filter_nil]
  split_ifs <;> simp

/-- C30: each of the four basic requirements is among the eight featured requirements,
with the same predicate, and the minimum score of basic is lower, so the featured
conditions imply the basic ones; hence in every audit result the tier `featured` implies
`passedCount = 8` and `percentage = 100`, and the tier `basic` implies
`passedCount ≥ 4`, `percentage ≥ 50` and (`totalScore < 75` or `passedCount < 8`). -/
theorem tier_consequences (net : Network) (parse : String → Doc) (domain : String)
    (report : AuditReport) (h : runFullAudit net parse domain = .success report) :
    (∀ req ∈ DIRECTORY_REQUIREMENTS.basic.requirements,
      ∃ req' ∈ DIRECTORY_REQUIREMENTS.featured.requirements,
        req'.key = req.key ∧ req'.label = req.label ∧
        ∀ audit, req'.checkFn audit = req.checkFn audit) ∧
    DIRECTORY_REQUIREMENTS.basic.minScore < DIRECTORY_REQUIREMENTS.featured.minScore ∧
    ((report.totalScore ≥ 75 ∧ ∀ req ∈ DIRECTORY_REQUIREMENTS.featured.requirements,
        req.checkFn { url := report.url, checks := report.checks } = true) →
      (report.totalScore ≥ 50 ∧ ∀ req ∈ DIRECTORY_REQUIREMENTS.basic.requirements,
        req.checkFn { url := report.url, checks := report.checks } = true)) ∧
    (report.directoryReadiness.tier = "featured" →
      report.directoryReadiness.passedCount = 8 ∧ report.directoryReadiness.percentage = 100) ∧
    (report.directoryReadiness.tier = "basic" →
      report.directoryReadiness.passedCount ≥ 4 ∧ report.directoryReadiness.percentage ≥ 50 ∧
      (report.totalScore < 75 ∨ report.directoryReadiness.passedCount < 8)) := by
  have hsub : ∀ req ∈ DIRECTORY_REQUIREMENTS.basic.requirements,
      ∃ req' ∈ DIRECTORY_REQUIREMENTS.featured.requirements,
        req'.key = req.key ∧ req'.label = req.label ∧
        ∀ audit, req'.checkFn audit = req.checkFn audit := by
    intro req hreq
    simp only [DIRECTORY_REQUIREMENTS, List.mem_cons, List.mem_singleton, List.not_mem_nil,
      or_false] at hreq
    rcases hreq with rfl | rfl | rfl | rfl
    · exact ⟨DIRECTORY_REQUIREMENTS.featured.requirements.get ⟨0, by decide⟩,
        List.get_mem _ _ _, rfl, rfl, fun _ => rfl⟩
    · exact ⟨DIRECTORY_REQUIREMENTS.featured.requirements.get ⟨1, by decide⟩,
        List.get_mem _ _ _, rfl, rfl, fun _ => rfl⟩
    · exact ⟨DIRECTORY_REQUIREMENTS.featured.requirements.get ⟨2, by decide⟩,
        List.get_mem _ _ _, rfl, rfl, fun _ => rfl⟩
    · exact ⟨DIRECTORY_REQUIREMENTS.featured.requirements.get ⟨4, by decide⟩,
        List.get_mem _ _ _, rfl, rfl, fun _ => rfl⟩
  obtain ⟨html, hc, ht, hd⟩ := runFullAudit_success net parse domain report h
  have key := directoryReadiness_tier report.url (runAuditChecks (parse html) report.url)
  rw [← hc, ← ht, ← hd] at key
  obtain ⟨k1, k2, _⟩ := key
  have hp : report.directoryReadiness.passedCount =
      (DIRECTORY_REQUIREMENTS.featured.requirements.filter fun req =>
        req.checkFn { url := report.url, checks := report.checks }).length := by
    rw [hd, hc]
    rfl
  have hpct : report.directoryReadiness.percentage =
      (200 * report.directoryReadiness.passedCount + 8) / 16 := by
    rw [hd]
    rfl
  have hle : report.directoryReadiness.passedCount ≤ 8 := by
    rw [hp]
    exact List.length_filter_le _ _
  have hall8 : (∀ req ∈ DIRECTORY_REQUIREMENTS.featured.requirements,
      req.checkFn { url := report.url, checks := report.checks } = true) ↔
      report.directoryReadiness.passedCount = 8 := by
    rw [hp]
    exact (List.filter_length_eq_length (p := fun req : Requirement =>
      req.checkFn { url := report.url, checks := report.checks })
      (l := DIRECTORY_REQUIREMENTS.featured.requirements)).symm
  refine ⟨hsub, by decide, ?_, ?_, ?_⟩
  · rintro ⟨hs, hall⟩
    refine ⟨by omega, ?_⟩
    intro req hreq
    obtain ⟨req', hmem, _, _, hfn⟩ := hsub req hreq
    rw [← hfn]
    exact hall req' hmem
  · intro htier
    have h8 := hall8.mp (k1.mp htier).2
    refine ⟨h8, ?_⟩
    rw [hpct, h8]
  · intro htier
    obtain ⟨hnot, _, hbasic⟩ := k2.mp htier
    have h4 : 4 ≤ report.directoryReadiness.passedCount := by
      rw [hp]
      exact featured_count_of_basic _ hbasic
    refine ⟨h4, by omega, ?_⟩
    by_cases hs : report.totalScore < 75
    · exact Or.inl hs
    · right
      have hne : report.directoryReadiness.passedCount ≠ 8 := by
        intro h8
        exact hnot ⟨by omega, hall8.mpr h8⟩
      omega

/-- Witness for C30: the audit `acmeReport` has the tier `basic`, with 7 of the 8
featured requirements passed. -/
theorem tier_consequences_witness :
    acmeReport.directoryReadiness.tier = "basic" ∧
    acmeReport.directoryReadiness.passedCount ≥ 4 ∧
    acmeReport.directoryReadiness.percentage ≥ 50 ∧
    (acmeReport.totalScore < 75 ∨ acmeReport.directoryReadiness.passedCount < 8) :=
  ⟨by decide!,
    (tier_consequences acmeNetwork (fun _ => acmeDocWithServices) "acmeplumbing.com"
      acmeReport runFullAudit_acme).2.2.2.2 (by decide!)⟩

end Ourgorithm
